import Mathlib

/-!
# DOS Defender (`dosdef.c`): a shallow embedding of the simulation core

The C program keeps its whole state in file-scope variables (`ticks`, `score`,
`best_score`, `speaker`, `ending_played` and the four entity pools).  The
embedding gathers them in one record, `World`, and every C function becomes a
Lean function that takes the world and returns the new one (together with the
C return value when there is one).

Conventions.

* `int32_t` values are integers kept in range by `i32` (two's complement
  wrap-around) after every arithmetic step; C division is `Int.tdiv`
  (truncation toward zero).
* `unsigned` / `tick_t` values are naturals below `2^32`; additions that can
  leave the range are reduced by `u32`.  `uint8_t` / `uint16_t` stores that can
  leave their range are reduced by `u8` / `u16`.
* The pools are lists; slot `i` is read with `World.ship`, `World.bullet`, ...
  (a slot outside the list reads as the all-zero record) and written with
  `World.setShip`, ...  A freshly reset world has lists of exactly
  `ships_max`, `bullets_max`, `particles_max`, `powerups_max` slots.
* Drawing (`vga_*`, `*_draw`, `print_*`) has no effect on the state and is
  left out, except that `particle_draw` consumes one random draw.
* Function pointers (`ai`, `power`) and sample pointers are enumerations with
  a `null` member for the zero pointer.
-/

namespace DosDefender

/-! ## Machine integers -/

/-- Two's complement reduction of an integer to the `int32_t` range. -/
def i32 (v : Int) : Int := (v + 2147483648) % 4294967296 - 2147483648

/-- Reduction to the `unsigned` (32 bit) range. -/
def u32 (n : Nat) : Nat := n % 4294967296

/-- Reduction to the `uint16_t` range. -/
def u16 (n : Nat) : Nat := n % 65536

/-- Reduction to the `uint8_t` range. -/
def u8 (n : Nat) : Nat := n % 256

/-! ## Constants of `dosdef.c` -/

def SCALE : Nat := 1000
def BULLET_SPEED : Int := 3
def PARTICLE_MAX_AGE : Nat := 50
def bullets_max : Nat := 32
def particles_max : Nat := 64
def ships_max : Nat := 12
def powerups_max : Nat := 8

/-- The constants that `dosdef.c` takes from `vga.h`, which is not part of the
sources at hand: the size of the play-field in pixels and the palette indices
of the colours the game uses.  They are a parameter of the embedding. -/
structure Vga where
  VGA_PWIDTH : Nat
  VGA_PHEIGHT : Nat
  BROWN : Nat
  GREEN : Nat
  RED : Nat
  WHITE : Nat
  YELLOW : Nat
  LIGHT_BLUE : Nat
  LIGHT_GREEN : Nat
  LIGHT_CYAN : Nat
  LIGHT_RED : Nat
  LIGHT_MAGENTA : Nat

/-- The joystick calibration (`joystick_config` of `joystick.h`), set once by
`joystick_calibrate` before the main loop. -/
structure JoystickConfig where
  min0 : Int
  min1 : Int
  max0 : Int
  max1 : Int
  center0 : Int
  center1 : Int

/-- Everything the simulation reads from its surroundings and never writes. -/
structure Env where
  vga : Vga
  joystick_config : JoystickConfig

/-- The standard mode 13h values (320 x 200, sixteen-colour palette), used
for concrete runs. -/
def vga13h : Vga :=
  { VGA_PWIDTH := 320, VGA_PHEIGHT := 200, BROWN := 6, GREEN := 2, RED := 4,
    WHITE := 15, YELLOW := 14, LIGHT_BLUE := 9, LIGHT_GREEN := 10,
    LIGHT_CYAN := 11, LIGHT_RED := 12, LIGHT_MAGENTA := 13 }

/-- A concrete environment for runs: mode 13h and a joystick calibrated to
the range 0..200 with centre 100 on both axes. -/
def env13h : Env :=
  { vga := vga13h,
    joystick_config :=
      { min0 := 0, min1 := 0, max0 := 200, max1 := 200, center0 := 100, center1 := 100 } }

/-! ## Data model -/

/-- The targets of the `ai_t` function pointer. -/
inductive Ai where
  | null
  | ai_player
  | ai_dummy
  | ai_seeker
  deriving DecidableEq

/-- The targets of the `power_t` function pointer. -/
inductive Power where
  | null
  | power_heal
  | power_fire_delay_down
  | power_fire_damage_up
  | power_teleport
  | power_radius_up
  | power_radius_down
  deriving DecidableEq

/-- The sound samples the game refers to (`struct sample *`). -/
inductive Sample where
  | null
  | fx_fire0
  | fx_fire1
  | fx_fire2
  | fx_fire3
  | fx_explode
  | fx_hit
  | fx_powerup
  | fx_boss
  | fx_intro_music
  | fx_end_music
  deriving DecidableEq

/-- The record `struct ship`. -/
structure Ship where
  x : Int
  y : Int
  dx : Int
  dy : Int
  last_fire : Nat
  ai : Ai
  fx_fire : Sample
  score : Nat
  hp : Nat
  hp_max : Nat
  radius : Nat
  fire_delay : Nat
  fire_damage : Nat
  drop_rate : Nat
  color_a : Nat
  color_b : Nat
  deriving DecidableEq

/-- The record `struct bullet`. -/
structure Bullet where
  x : Int
  y : Int
  dx : Int
  dy : Int
  birthtick : Nat
  color : Nat
  damage : Nat
  alive : Bool
  deriving DecidableEq

/-- The record `struct particle`. -/
structure Particle where
  x : Int
  y : Int
  birthtick : Nat
  alive : Bool
  deriving DecidableEq

/-- The record `struct powerup`. -/
structure Powerup where
  x : Int
  y : Int
  birthtick : Nat
  power : Power
  alive : Bool
  color : Nat
  deriving DecidableEq

/-- An all-zero ship slot. -/
def Ship.zero : Ship :=
  { x := 0, y := 0, dx := 0, dy := 0, last_fire := 0, ai := Ai.null,
    fx_fire := Sample.null, score := 0, hp := 0, hp_max := 0, radius := 0,
    fire_delay := 0, fire_damage := 0, drop_rate := 0, color_a := 0, color_b := 0 }

/-- An all-zero bullet slot. -/
def Bullet.zero : Bullet :=
  { x := 0, y := 0, dx := 0, dy := 0, birthtick := 0, color := 0, damage := 0,
    alive := false }

/-- An all-zero particle slot. -/
def Particle.zero : Particle :=
  { x := 0, y := 0, birthtick := 0, alive := false }

/-- An all-zero powerup slot. -/
def Powerup.zero : Powerup :=
  { x := 0, y := 0, birthtick := 0, power := Power.null, alive := false, color := 0 }

/-- The file-scope state of `dosdef.c`, together with the stream of raw
values the random number generator will produce (`rng`). -/
structure World where
  ticks : Nat
  score : Nat
  best_score : Nat
  speaker_sample : Sample
  ending_played : Bool
  bullets : List Bullet
  particles : List Particle
  ships : List Ship
  powerups : List Powerup
  rng : List Nat

/-- What one iteration of the main loop reads from the devices: the joystick
(`joystick_read`), the keyboard (`kbhit`) and whether the sample being played
ends during this tick (`speaker_step`). -/
structure Input where
  axis0 : Int
  axis1 : Int
  button0 : Bool
  button1 : Bool
  kbhit : Bool
  sample_ends : Bool

/-! ## Pool access -/

def World.ship (w : World) (i : Nat) : Ship := w.ships.getD i Ship.zero
def World.bullet (w : World) (i : Nat) : Bullet := w.bullets.getD i Bullet.zero
def World.particle (w : World) (i : Nat) : Particle := w.particles.getD i Particle.zero
def World.powerup (w : World) (i : Nat) : Powerup := w.powerups.getD i Powerup.zero

def World.setShip (w : World) (i : Nat) (s : Ship) : World :=
  { w with ships := w.ships.set i s }
def World.setBullet (w : World) (i : Nat) (b : Bullet) : World :=
  { w with bullets := w.bullets.set i b }
def World.setParticle (w : World) (i : Nat) (p : Particle) : World :=
  { w with particles := w.particles.set i p }
def World.setPowerup (w : World) (i : Nat) (p : Powerup) : World :=
  { w with powerups := w.powerups.set i p }

/-! ## External collaborators -/

/-- Modelled from the spec: `randn` of `rand.h`, which is not part of the
sources at hand.  The spec describes it as `random_uniform(n) -> int in [0,n)`;
here it takes the next raw value of the stream `rng` and reduces it modulo `n`
(an exhausted stream yields 0), so every value in `[0,n)` can occur. -/
def randn (w : World) (n : Nat) : Nat × World :=
  match w.rng with
  | [] => (0, w)
  | r :: rest => (r % n, { w with rng := rest })

/-- Modelled from the spec: `speaker_play` of `speaker.h` (`play_cue`), which
is not part of the sources at hand: the channel starts playing the sample. -/
def speaker_play (w : World) (s : Sample) : World :=
  { w with speaker_sample := s }

/-- Modelled from the spec: `speaker_step` of `speaker.h`
(`advance_audio_channel`), which is not part of the sources at hand: when the
sample ends during this tick the channel becomes idle (`speaker.sample == 0`). -/
def speaker_step (w : World) (sample_ends : Bool) : World :=
  if sample_ends then { w with speaker_sample := Sample.null } else w

/-! ## Particles (`particle_draw`, `particle_step`, `burn`) -/

/-- The scan shared by the two evicting pools (`ship_fire`, lines 137-145, and
`burn`, lines 187-195), run on the `alive` flags and birth ticks of the pool:
`for (i = ...; i < max; i++) if (!alive[i]) { choice = i; break; } else if
(birthtick[i] < birthtick[choice]) choice = i;`.  The first argument counts
the iterations that remain. -/
def pool_scan (alive : Nat → Bool) (birthtick : Nat → Nat) : Nat → Nat → Nat → Nat
  | 0, _, choice => choice
  | n + 1, i, choice =>
    if !alive i then i
    else if birthtick i < birthtick choice then pool_scan alive birthtick n (i + 1) i
    else pool_scan alive birthtick n (i + 1) choice

/-- The C function `particle_draw`: drawing leaves the state alone, but the
colour of a particle that is drawn (not cleared) costs one `randn(5)`. -/
def particle_draw (w : World) (_i : Nat) (clear : Bool) : World :=
  if clear then w else (randn w 5).2

/-- The C function `particle_step`. -/
def particle_step (w : World) (i : Nat) : World :=
  let p := w.particle i
  if (w.ticks + 4294967296 - p.birthtick) % 4294967296 > PARTICLE_MAX_AGE then
    particle_draw (w.setParticle i { p with alive := false }) i true
  else
    let speed : Nat := 2
    let r1 := randn w (SCALE * speed)
    let w1 := r1.2.setParticle i
      { p with x := i32 (p.x + ((r1.1 : Int) - ((SCALE * speed / 2 : Nat) : Int))) }
    let p1 := w1.particle i
    let r2 := randn w1 (SCALE * speed)
    r2.2.setParticle i
      { p1 with y := i32 (p1.y + ((r2.1 : Int) - ((SCALE * speed / 2 : Nat) : Int))) }

/-- The slot `burn` picks in the particle pool. -/
def burn_choice (w : World) : Nat :=
  pool_scan (fun i => (w.particle i).alive) (fun i => (w.particle i).birthtick)
    particles_max 0 0

/-- The C function `burn`. -/
def burn (w : World) (x y : Int) : World :=
  let choice := burn_choice w
  let w := if (w.particle choice).alive then particle_draw w choice true else w
  w.setParticle choice { x := x, y := y, birthtick := w.ticks, alive := true }

/-- The loop `for (int j = 0; j < 10; j++) burn(x, y);`, with the number of
iterations as first argument. -/
def burn_times : Nat → World → Int → Int → World
  | 0, w, _, _ => w
  | n + 1, w, x, y => burn_times n (burn w x y) x y

/-! ## Bullets and firing (`bullet_in_ship`, `ship_fire`) -/

/-- The C function `bullet_in_ship`. -/
def bullet_in_ship (w : World) (bi si : Nat) : Bool :=
  let b := w.bullet bi
  let s := w.ship si
  decide (b.x ≥ i32 (s.x - ((SCALE * s.radius : Nat) : Int))) &&
  decide (b.y ≥ i32 (s.y - ((SCALE * s.radius : Nat) : Int))) &&
  decide (b.x ≤ i32 (s.x + ((SCALE * s.radius : Nat) : Int))) &&
  decide (b.y ≤ i32 (s.y + ((SCALE * s.radius : Nat) : Int)))

/-- The slot `ship_fire` picks in the bullet pool. -/
def ship_fire_choice (w : World) : Nat :=
  pool_scan (fun i => (w.bullet i).alive) (fun i => (w.bullet i).birthtick)
    bullets_max 0 0

/-- The C function `ship_fire`: the returned integer is the slot of the new
bullet, or -1 when the cooldown blocks the shot. -/
def ship_fire (w : World) (i : Nat) : Int × World :=
  let s := w.ship i
  if u32 (s.last_fire + s.fire_delay) > w.ticks then (-1, w)
  else
    let w1 := w.setShip i { s with last_fire := w.ticks }
    let choice := ship_fire_choice w1
    let s1 := w1.ship i
    let w2 := w1.setBullet choice
      { x := i32 (s1.x + s1.dx.tdiv 100),
        y := i32 (s1.y + s1.dy.tdiv 100),
        dx := i32 (s1.dx * BULLET_SPEED),
        dy := i32 (s1.dy * BULLET_SPEED),
        color := s1.color_b,
        birthtick := w1.ticks,
        damage := s1.fire_damage,
        alive := true }
    ((choice : Int), speaker_play w2 s1.fx_fire)

/-! ## Powerups -/

/-- The loop of `powerup_drop`: the first slot from `i` on that is not alive,
or -1; the first argument counts the iterations that remain. -/
def powerup_drop_scan (w : World) : Nat → Nat → Int
  | 0, _ => -1
  | n + 1, i => if !(w.powerup i).alive then (i : Int) else powerup_drop_scan w n (i + 1)

/-- The C function `powerup_drop`. -/
def powerup_drop (w : World) (x y : Int) : Int × World :=
  let choice := powerup_drop_scan w powerups_max 0
  if choice ≥ 0 then
    let p := w.powerup choice.toNat
    (choice, w.setPowerup choice.toNat { p with x := x, y := y, birthtick := w.ticks, alive := true })
  else (choice, w)

/-- The C function `power_heal`. -/
def power_heal (w : World) : World :=
  let r := randn w 25
  let s := r.2.ship 0
  r.2.setShip 0 { s with hp := u16 (min (s.hp + r.1 + 25) s.hp_max) }

/-- The C function `power_fire_delay_down`. -/
def power_fire_delay_down (w : World) : World :=
  let s := w.ship 0
  w.setShip 0 { s with fire_delay := u8 (max 8 (s.fire_delay * 3 / 4)) }

/-- The C function `power_fire_damage_up`. -/
def power_fire_damage_up (w : World) : World :=
  let s := w.ship 0
  w.setShip 0 { s with fire_damage := u8 (s.fire_damage * 10 / 9) }

/-- The C function `power_teleport`. -/
def power_teleport (env : Env) (w : World) : World :=
  let r1 := randn w (env.vga.VGA_PWIDTH - 40)
  let s := r1.2.ship 0
  let w1 := r1.2.setShip 0 { s with x := i32 ((((r1.1 + 20) * SCALE : Nat)) : Int) }
  let r2 := randn w1 (env.vga.VGA_PHEIGHT - 40)
  let s1 := r2.2.ship 0
  r2.2.setShip 0 { s1 with y := i32 ((((r2.1 + 20) * SCALE : Nat)) : Int), dx := 0, dy := 0 }

/-- The C function `power_radius_up`. -/
def power_radius_up (w : World) : World :=
  let s := w.ship 0
  w.setShip 0 { s with radius := min 5 (s.radius + 1) }

/-- The C function `power_radius_down`; the subtraction is done on `int`. -/
def power_radius_down (w : World) : World :=
  let s := w.ship 0
  w.setShip 0 { s with radius := (max 1 ((s.radius : Int) - 1)).toNat }

/-- The call `powerups[i].power()` through the function pointer; a zero
pointer (never stored in a live powerup) is taken to do nothing. -/
def run_power (env : Env) (w : World) : Power → World
  | Power.null => w
  | Power.power_heal => power_heal w
  | Power.power_fire_delay_down => power_fire_delay_down w
  | Power.power_fire_damage_up => power_fire_damage_up w
  | Power.power_teleport => power_teleport env w
  | Power.power_radius_up => power_radius_up w
  | Power.power_radius_down => power_radius_down w

/-- The C function `powerup_step`. -/
def powerup_step (env : Env) (w : World) (i : Nat) : World :=
  let px := (w.powerup i).x.tdiv (SCALE : Int)
  let py := (w.powerup i).y.tdiv (SCALE : Int)
  let sx := (w.ship 0).x.tdiv (SCALE : Int)
  let sy := (w.ship 0).y.tdiv (SCALE : Int)
  if (w.ship 0).hp > 0 ∧ px ≥ sx - 4 ∧ py ≥ sy - 4 ∧ px ≤ sx + 4 ∧ py ≤ sy + 4 then
    let w1 := run_power env w (w.powerup i).power
    let w2 := w1.setPowerup i { w1.powerup i with alive := false }
    speaker_play w2 Sample.fx_powerup
  else w

/-- The weighted choice of `powerup_random` (lines 330-349): the effect and
the colour for a roll `select`. -/
def powerup_select (env : Env) (select : Nat) : Power × Nat :=
  if select < 50 then (Power.power_heal, env.vga.LIGHT_GREEN)
  else if select < 75 then (Power.power_fire_delay_down, env.vga.LIGHT_BLUE)
  else if select < 95 then (Power.power_fire_damage_up, env.vga.LIGHT_RED)
  else if select < 97 then (Power.power_radius_up, env.vga.LIGHT_MAGENTA)
  else if select < 99 then (Power.power_radius_down, env.vga.WHITE)
  else (Power.power_teleport, env.vga.YELLOW)

/-- The C function `powerup_random`. -/
def powerup_random (env : Env) (w : World) (id : Nat) : World :=
  let r := randn w (w.ship id).drop_rate
  if r.1 = 0 then
    let d := powerup_drop r.2 (r.2.ship id).x (r.2.ship id).y
    if d.1 ≥ 0 then
      let r2 := randn d.2 100
      let sel := powerup_select env r2.1
      r2.2.setPowerup d.1.toNat { r2.2.powerup d.1.toNat with power := sel.1, color := sel.2 }
    else d.2
  else r.2

/-! ## Bullet step and collision (`bullet_step`) -/

/-- The damage of a hit in `bullet_step` (lines 109-113): ship `id` loses
the bullet's damage, floored at 0, and bullet `i` is absorbed. -/
def bullet_damage (w : World) (i id : Nat) : World :=
  let s := w.ship id
  let b := w.bullet i
  let w1 := w.setShip id { s with hp := if s.hp ≥ b.damage then s.hp - b.damage else 0 }
  w1.setBullet i { w1.bullet i with alive := false }

/-- The death sequence of `bullet_step` (lines 115-122) for ship `id`. -/
def ship_death (env : Env) (w : World) (id : Nat) : World :=
  let w1 := burn_times 10 w (w.ship id).x (w.ship id).y
  let w2 := if (w1.ship 0).hp > 0 then { w1 with score := u32 (w1.score + (w1.ship id).score) } else w1
  let w3 := if id ≠ 0 then powerup_random env w2 id else w2
  speaker_play w3 Sample.fx_explode

/-- The body of the innermost `if` of `bullet_step` (lines 109-126): bullet
`i` has hit ship `id`. -/
def bullet_hit (env : Env) (w : World) (i id : Nat) : World :=
  let w1 := bullet_damage w i id
  if (w1.ship id).hp = 0 then ship_death env w1 id
  else if id = 0 then speaker_play w1 Sample.fx_hit
  else w1

/-- The test that guards a hit in the loop of `bullet_step` (lines 107-108). -/
def bullet_hits (w : World) (i id : Nat) : Bool :=
  decide ((w.ship id).hp > 0) && decide ((w.ship id).color_b ≠ (w.bullet i).color) &&
    bullet_in_ship w i id

/-- The loop over the ships of `bullet_step` (lines 106-129), which stops at
the first hit; the first argument counts the iterations that remain. -/
def bullet_step_ships (env : Env) (w : World) (i : Nat) : Nat → Nat → World
  | 0, _ => w
  | n + 1, id =>
    if bullet_hits w i id then bullet_hit env w i id
    else bullet_step_ships env w i n (id + 1)

/-- The first three statements of `bullet_step` (lines 101-105): the bullet
moves and dies when it has left the play-field. -/
def bullet_move (env : Env) (w : World) (i : Nat) : World :=
  let b := w.bullet i
  let b1 := { b with x := i32 (b.x + b.dx), y := i32 (b.y + b.dy) }
  let out := decide (b1.x < 0) || decide (b1.x > ((env.vga.VGA_PWIDTH * SCALE : Nat) : Int)) ||
             decide (b1.y < 0) || decide (b1.y > ((env.vga.VGA_PHEIGHT * SCALE : Nat) : Int))
  w.setBullet i (if out then { b1 with alive := false } else b1)

/-- The C function `bullet_step`. -/
def bullet_step (env : Env) (w : World) (i : Nat) : World :=
  bullet_step_ships env (bullet_move env w i) i ships_max 0

/-! ## Ships (`ship_step`, `ship_check_bounds`, `spawn`, `ship_exists`) -/

/-- The C function `ship_step`. -/
def ship_step (w : World) (i : Nat) : World :=
  let s := w.ship i
  let s1 := { s with x := i32 (s.x + s.dx), y := i32 (s.y + s.dy) }
  let s2 := { s1 with dx := (i32 (s1.dx * 99)).tdiv 100, dy := (i32 (s1.dy * 99)).tdiv 100 }
  let w1 := w.setShip i s2
  if (w1.ship i).hp < (w1.ship i).hp_max / 2 then
    let r := randn w1 (if (w1.ship i).hp < 1 then 1 else (w1.ship i).hp)
    if r.1 < 10 then burn r.2 (r.2.ship i).x (r.2.ship i).y else r.2
  else w1

/-- The C function `ship_check_bounds`. -/
def ship_check_bounds (env : Env) (w : World) (i : Nat) : World :=
  let xlim : Int := ((env.vga.VGA_PWIDTH * SCALE : Nat) : Int)
  let ylim : Int := ((env.vga.VGA_PHEIGHT * SCALE : Nat) : Int)
  let s := w.ship i
  if s.x < 0 ∨ s.x > xlim ∨ s.y < 0 ∨ s.y > ylim then
    w.setShip i { s with dx := 0, dy := 0, hp := 0 }
  else w

/-- The loop of `spawn` (lines 388-393).  The C test `!ships[i].hp > 0`
parses as `(!ships[i].hp) > 0`, which holds exactly when `hp` is 0.  The first
argument counts the iterations that remain. -/
def spawn_scan (w : World) : Nat → Nat → Int
  | 0, _ => -1
  | n + 1, i =>
    if (if (w.ship i).hp = 0 then 1 else 0) > 0 then (i : Int)
    else spawn_scan w n (i + 1)

/-- The C function `spawn`. -/
def spawn (env : Env) (w : World) (hp : Nat) : Int × World :=
  let choice := spawn_scan w (ships_max - 1) 1
  if choice > -1 then
    let c := choice.toNat
    let w1 := w.setShip c { w.ship c with hp := u16 hp, dx := 0, dy := 0 }
    let r := randn w1 2
    if r.1 ≠ 0 then
      let r1 := randn r.2 2
      let w2 := r1.2.setShip c
        { r1.2.ship c with x := i32 ((r1.1 * env.vga.VGA_PWIDTH * SCALE : Nat) : Int) }
      let r2 := randn w2 (env.vga.VGA_PHEIGHT * SCALE)
      (choice, r2.2.setShip c { r2.2.ship c with y := i32 ((r2.1 : Nat) : Int) })
    else
      let r1 := randn r.2 (env.vga.VGA_PWIDTH * SCALE)
      let w2 := r1.2.setShip c { r1.2.ship c with x := i32 ((r1.1 : Nat) : Int) }
      let r2 := randn w2 2
      (choice, r2.2.setShip c
        { r2.2.ship c with y := i32 ((r2.1 * env.vga.VGA_PHEIGHT * SCALE : Nat) : Int) })
  else (choice, w)

/-- The loop of `ship_exists`; the first argument counts the iterations that
remain. -/
def ship_exists_scan (w : World) (color : Nat) : Nat → Nat → Bool
  | 0, _ => false
  | n + 1, i => if (w.ship i).color_a = color then true else ship_exists_scan w color n (i + 1)

/-- The C function `ship_exists`. -/
def ship_exists (w : World) (color : Nat) : Bool :=
  ship_exists_scan w color (ships_max - 1) 1

/-! ## Behaviours (`ai_player`, `ai_dummy`, `ai_seeker`) -/

/-- The C function `ai_player`.  The statement `rand_seed ^= ...` only
perturbs the generator, whose future values are arbitrary in this model. -/
def ai_player (env : Env) (inp : Input) (w : World) (i : Nat) : World :=
  if (w.ship i).hp > 0 then
    let c := env.joystick_config
    let xrange := i32 (2 * i32 (c.max0 - c.min0))
    let yrange := i32 (2 * i32 (c.max1 - c.min1))
    let s := w.ship i
    let s1 := { s with dx := i32 (s.dx + (i32 (i32 (inp.axis0 - c.center0) * 100)).tdiv xrange) }
    let s2 := { s1 with dy := i32 (s1.dy + (i32 (i32 (inp.axis1 - c.center1) * 100)).tdiv yrange) }
    let w1 := w.setShip i s2
    if inp.button0 then (ship_fire w1 i).2 else w1
  else w

/-- The waypoint `(tx, ty)` of `ai_dummy` (lines 429-441) for the phase `t`. -/
def ai_dummy_target (env : Env) (t : Nat) : Nat × Nat :=
  let den : Nat := 10
  let W := env.vga.VGA_PWIDTH
  let H := env.vga.VGA_PHEIGHT
  if t < 250 then (W * SCALE * 1 / den, H * SCALE * 1 / den)
  else if t < 500 then (W * SCALE * 1 / den, H * SCALE * (den - 1) / den)
  else if t < 750 then (W * SCALE * (den - 1) / den, H * SCALE * (den - 1) / den)
  else (W * SCALE * (den - 1) / den, H * SCALE * 1 / den)

/-- The C function `ai_dummy`. -/
def ai_dummy (env : Env) (w : World) (i : Nat) : World :=
  let t := u32 (w.ticks + i * 200 + i * 20) % 1000
  let target := ai_dummy_target env t
  let s := w.ship i
  let s1 := { s with dx := (i32 ((target.1 : Int) - s.x)).tdiv 200 }
  let s2 := { s1 with dy := (i32 ((target.2 : Int) - s1.y)).tdiv 200 }
  let w1 := w.setShip i s2
  let r := randn w1 250
  if r.1 = 0 then (ship_fire r.2 i).2 else r.2

/-- The C function `ai_seeker`. -/
def ai_seeker (w : World) (i : Nat) : World :=
  let noise : Nat := 400
  let dx := i32 ((w.ship 0).x - (w.ship i).x)
  let dy := i32 ((w.ship 0).y - (w.ship i).y)
  let r1 := randn w noise
  let w1 := r1.2.setShip i
    { r1.2.ship i with dx := i32 (dx.tdiv 250 + (r1.1 : Int) - ((noise / 2 : Nat) : Int)) }
  let r2 := randn w1 noise
  let w2 := r2.2.setShip i
    { r2.2.ship i with dy := i32 (dy.tdiv 250 + (r2.1 : Int) - ((noise / 2 : Nat) : Int)) }
  (ship_fire w2 i).2

/-- The call `ships[i].ai(i)` through the function pointer; a zero pointer
(never stored in a ship the loop runs) is taken to do nothing. -/
def run_ai (env : Env) (inp : Input) (w : World) (i : Nat) : Ai → World
  | Ai.null => w
  | Ai.ai_player => ai_player env inp w i
  | Ai.ai_dummy => ai_dummy env w i
  | Ai.ai_seeker => ai_seeker w i

/-! ## Session reset (`clear`) -/

/-- The player ship that `clear` stores in slot 0 (lines 469-481); the fields
the initialiser does not name are zero. -/
def player_ship (env : Env) : Ship :=
  { Ship.zero with
    x := ((env.vga.VGA_PWIDTH / 2 * SCALE : Nat) : Int),
    y := ((env.vga.VGA_PHEIGHT / 2 * SCALE : Nat) : Int),
    color_a := env.vga.YELLOW,
    color_b := env.vga.LIGHT_BLUE,
    radius := 2,
    fire_delay := 25,
    fire_damage := 10,
    hp := 100,
    hp_max := 100,
    ai := Ai.ai_player,
    fx_fire := Sample.fx_fire0 }

/-- The C function `clear`.  The four `sbrk` calls hand out the pools anew;
following the spec (`reserve_slots`: bulk zeroed memory) every slot is
all-zero.  The statement `rand_seed += get_tick()` only perturbs the
generator, whose future values are arbitrary in this model. -/
def clear (env : Env) (w : World) : World :=
  let w1 : World :=
    { w with
      bullets := List.replicate bullets_max Bullet.zero,
      particles := List.replicate particles_max Particle.zero,
      ships := List.replicate ships_max Ship.zero,
      powerups := List.replicate powerups_max Powerup.zero }
  let w2 := w1.setShip 0 (player_ship env)
  let w3 := { w2 with ticks := 0 }
  let w4 := if w3.score > w3.best_score then { w3 with best_score := w3.score } else w3
  let w5 := { w4 with score := 0, ending_played := false, speaker_sample := Sample.null }
  speaker_play w5 Sample.fx_intro_music

/-! ## The main loop (`_main`) -/

/-- The six archetypes of lines 518-593, as the record stored over slot `s`
for a role value `select` below 110, and the boss. -/
def archetype (env : Env) (s : Ship) (select : Nat) : Ship :=
  if select < 65 then
    { s with color_a := env.vga.BROWN, color_b := env.vga.LIGHT_RED, radius := 2,
             fire_delay := 100, fire_damage := 10, drop_rate := 8, hp := 10, hp_max := 10,
             score := 100, ai := Ai.ai_seeker, fx_fire := Sample.fx_fire1 }
  else if select < 92 then
    { s with color_a := env.vga.GREEN, color_b := env.vga.LIGHT_RED, radius := 2,
             fire_delay := 120, fire_damage := 10, drop_rate := 5, hp := 20, hp_max := 20,
             score := 125, ai := Ai.ai_dummy, fx_fire := Sample.fx_fire1 }
  else if select < 93 then
    { s with color_a := env.vga.WHITE, color_b := env.vga.LIGHT_RED, radius := 1,
             fire_delay := 20, fire_damage := 1, drop_rate := 1, hp := 1, hp_max := 1,
             score := 500, ai := Ai.ai_seeker, fx_fire := Sample.fx_fire1 }
  else if select < 96 then
    { s with color_a := env.vga.RED, color_b := env.vga.LIGHT_GREEN, radius := 3,
             fire_delay := 50, fire_damage := 25, drop_rate := 4, hp := 50, hp_max := 50,
             score := 250, ai := Ai.ai_seeker, fx_fire := Sample.fx_fire2 }
  else
    { s with color_a := env.vga.LIGHT_MAGENTA, color_b := env.vga.LIGHT_CYAN, radius := 5,
             fire_delay := 120, fire_damage := 50, drop_rate := 3, hp := 100, hp_max := 100,
             score := 1000, ai := Ai.ai_seeker, fx_fire := Sample.fx_fire3 }

/-- The boss record of lines 579-589, stored over slot `s`. -/
def boss (env : Env) (s : Ship) : Ship :=
  { s with color_a := env.vga.LIGHT_GREEN, color_b := env.vga.YELLOW, radius := 8,
           fire_delay := 20, fire_damage := 90, drop_rate := 4, hp := 1000, hp_max := 1000,
           score := 10000, ai := Ai.ai_seeker, fx_fire := Sample.fx_fire3 }

/-- The role choice of the main loop (lines 517-593) for the slot `id` that
`spawn` has just returned. -/
def main_role (env : Env) (w : World) (id : Nat) : World :=
  let r := randn w 100
  let select := r.1 + r.2.ticks / 1000
  let w1 := r.2
  if select < 110 then w1.setShip id (archetype env (w1.ship id) select)
  else if !ship_exists w1 env.vga.LIGHT_GREEN then
    speaker_play (w1.setShip id (boss env (w1.ship id))) Sample.fx_boss
  else w1.setShip id { w1.ship id with hp := 0 }

/-- The spawner of the main loop (lines 514-595). -/
def main_spawn (env : Env) (w : World) : World :=
  let r := randn w 50
  if r.1 = 0 then
    let sp := spawn env r.2 1
    if sp.1 > 0 then main_role env sp.2 sp.1.toNat else sp.2
  else r.2

/-- What the defeat block of the main loop (lines 603-623) decides. -/
inductive Defeat where
  | go (w : World)
  | restart (w : World)
  | quit (w : World)

/-- The defeat block of the main loop (lines 603-623): `restart` stands for
`clear(); continue;`, `quit` for `break`, `go` for falling through to the
simulation. -/
def main_defeat (env : Env) (inp : Input) (w : World) : Defeat :=
  if (w.ship 0).hp = 0 then
    if !w.ending_played then
      let w1 := { speaker_play w Sample.fx_end_music with ending_played := true }
      if inp.kbhit then Defeat.quit w1
      else if inp.button1 then Defeat.restart (clear env w1)
      else Defeat.go w1
    else if w.speaker_sample = Sample.null ∧ inp.button0 = true then
      Defeat.restart (clear env w)
    else if inp.kbhit then Defeat.quit w
    else if inp.button1 then Defeat.restart (clear env w)
    else Defeat.go w
  else Defeat.go w

/-- The particle loop of the main loop (lines 624-631), from slot `i` on; the
first argument counts the iterations that remain. -/
def main_particles : Nat → World → Nat → World
  | 0, w, _ => w
  | n + 1, w, i =>
    let w1 := particle_draw w i true
    let w2 :=
      if (w1.particle i).alive then
        let w3 := particle_step w1 i
        if (w3.particle i).alive then particle_draw w3 i false else w3
      else w1
    main_particles n w2 (i + 1)

/-- The powerup loop of the main loop (lines 632-639). -/
def main_powerups (env : Env) : Nat → World → Nat → World
  | 0, w, _ => w
  | n + 1, w, i =>
    main_powerups env n (if (w.powerup i).alive then powerup_step env w i else w) (i + 1)

/-- The ship loop of the main loop (lines 640-648). -/
def main_ships (env : Env) (inp : Input) : Nat → World → Nat → World
  | 0, w, _ => w
  | n + 1, w, i =>
    let w1 :=
      if (w.ship i).hp > 0 ∨ i = 0 then
        let w2 := ship_step w i
        run_ai env inp w2 i (w2.ship i).ai
      else w
    main_ships env inp n w1 (i + 1)

/-- The bullet loop of the main loop (lines 650-657). -/
def main_bullets (env : Env) : Nat → World → Nat → World
  | 0, w, _ => w
  | n + 1, w, i =>
    main_bullets env n (if (w.bullet i).alive then bullet_step env w i else w) (i + 1)

/-- The statement `ticks++` that ends an iteration of the main loop. -/
def next_tick (w : World) : World := { w with ticks := u32 (w.ticks + 1) }

/-- The simulation part of one iteration of the main loop (lines 624-659). -/
def main_simulate (env : Env) (inp : Input) (w : World) : World :=
  let w1 := main_particles particles_max w 0
  let w2 := main_powerups env powerups_max w1 0
  let w3 := main_ships env inp ships_max w2 0
  let w4 := ship_check_bounds env w3 0
  let w5 := main_bullets env bullets_max w4 0
  next_tick w5

/-- How one iteration of the main loop ends: the loop goes on (`running`) or
it is left by `break` (`exited`). -/
inductive Outcome where
  | running (w : World)
  | exited (w : World)

/-- One iteration of the `for (;;)` loop of `_main` (lines 513-659). -/
def main_tick (env : Env) (inp : Input) (w : World) : Outcome :=
  let w1 := speaker_step w inp.sample_ends
  let w2 := main_spawn env w1
  match main_defeat env inp w2 with
  | Defeat.restart w3 => Outcome.running w3
  | Defeat.quit w3 => Outcome.exited w3
  | Defeat.go w3 => Outcome.running (main_simulate env inp w3)

/-- The worlds the main loop can be in at the top of an iteration: the world
that the first `clear()` leaves (whatever the file-scope variables held
before), and every world that an iteration which does not `break` leaves. -/
inductive Reachable (env : Env) : World → Prop where
  | reset (w : World) : Reachable env (clear env w)
  | tick (w w1 : World) (inp : Input) :
      Reachable env w → main_tick env inp w = Outcome.running w1 → Reachable env w1

/-! ## Notions used in the statements -/

/-- The world `w1` has the same ships, bullets, counters and flags as `w`:
the two differ at most in the particles, the powerups, the sound channel and
the random stream. -/
def SameCore (w w1 : World) : Prop :=
  w1.ships = w.ships ∧ w1.bullets = w.bullets ∧ w1.score = w.score ∧
  w1.best_score = w.best_score ∧ w1.ticks = w.ticks ∧ w1.ending_played = w.ending_played

/-- The hit points a ship with `hp` keeps after a hit of `damage`: the
subtraction floored at 0. -/
def hp_after_hit (hp damage : Nat) : Nat := if hp ≥ damage then hp - damage else 0

/-! ## Concrete worlds for the examples -/

/-- The file-scope variables as the C runtime initialises them (all zero, no
pool yet), with a given random stream. -/
def World.initial (rng : List Nat) : World :=
  { ticks := 0, score := 0, best_score := 0, speaker_sample := Sample.null,
    ending_played := false, bullets := [], particles := [], ships := [], powerups := [],
    rng := rng }

/-- A fresh session in mode 13h. -/
def fresh (rng : List Nat) : World := clear env13h (World.initial rng)

/-- A fresh session where the player, at tick 25, has fired its first bullet:
the bullet sits on the player and carries the player's tint. -/
def fresh_fired : World := (ship_fire { fresh [] with ticks := 25 } 0).2

/-- A fresh session with an enemy of the first archetype (10 hit points,
100 points of score) in slot 1 at pixel (50, 50), and a bullet of the player's
tint with damage 25 in slot 0 that will be on the enemy after it has moved. -/
def duel (score : Nat) : World :=
  let w := fresh [3, 7]
  let w1 := w.setShip 1 { archetype env13h (w.ship 1) 0 with x := 50000, y := 50000 }
  let w2 := w1.setBullet 0
    { x := 49000, y := 50000, dx := 1000, dy := 0, birthtick := 0,
      color := env13h.vga.LIGHT_BLUE, damage := 25, alive := true }
  { w2 with score := score }

/-- The number of bullets that are alive. -/
def live_bullets (w : World) : Nat := w.bullets.countP (fun b => b.alive)

/-- The number of particles that are alive. -/
def live_particles (w : World) : Nat := w.particles.countP (fun p => p.alive)

/-- A session at tick 100 whose 32 bullet slots are all alive, with pairwise
different birth ticks; the oldest bullet (birth tick 0) is in slot 13. -/
def crowded : World :=
  { fresh [] with
    ticks := 100,
    bullets := (List.range 32).map (fun k =>
      { Bullet.zero with birthtick := (k * 7 + 5) % 32, alive := true }),
    particles := (List.range 64).map (fun k =>
      { Particle.zero with birthtick := (k * 5 + 3) % 64, alive := true }) }

/-- The main loop run for `n` iterations with the same device input in each
of them, stopping early when the loop is left. -/
def main_run (env : Env) (inp : Input) : Nat → World → World
  | 0, w => w
  | n + 1, w =>
    match main_tick env inp w with
    | Outcome.running w1 => main_run env inp n w1
    | Outcome.exited w1 => w1

/-- The joystick centred, the fire button held, no key pressed. -/
def hold_fire : Input :=
  { axis0 := 100, axis1 := 100, button0 := true, button1 := false, kbhit := false,
    sample_ends := false }

/-- The world `w` with the tick counter set to `t`. -/
def at_tick (w : World) (t : Nat) : World := { w with ticks := t }

/-- A session at tick 100 whose 8 powerup slots are all alive, with pairwise
different birth ticks; the oldest powerup (birth tick 0) is in slot 3.  Slot 1
of the ship pool holds an enemy of the first archetype that has just died. -/
def stocked : World :=
  { fresh [0, 0] with
    ticks := 100,
    ships := (fresh [0, 0]).ships.set 1 { archetype env13h Ship.zero 0 with hp := 0 },
    powerups := (List.range 8).map (fun k =>
      { Powerup.zero with birthtick := (k * 5 + 1) % 8, power := Power.power_heal,
                          alive := true, color := 10 }) }

/-- Every ship slot has `hp <= hp_max`. -/
def hp_bounded (w : World) : Prop := ∀ j, (w.ship j).hp ≤ (w.ship j).hp_max

/-- The ship `s` is a live boss: it has the boss colour and `hp > 0`. -/
def is_boss (env : Env) (s : Ship) : Prop := s.color_a = env.vga.LIGHT_GREEN ∧ 0 < s.hp

/-- At most one enemy slot (1..11) holds a live boss. -/
def one_boss (env : Env) (w : World) : Prop :=
  ∀ i j, 1 ≤ i → i < ships_max → 1 ≤ j → j < ships_max →
    is_boss env (w.ship i) → is_boss env (w.ship j) → i = j

/-- The boss colour differs from the body colours of the five other
archetypes (as it does in every palette, where the indices are distinct). -/
def boss_colour_distinct (v : Vga) : Prop :=
  v.LIGHT_GREEN ≠ v.BROWN ∧ v.LIGHT_GREEN ≠ v.GREEN ∧ v.LIGHT_GREEN ≠ v.WHITE ∧
  v.LIGHT_GREEN ≠ v.RED ∧ v.LIGHT_GREEN ≠ v.LIGHT_MAGENTA

/-- The world an iteration of the main loop ends in. -/
def Outcome.world : Outcome → World
  | Outcome.running w => w
  | Outcome.exited w => w

/-- The way the simulation steps may change the ships: `hp_max` and the body
colour stay, and `hp` does not grow, except that the player (slot 0) may be
healed up to `hp_max`. -/
def ShipsStep (w w1 : World) : Prop :=
  ∀ j, (w1.ship j).hp_max = (w.ship j).hp_max ∧ (w1.ship j).color_a = (w.ship j).color_a ∧
    ((w1.ship j).hp ≤ (w.ship j).hp ∨ (j = 0 ∧ (w1.ship j).hp ≤ (w1.ship j).hp_max))

/-- What `spawn` may do to the world when it fills slot `c`: the tick counter
and every other ship slot stay, and slot `c` changes at most in `hp`, the
velocity and the position. -/
def SpawnStep (c : Nat) (w p : World) : Prop :=
  p.ticks = w.ticks ∧ p.ships.length = w.ships.length ∧
  (∀ j, j ≠ c → p.ship j = w.ship j) ∧
  p.ship c = { w.ship c with hp := (p.ship c).hp, dx := (p.ship c).dx, dy := (p.ship c).dy,
                             x := (p.ship c).x, y := (p.ship c).y }

/-- A session at tick 12000 with a live boss in slot 1, about to run the
spawner with draws that spawn an enemy (slot 2) and roll the role value
99 + 12 = 111, which selects the boss. -/
def bossfight : World :=
  { (fresh [0, 1, 0, 0, 99]).setShip 1
      { boss env13h Ship.zero with x := 100000, y := 50000 } with ticks := 12000 }

/-- A fresh session with an enemy of the first archetype (10 hit points,
radius 2) in slot 1 on the left edge of the play-field, where `spawn` places
enemies (`x = 0`), and a live bullet of the player's tint with damage 10 in
slot 0 that flies to the left and will be at `x = -500`: outside the
play-field, inside the enemy's box. -/
def edge_duel : World :=
  let w := fresh [3, 7]
  let w1 := w.setShip 1 { archetype env13h (w.ship 1) 0 with x := 0, y := 50000 }
  w1.setBullet 0
    { x := 500, y := 50000, dx := -1000, dy := 0, birthtick := 0,
      color := env13h.vga.LIGHT_BLUE, damage := 10, alive := true }

/-- The duel with a second enemy of the same kind in slot 2, at the same place
as the enemy in slot 1. -/
def crossfire : World :=
  (duel 0).setShip 2 { archetype env13h Ship.zero 0 with x := 50000, y := 50000 }

/-- The effects of a sequence of pickups, applied to the player in order. -/
def run_powers (env : Env) (w : World) (ps : List Power) : World :=
  ps.foldl (run_power env) w

/-- A fresh session with a dead enemy of the first archetype (drop rate 8) in
slot 1, and random draws that grant the drop (`randn(8) = 0`) and roll 97 for
the effect. -/
def loot : World :=
  (fresh [0, 97]).setShip 1
    { archetype env13h Ship.zero 0 with x := 50000, y := 60000, hp := 0 }

/-- Whether an iteration of the main loop leaves the loop (`break`). -/
def Outcome.is_exit : Outcome → Bool
  | Outcome.running _ => false
  | Outcome.exited _ => true

/-- A session in which the player has just lost its last hit point: the end
cue has not been started yet (`ending_played` is false) and the intro music
may still be playing.  The next draw does not trigger the spawner. -/
def just_defeated : World :=
  (fresh [1]).setShip 0 { (fresh [1]).ship 0 with hp := 0 }

/-- The same session one iteration later: the end cue has been started and is
still playing. -/
def end_cue_playing : World :=
  { just_defeated with ending_played := true, speaker_sample := Sample.fx_end_music }

/-- The joystick centred, no button held, a key pressed, the sample that is
playing not at its end. -/
def press_key : Input :=
  { axis0 := 100, axis1 := 100, button0 := false, button1 := false, kbhit := true,
    sample_ends := false }

/-- Whether the defeat block decides to leave the loop (`break`). -/
def Defeat.is_quit : Defeat → Bool
  | Defeat.quit _ => true
  | Defeat.go _ => false
  | Defeat.restart _ => false

/-- Slot `c` of the world `p` holds what `spawn(hp)` stores first: the hit
points `hp` and a zero velocity. -/
def Spawned (c hp : Nat) (p : World) : Prop :=
  (p.ship c).hp = u16 hp ∧ (p.ship c).dx = 0 ∧ (p.ship c).dy = 0

/-- A session at tick 5000 with the player at 50 hit points on pixel
(160, 100), a heal powerup born at tick 0 in slot 0 on pixel (163, 96), and a
heal powerup born at tick 0 in slot 1 on pixel (165, 100), five pixels away. -/
def pickup : World :=
  let w := (fresh [5]).setShip 0 { (fresh [5]).ship 0 with hp := 50 }
  let p : Powerup :=
    { x := 163999, y := 96000, birthtick := 0, power := Power.power_heal, alive := true,
      color := env13h.vga.LIGHT_GREEN }
  { (w.setPowerup 0 p).setPowerup 1 { p with x := 165000, y := 100000 } with ticks := 5000 }

/-- The function `ship_step` run `n` times on ship `i`, with nothing else
happening in between. -/
def ship_steps : Nat → World → Nat → World
  | 0, w, _ => w
  | n + 1, w, i => ship_steps n (ship_step w i) i

/-- The worlds of a session in which every iteration of the main loop so far
started with a tick counter below `t`: the world that `clear()` leaves, and
every world that an iteration leaves which started from such a world with
`ticks < t` and did not `break`. -/
inductive ReachableBefore (env : Env) (t : Nat) : World → Prop where
  | reset (w : World) : ReachableBefore env t (clear env w)
  | tick (w w1 : World) (inp : Input) :
      ReachableBefore env t w → w.ticks < t → main_tick env inp w = Outcome.running w1 →
      ReachableBefore env t w1

/-- A fresh session with the tick counter set to `t`, about to run the spawner
with draws that spawn an enemy (slot 1) and roll 99, the highest value of
`randn(100)`, for the role. -/
def late_spawn (t : Nat) : World := { fresh [0, 1, 0, 0, 99] with ticks := t }

/-- The world `loot` with another roll for the effect: the draws grant the
drop and roll `s`. -/
def loot_roll (s : Nat) : World := { loot with rng := [0, s] }

/-! # Properties

The statements below are about the definitions above. -/



theorem getD_set_eq {α : Type} (l : List α) (i j : Nat) (a d : α) :
    (l.set i a).getD j d = if i = j ∧ i < l.length then a else l.getD j d := by
  simp only [List.getD_eq_getElem?_getD, List.getElem?_set]
  by_cases h : i = j
  · subst h
    by_cases h2 : i < l.length
    · simp [h2]
    · simp [h2]
      have : l.length ≤ i := by omega
      simp [List.getElem?_eq_none this]
  · simp [h]

theorem SameCore.core_refl (w : World) : SameCore w w := ⟨rfl, rfl, rfl, rfl, rfl, rfl⟩

theorem SameCore.core_trans {a b c : World} (h1 : SameCore a b) (h2 : SameCore b c) : SameCore a c := by
  obtain ⟨p1, p2, p3, p4, p5, p6⟩ := h1
  obtain ⟨q1, q2, q3, q4, q5, q6⟩ := h2
  exact ⟨q1.trans p1, q2.trans p2, q3.trans p3, q4.trans p4, q5.trans p5, q6.trans p6⟩

theorem SameCore.ship {a b : World} (h : SameCore a b) (j : Nat) : b.ship j = a.ship j := by
  unfold World.ship; rw [h.1]

theorem SameCore.bullet {a b : World} (h : SameCore a b) (j : Nat) : b.bullet j = a.bullet j := by
  unfold World.bullet; rw [h.2.1]

theorem randn_core (w : World) (n : Nat) : SameCore w (randn w n).2 := by
  unfold randn; split <;> exact ⟨rfl, rfl, rfl, rfl, rfl, rfl⟩

theorem randn_lt (w : World) (n : Nat) (h : 0 < n) : (randn w n).1 < n := by
  unfold randn; split
  · exact h
  · exact Nat.mod_lt _ h

theorem speaker_play_core (w : World) (s : Sample) : SameCore w (speaker_play w s) :=
  ⟨rfl, rfl, rfl, rfl, rfl, rfl⟩

theorem setParticle_core (w : World) (i : Nat) (p : Particle) : SameCore w (w.setParticle i p) :=
  ⟨rfl, rfl, rfl, rfl, rfl, rfl⟩

theorem setPowerup_core (w : World) (i : Nat) (p : Powerup) : SameCore w (w.setPowerup i p) :=
  ⟨rfl, rfl, rfl, rfl, rfl, rfl⟩

theorem particle_draw_core (w : World) (i : Nat) (c : Bool) : SameCore w (particle_draw w i c) := by
  unfold particle_draw; split
  · exact SameCore.core_refl w
  · exact randn_core w 5

theorem burn_core (w : World) (x y : Int) : SameCore w (burn w x y) := by
  unfold burn
  exact SameCore.core_trans (by split; exact particle_draw_core _ _ _; exact SameCore.core_refl w)
    (setParticle_core _ _ _)

theorem burn_times_core (n : Nat) (w : World) (x y : Int) : SameCore w (burn_times n w x y) := by
  induction n generalizing w with
  | zero => exact SameCore.core_refl w
  | succ n ih => exact SameCore.core_trans (burn_core w x y) (ih _)

theorem powerup_drop_core (w : World) (x y : Int) : SameCore w (powerup_drop w x y).2 := by
  unfold powerup_drop
  dsimp only
  split
  · exact setPowerup_core _ _ _
  · exact SameCore.core_refl w

theorem powerup_random_core (env : Env) (w : World) (id : Nat) :
    SameCore w (powerup_random env w id) := by
  unfold powerup_random
  dsimp only
  split
  · split
    · exact ((randn_core _ _).core_trans (powerup_drop_core _ _ _)).core_trans
        ((randn_core _ _).core_trans (setPowerup_core _ _ _))
    · exact (randn_core _ _).core_trans (powerup_drop_core _ _ _)
  · exact randn_core _ _

/-! ## The bullet step -/

theorem bullet_damage_ships (w : World) (i id : Nat) :
    (bullet_damage w i id).ships =
      w.ships.set id { w.ship id with hp := hp_after_hit (w.ship id).hp (w.bullet i).damage } := rfl

theorem bullet_damage_bullets (w : World) (i id : Nat) :
    (bullet_damage w i id).bullets = w.bullets.set i { w.bullet i with alive := false } := rfl

theorem bullet_damage_score (w : World) (i id : Nat) :
    (bullet_damage w i id).score = w.score := rfl

theorem bullet_damage_ship (w : World) (i id j : Nat) :
    (bullet_damage w i id).ship j =
      if id = j ∧ id < w.ships.length then
        { w.ship id with hp := hp_after_hit (w.ship id).hp (w.bullet i).damage }
      else w.ship j := by
  unfold World.ship
  rw [bullet_damage_ships, getD_set_eq]
  rfl

theorem bullet_damage_bullet (w : World) (i id j : Nat) :
    (bullet_damage w i id).bullet j =
      if i = j ∧ i < w.bullets.length then { w.bullet i with alive := false }
      else w.bullet j := by
  unfold World.bullet
  rw [bullet_damage_bullets, getD_set_eq]
  rfl

theorem ship_death_ships (env : Env) (w : World) (id : Nat) :
    (ship_death env w id).ships = w.ships := by
  unfold ship_death
  simp only []
  have h1 := burn_times_core 10 w (w.ship id).x (w.ship id).y
  generalize burn_times 10 w (w.ship id).x (w.ship id).y = w1 at *
  split <;> split <;> simp only [speaker_play, (powerup_random_core _ _ _).1, h1.1]

theorem ship_death_bullets (env : Env) (w : World) (id : Nat) :
    (ship_death env w id).bullets = w.bullets := by
  unfold ship_death
  simp only []
  have h1 := burn_times_core 10 w (w.ship id).x (w.ship id).y
  generalize burn_times 10 w (w.ship id).x (w.ship id).y = w1 at *
  split <;> split <;> simp only [speaker_play, (powerup_random_core _ _ _).2.1, h1.2.1]

theorem ship_death_score (env : Env) (w : World) (id : Nat) :
    (ship_death env w id).score =
      if (w.ship 0).hp > 0 then u32 (w.score + (w.ship id).score) else w.score := by
  unfold ship_death
  simp only []
  have h1 := burn_times_core 10 w (w.ship id).x (w.ship id).y
  rw [h1.ship 0, h1.ship id]
  generalize burn_times 10 w (w.ship id).x (w.ship id).y = w1 at *
  split <;> split <;> simp only [speaker_play, (powerup_random_core _ _ _).2.2.1, h1.2.2.1]

theorem bullet_hit_ships (env : Env) (w : World) (i id : Nat) :
    (bullet_hit env w i id).ships = (bullet_damage w i id).ships := by
  unfold bullet_hit
  simp only []
  split
  · exact ship_death_ships _ _ _
  · split <;> rfl

theorem bullet_hit_bullets (env : Env) (w : World) (i id : Nat) :
    (bullet_hit env w i id).bullets = (bullet_damage w i id).bullets := by
  unfold bullet_hit
  simp only []
  split
  · exact ship_death_bullets _ _ _
  · split <;> rfl

theorem bullet_hit_score (env : Env) (w : World) (i id : Nat) :
    (bullet_hit env w i id).score =
      if ((bullet_damage w i id).ship id).hp = 0 ∧ ((bullet_damage w i id).ship 0).hp > 0 then
        u32 (w.score + ((bullet_damage w i id).ship id).score)
      else w.score := by
  unfold bullet_hit
  simp only []
  by_cases h : ((bullet_damage w i id).ship id).hp = 0
  · rw [if_pos h, ship_death_score, bullet_damage_score]
    by_cases h0 : ((bullet_damage w i id).ship 0).hp > 0
    · rw [if_pos h0, if_pos ⟨h, h0⟩]
    · rw [if_neg h0, if_neg (fun c => h0 c.2)]
  · rw [if_neg h]
    rw [if_neg (fun c : ((bullet_damage w i id).ship id).hp = 0 ∧ ((bullet_damage w i id).ship 0).hp > 0 => h c.1)]
    split <;> rfl

theorem bullet_hit_ship (env : Env) (w : World) (i id j : Nat) :
    (bullet_hit env w i id).ship j = (bullet_damage w i id).ship j := by
  unfold World.ship; rw [bullet_hit_ships]

theorem bullet_hit_bullet (env : Env) (w : World) (i id j : Nat) :
    (bullet_hit env w i id).bullet j = (bullet_damage w i id).bullet j := by
  unfold World.bullet; rw [bullet_hit_bullets]

/-- The loop of `bullet_step` either finds no ship to hit and leaves the world
alone, or applies `bullet_hit` to the first ship that passes the test. -/
theorem bullet_step_ships_cases (env : Env) (w : World) (i : Nat) (n id0 : Nat) :
    (bullet_step_ships env w i n id0 = w ∧
        ∀ id, id0 ≤ id → id < id0 + n → bullet_hits w i id = false) ∨
    ∃ id, id0 ≤ id ∧ id < id0 + n ∧ bullet_hits w i id = true ∧
      (∀ k, id0 ≤ k → k < id → bullet_hits w i k = false) ∧
      bullet_step_ships env w i n id0 = bullet_hit env w i id := by
  induction n generalizing id0 with
  | zero =>
    left
    exact ⟨rfl, fun id h1 h2 => absurd h2 (by omega)⟩
  | succ n ih =>
    unfold bullet_step_ships
    by_cases h : bullet_hits w i id0 = true
    · right
      refine ⟨id0, le_refl _, by omega, h, fun k h1 h2 => absurd h2 (by omega), ?_⟩
      rw [if_pos h]
    · rw [if_neg h]
      have hf : bullet_hits w i id0 = false := by simpa using h
      rcases ih (id0 + 1) with ⟨e, nh⟩ | ⟨id, h1, h2, h3, h4, e⟩
      · left
        refine ⟨e, fun id h1 h2 => ?_⟩
        by_cases c : id = id0
        · rw [c]; exact hf
        · exact nh id (by omega) (by omega)
      · right
        refine ⟨id, by omega, by omega, h3, fun k k1 k2 => ?_, e⟩
        by_cases c : k = id0
        · rw [c]; exact hf
        · exact h4 k (by omega) k2

theorem bullet_move_ships (env : Env) (w : World) (i : Nat) :
    (bullet_move env w i).ships = w.ships := rfl

theorem bullet_move_score (env : Env) (w : World) (i : Nat) :
    (bullet_move env w i).score = w.score := rfl

theorem bullet_move_ship (env : Env) (w : World) (i j : Nat) :
    (bullet_move env w i).ship j = w.ship j := rfl

theorem bullet_move_color (env : Env) (w : World) (i : Nat) :
    ((bullet_move env w i).bullet i).color = (w.bullet i).color := by
  unfold bullet_move World.setBullet
  simp only [World.bullet, getD_set_eq]
  split
  · split <;> rfl
  · rfl

theorem bullet_move_damage (env : Env) (w : World) (i : Nat) :
    ((bullet_move env w i).bullet i).damage = (w.bullet i).damage := by
  unfold bullet_move World.setBullet
  simp only [World.bullet, getD_set_eq]
  split
  · split <;> rfl
  · rfl

theorem ship_eq_zero_of_le (w : World) (j : Nat) (h : w.ships.length ≤ j) :
    w.ship j = Ship.zero := by
  unfold World.ship
  rw [List.getD_eq_getElem?_getD, List.getElem?_eq_none h]
  rfl

theorem lt_length_of_hp_pos (w : World) (j : Nat) (h : 0 < (w.ship j).hp) :
    j < w.ships.length := by
  by_contra c
  rw [ship_eq_zero_of_le w j (by omega)] at h
  exact absurd h (by decide)

theorem bullet_hits_hp (w : World) (i id : Nat) (h : bullet_hits w i id = true) :
    0 < (w.ship id).hp := by
  unfold bullet_hits at h
  simp only [Bool.and_eq_true, decide_eq_true_eq] at h
  exact h.1.1

theorem bullet_hits_color (w : World) (i id : Nat) (h : bullet_hits w i id = true) :
    (w.ship id).color_b ≠ (w.bullet i).color := by
  unfold bullet_hits at h
  simp only [Bool.and_eq_true, decide_eq_true_eq] at h
  exact h.1.2

/-- C2: a bullet never changes the hit points of a ship whose bullet tint
`color_b` equals the bullet's colour: for every world, bullet `i` and ship `k`
with `color_b = color`, `bullet_step` leaves the `hp` of ship `k` as it was,
whatever the positions, the radius and the damage are. -/
theorem bullet_step_same_tint_immune (env : Env) (w : World) (i k : Nat)
    (h : (w.ship k).color_b = (w.bullet i).color) :
    ((bullet_step env w i).ship k).hp = (w.ship k).hp := by
  unfold bullet_step
  rcases bullet_step_ships_cases env (bullet_move env w i) i ships_max 0 with
    ⟨e, _⟩ | ⟨id, _, _, hit, _, e⟩
  · rw [e, bullet_move_ship]
  · rw [e, bullet_hit_ship, bullet_damage_ship]
    have hc := bullet_hits_color _ _ _ hit
    rw [bullet_move_color, bullet_move_ship] at hc
    have hne : id ≠ k := by
      intro c
      rw [c] at hc
      exact hc h
    rw [if_neg (fun c => hne c.1), bullet_move_ship]

set_option maxRecDepth 100000 in
/-- Witness for C2: the player's own bullet, sitting on the player right after
the shot, has the player's tint and leaves the player's 100 hit points. -/
theorem bullet_step_same_tint_immune_witness :
    (fresh_fired.ship 0).color_b = (fresh_fired.bullet 0).color ∧
    bullet_in_ship fresh_fired 0 0 = true ∧
    ((bullet_step env13h fresh_fired 0).ship 0).hp = 100 :=
  ⟨by decide, by decide,
   (bullet_step_same_tint_immune env13h fresh_fired 0 0 (by decide)).trans (by decide)⟩

theorem bullet_eq_zero_of_le (w : World) (j : Nat) (h : w.bullets.length ≤ j) :
    w.bullet j = Bullet.zero := by
  unfold World.bullet
  rw [List.getD_eq_getElem?_getD, List.getElem?_eq_none h]
  rfl

theorem bullet_damage_bullet_dead (w : World) (i id : Nat) :
    ((bullet_damage w i id).bullet i).alive = false := by
  rw [bullet_damage_bullet]
  by_cases h : i < w.bullets.length
  · rw [if_pos ⟨rfl, h⟩]
  · rw [if_neg (fun c => h c.2), bullet_eq_zero_of_le w i (by omega)]
    rfl

theorem bullet_damage_ship_hit (w : World) (i id : Nat) (h : 0 < (w.ship id).hp) :
    ((bullet_damage w i id).ship id).hp = hp_after_hit (w.ship id).hp (w.bullet i).damage := by
  rw [bullet_damage_ship, if_pos ⟨rfl, lt_length_of_hp_pos w id h⟩]

/-- The outcome of `bullet_step` when ship `id` is the first ship that the
moved bullet hits. -/
theorem bullet_step_eq_hit (env : Env) (w : World) (i id : Nat) (hid : id < ships_max)
    (hit : bullet_hits (bullet_move env w i) i id = true)
    (first : ∀ k, k < id → bullet_hits (bullet_move env w i) i k = false) :
    bullet_step env w i = bullet_hit env (bullet_move env w i) i id := by
  unfold bullet_step
  rcases bullet_step_ships_cases env (bullet_move env w i) i ships_max 0 with
    ⟨_, nh⟩ | ⟨id1, _, _, hit1, first1, e⟩
  · have := nh id (Nat.zero_le _) (by omega)
    rw [this] at hit
    exact absurd hit (by decide)
  · have : id1 = id := by
      rcases Nat.lt_trichotomy id1 id with c | c | c
      · have := first id1 c
        rw [this] at hit1
        exact absurd hit1 (by decide)
      · exact c
      · have := first1 id (Nat.zero_le _) c
        rw [this] at hit
        exact absurd hit (by decide)
    rw [e, this]

/-- C6: when bullet `i`, after it has moved, hits ship `id` (a live ship of
another tint that contains the bullet, and the first such ship in slot order),
the new `hp` of the ship is the old `hp` minus the damage when the old `hp` is
at least the damage and 0 otherwise, so it never wraps below 0, and the bullet
is not alive afterwards. -/
theorem bullet_step_hit_floors_hp (env : Env) (w : World) (i id : Nat) (hid : id < ships_max)
    (hit : bullet_hits (bullet_move env w i) i id = true)
    (first : ∀ k, k < id → bullet_hits (bullet_move env w i) i k = false) :
    ((bullet_step env w i).ship id).hp =
        (if (w.ship id).hp ≥ (w.bullet i).damage then (w.ship id).hp - (w.bullet i).damage
         else 0) ∧
    ((bullet_step env w i).ship id).hp ≤ (w.ship id).hp ∧
    ((bullet_step env w i).bullet i).alive = false := by
  rw [bullet_step_eq_hit env w i id hid hit first, bullet_hit_ship, bullet_hit_bullet]
  have hp := bullet_hits_hp _ _ _ hit
  rw [bullet_damage_ship_hit _ _ _ hp, bullet_move_ship, bullet_move_damage]
  refine ⟨rfl, ?_, bullet_damage_bullet_dead _ _ _⟩
  unfold hp_after_hit
  split
  · exact Nat.sub_le _ _
  · exact Nat.zero_le _

set_option maxRecDepth 100000 in
/-- Witness for C6: a ship with 10 hit points is hit by a bullet of damage 25;
it is left with 0 hit points, the bullet is dead, ten particles burn and the
explosion cue plays. -/
theorem bullet_step_hit_floors_hp_witness :
    ((duel 0).ship 1).hp = 10 ∧ ((duel 0).bullet 0).damage = 25 ∧
    ((bullet_step env13h (duel 0) 0).ship 1).hp = 0 ∧
    ((bullet_step env13h (duel 0) 0).bullet 0).alive = false ∧
    ((bullet_step env13h (duel 0) 0).particles.filter (fun p => p.alive)).length = 10 ∧
    (bullet_step env13h (duel 0) 0).speaker_sample = Sample.fx_explode :=
  ⟨by decide, by decide,
   (bullet_step_hit_floors_hp env13h (duel 0) 0 1 (by decide) (by decide) (by decide)).1.trans
     (by decide),
   (bullet_step_hit_floors_hp env13h (duel 0) 0 1 (by decide) (by decide) (by decide)).2.2,
   by decide, by decide⟩

theorem u32_of_lt (n : Nat) (h : n < 4294967296) : u32 n = n := Nat.mod_eq_of_lt h

/-- C3: `bullet_step` changes the score only when the bullet's hit brings a
ship's `hp` from above 0 to exactly 0 while the player ship (slot 0) has
`hp > 0` after the hit; the score is then the old score plus that ship's score
value (in `unsigned` arithmetic, so exactly the sum whenever the sum is below
`2^32`), and every such hit does add it.  In every world where the player's `hp` is 0 the score is unchanged. -/
theorem bullet_step_score (env : Env) (w : World) (i : Nat) :
    ((bullet_step env w i).score = w.score ∨
      ∃ id, id < ships_max ∧ bullet_hits (bullet_move env w i) i id = true ∧
        0 < (w.ship id).hp ∧ ((bullet_step env w i).ship id).hp = 0 ∧
        0 < ((bullet_step env w i).ship 0).hp ∧
        (bullet_step env w i).score = u32 (w.score + (w.ship id).score) ∧
        (w.score + (w.ship id).score < 4294967296 →
          (bullet_step env w i).score = w.score + (w.ship id).score)) ∧
    (∀ id, id < ships_max → bullet_hits (bullet_move env w i) i id = true →
      (∀ k, k < id → bullet_hits (bullet_move env w i) i k = false) →
      ((bullet_step env w i).ship id).hp = 0 → 0 < ((bullet_step env w i).ship 0).hp →
      (bullet_step env w i).score = u32 (w.score + (w.ship id).score)) ∧
    ((w.ship 0).hp = 0 → (bullet_step env w i).score = w.score) := by
  have key : ∀ id, id < ships_max → bullet_hits (bullet_move env w i) i id = true →
      bullet_step env w i = bullet_hit env (bullet_move env w i) i id →
      ((bullet_step env w i).score = w.score ∨
        (0 < (w.ship id).hp ∧ ((bullet_step env w i).ship id).hp = 0 ∧
        0 < ((bullet_step env w i).ship 0).hp ∧
        (bullet_step env w i).score = u32 (w.score + (w.ship id).score))) := by
    intro id _ hit e
    have hp := bullet_hits_hp _ _ _ hit
    rw [e, bullet_hit_score, bullet_hit_ship, bullet_hit_ship, bullet_move_score]
    by_cases c : ((bullet_damage (bullet_move env w i) i id).ship id).hp = 0 ∧
        ((bullet_damage (bullet_move env w i) i id).ship 0).hp > 0
    · right
      rw [if_pos c]
      refine ⟨hp, c.1, c.2, ?_⟩
      rw [bullet_damage_ship, if_pos ⟨rfl, lt_length_of_hp_pos _ id hp⟩]
      rfl
    · left
      rw [if_neg c]
  constructor
  · unfold bullet_step
    rcases bullet_step_ships_cases env (bullet_move env w i) i ships_max 0 with
      ⟨e, _⟩ | ⟨id, _, hlt, hit, _, e⟩
    · left
      rw [e, bullet_move_score]
    · have hid : id < ships_max := by omega
      rcases key id hid hit e with h | ⟨h1, h2, h3, h4⟩
      · left; exact h
      · right
        refine ⟨id, hid, hit, h1, h2, h3, h4, fun lt => ?_⟩
        have h5 := h4
        rw [u32_of_lt _ lt] at h5
        exact h5
  constructor
  · intro id hid hit first
    rw [bullet_step_eq_hit env w i id hid hit first, bullet_hit_score, bullet_hit_ship,
      bullet_hit_ship, bullet_move_score]
    intro h1 h2
    rw [if_pos ⟨h1, h2⟩, bullet_damage_ship,
      if_pos ⟨rfl, lt_length_of_hp_pos _ id (bullet_hits_hp _ _ _ hit)⟩]
    rfl
  · intro dead
    unfold bullet_step
    rcases bullet_step_ships_cases env (bullet_move env w i) i ships_max 0 with
      ⟨e, _⟩ | ⟨id, _, hlt, hit, _, e⟩
    · rw [e, bullet_move_score]
    · rw [e, bullet_hit_score, bullet_move_score]
      have hp := bullet_hits_hp _ _ _ hit
      rw [bullet_move_ship] at hp
      have hne : id ≠ 0 := by
        intro c
        rw [c, dead] at hp
        exact absurd hp (by decide)
      have h0 : ((bullet_damage (bullet_move env w i) i id).ship 0).hp = 0 := by
        rw [bullet_damage_ship, if_neg (fun c => hne c.1), bullet_move_ship]
        exact dead
      rw [if_neg (fun c => absurd c.2 (by rw [h0]; decide))]

set_option maxRecDepth 100000 in
/-- Witness for C3: in the duel the bullet kills the enemy worth 100 while the
player is alive, and the score goes from 0 to 100; with a dead player the same
hit leaves the score alone. -/
theorem bullet_step_score_witness :
    (bullet_step env13h (duel 0) 0).score = 100 ∧
    (bullet_step env13h ((duel 0).setShip 0 { (duel 0).ship 0 with hp := 0 }) 0).score = 0 :=
  ⟨by decide,
   (bullet_step_score env13h ((duel 0).setShip 0 { (duel 0).ship 0 with hp := 0 }) 0).2.2
     (by decide)⟩

/-! ## Session reset -/

/-- C4: `clear` leaves `best_score` equal to the maximum of the old
`best_score` and the old `score`, hence at least the old `best_score` and at
least the score at the instant of the reset, and it sets `score` and the tick
counter to 0. -/
theorem clear_best_score (env : Env) (w : World) :
    (clear env w).best_score = max w.best_score w.score ∧
    w.best_score ≤ (clear env w).best_score ∧
    w.score ≤ (clear env w).best_score ∧
    (clear env w).score = 0 ∧ (clear env w).ticks = 0 := by
  have h : (clear env w).best_score = max w.best_score w.score := by
    unfold clear speaker_play World.setShip
    simp only []
    by_cases c : w.score > w.best_score
    · rw [if_pos c]
      exact (max_eq_right (Nat.le_of_lt c)).symm
    · rw [if_neg c]
      exact (max_eq_left (Nat.le_of_not_gt c)).symm
  refine ⟨h, ?_, ?_, ?_, ?_⟩
  · rw [h]; exact le_max_left _ _
  · rw [h]; exact le_max_right _ _
  · rfl
  · unfold clear speaker_play World.setShip
    simp only []
    split <;> rfl

/-! ## Pool allocation -/

/-- What the scan of the evicting pools computes, stated for a scan that has
reached slot `i` with candidate `c`. -/
theorem pool_scan_spec (alive : Nat → Bool) (birthtick : Nat → Nat) (n i c : Nat)
    (hc : c ≤ i) (hn : 0 < n)
    (hpre : ∀ j, j < i → alive j = true ∧ birthtick c ≤ birthtick j) :
    pool_scan alive birthtick n i c < i + n ∧
    ((alive (pool_scan alive birthtick n i c) = false ∧
        ∀ j, j < pool_scan alive birthtick n i c → alive j = true) ∨
     ((∀ j, j < i + n → alive j = true) ∧
        ∀ j, j < i + n →
          birthtick (pool_scan alive birthtick n i c) ≤ birthtick j)) := by
  induction n generalizing i c with
  | zero => exact absurd hn (by decide)
  | succ n ih =>
    unfold pool_scan
    by_cases ha : alive i = true
    · have e1 : (!alive i) = false := by rw [ha]; rfl
      rw [e1]
      simp only [Bool.false_eq_true, if_false]
      rcases Nat.eq_zero_or_pos n with hz | hp
      · subst hz
        by_cases hb : birthtick i < birthtick c
        · rw [if_pos hb]
          unfold pool_scan
          refine ⟨by omega, Or.inr ⟨fun j hj => ?_, fun j hj => ?_⟩⟩
          · by_cases e : j = i
            · rw [e]; exact ha
            · exact (hpre j (by omega)).1
          · by_cases e : j = i
            · rw [e]
            · exact le_trans (Nat.le_of_lt hb) (hpre j (by omega)).2
        · rw [if_neg hb]
          unfold pool_scan
          refine ⟨by omega, Or.inr ⟨fun j hj => ?_, fun j hj => ?_⟩⟩
          · by_cases e : j = i
            · rw [e]; exact ha
            · exact (hpre j (by omega)).1
          · by_cases e : j = i
            · rw [e]; exact Nat.le_of_not_lt hb
            · exact (hpre j (by omega)).2
      · by_cases hb : birthtick i < birthtick c
        · rw [if_pos hb]
          have := ih (i + 1) i (Nat.le_succ i) hp (fun j hj => by
            by_cases e : j = i
            · rw [e]; exact ⟨ha, le_refl _⟩
            · exact ⟨(hpre j (by omega)).1, le_trans (Nat.le_of_lt hb) (hpre j (by omega)).2⟩)
          have e2 : i + 1 + n = i + (n + 1) := by omega
          rw [e2] at this
          exact this
        · rw [if_neg hb]
          have := ih (i + 1) c (by omega) hp (fun j hj => by
            by_cases e : j = i
            · rw [e]; exact ⟨ha, Nat.le_of_not_lt hb⟩
            · exact hpre j (by omega))
          have e2 : i + 1 + n = i + (n + 1) := by omega
          rw [e2] at this
          exact this
    · have hf : alive i = false := by simpa using ha
      have e1 : (!alive i) = true := by rw [hf]; rfl
      rw [e1]
      simp only [if_true]
      exact ⟨by omega, Or.inl ⟨hf, fun j hj => (hpre j hj).1⟩⟩

theorem countP_set {α : Type} (p : α → Bool) (l : List α) (i : Nat) (a : α)
    (h : i < l.length) :
    (l.set i a).countP p + (if p (l.getD i a) then 1 else 0) =
      l.countP p + (if p a then 1 else 0) := by
  induction l generalizing i with
  | nil => exact absurd h (by simp)
  | cons b t ih =>
    cases i with
    | zero =>
      simp only [List.set_cons_zero, List.countP_cons, List.getD_cons_zero]
      omega
    | succ k =>
      simp only [List.set_cons_succ, List.countP_cons, List.getD_cons_succ]
      have := ih k (by simpa using h)
      omega

theorem countP_lt_of_dead {α : Type} (p : α → Bool) (l : List α) (d : α) (i : Nat)
    (h : i < l.length) (hd : p (l.getD i d) = false) : l.countP p < l.length := by
  induction l generalizing i with
  | nil => exact absurd h (by simp)
  | cons b t ih =>
    cases i with
    | zero =>
      simp only [List.getD_cons_zero] at hd
      simp only [List.countP_cons, hd, List.length_cons]
      have := List.countP_le_length p (l := t)
      simp only [Bool.false_eq_true, if_false]
      omega
    | succ k =>
      simp only [List.getD_cons_succ] at hd
      have := ih k (by simpa using h) hd
      simp only [List.countP_cons, List.length_cons]
      split <;> omega

theorem countP_eq_of_all {α : Type} (p : α → Bool) (l : List α) (d : α)
    (h : ∀ j, j < l.length → p (l.getD j d) = true) : l.countP p = l.length := by
  induction l with
  | nil => rfl
  | cons b t ih =>
    have h0 := h 0 (by simp)
    simp only [List.getD_cons_zero] at h0
    have := ih (fun j hj => by
      have := h (j + 1) (by simpa using hj)
      simpa using this)
    simp only [List.countP_cons, h0, if_true, List.length_cons, this]

/-- The allocation policy of the evicting pools, for a pool `l` of `cap`
slots: the scan returns a valid slot, the lowest dead one if there is one and
otherwise one of minimal birth tick, and storing a live entity there makes the
number of live entities `min (count + 1) cap`. -/
theorem pool_alloc {α : Type} (al : α → Bool) (bt : α → Nat) (l : List α) (d : α)
    (cap : Nat) (hlen : l.length = cap) (hcap : 0 < cap) :
    pool_scan (fun i => al (l.getD i d)) (fun i => bt (l.getD i d)) cap 0 0 < cap ∧
    ((∃ j, j < cap ∧ al (l.getD j d) = false) →
      al (l.getD (pool_scan (fun i => al (l.getD i d)) (fun i => bt (l.getD i d)) cap 0 0) d)
          = false ∧
      ∀ j, j < pool_scan (fun i => al (l.getD i d)) (fun i => bt (l.getD i d)) cap 0 0 →
        al (l.getD j d) = true) ∧
    ((∀ j, j < cap → al (l.getD j d) = true) →
      ∀ j, j < cap →
        bt (l.getD (pool_scan (fun i => al (l.getD i d)) (fun i => bt (l.getD i d)) cap 0 0) d)
          ≤ bt (l.getD j d)) ∧
    (∀ a, al a = true →
      (l.set (pool_scan (fun i => al (l.getD i d)) (fun i => bt (l.getD i d)) cap 0 0) a).countP al
        = min (l.countP al + 1) cap) := by
  have spec := pool_scan_spec (fun i => al (l.getD i d)) (fun i => bt (l.getD i d)) cap 0 0
    (le_refl 0) hcap (fun j hj => absurd hj (by omega))
  generalize pool_scan (fun i => al (l.getD i d)) (fun i => bt (l.getD i d)) cap 0 0 = r at spec
  simp only [Nat.zero_add] at spec
  obtain ⟨hr, hcase⟩ := spec
  have hrl : r < l.length := by omega
  refine ⟨hr, ?_, ?_, ?_⟩
  · rintro ⟨j, hj, hdead⟩
    rcases hcase with hA | hB
    · exact hA
    · rw [hB.1 j hj] at hdead
      exact absurd hdead (by decide)
  · intro hall
    rcases hcase with hA | hB
    · rw [hall r hr] at hA
      exact absurd hA.1 (by decide)
    · exact hB.2
  · intro a ha
    have hset := countP_set al l r a hrl
    rw [ha, List.getD_eq_getElem l a hrl, ← List.getD_eq_getElem l d hrl] at hset
    rcases hcase with hA | hB
    · rw [hA.1] at hset
      have hlt := countP_lt_of_dead al l d r hrl hA.1
      simp only [Bool.false_eq_true, if_false, if_true, Nat.add_zero] at hset
      rw [hset]
      omega
    · have hall := countP_eq_of_all al l d (fun j hj => hB.1 j (by omega))
      rw [hB.1 r hr] at hset
      simp only [if_true] at hset
      omega

theorem particle_setParticle (w : World) (i j : Nat) (p : Particle) :
    (w.setParticle i p).particle j =
      if i = j ∧ i < w.particles.length then p else w.particle j := by
  unfold World.particle World.setParticle
  exact getD_set_eq _ _ _ _ _

theorem bullet_setBullet (w : World) (i j : Nat) (b : Bullet) :
    (w.setBullet i b).bullet j =
      if i = j ∧ i < w.bullets.length then b else w.bullet j := by
  unfold World.bullet World.setBullet
  exact getD_set_eq _ _ _ _ _

theorem burn_particles (w : World) (x y : Int) :
    (burn w x y).particles =
      w.particles.set (burn_choice w) { x := x, y := y, birthtick := w.ticks, alive := true } := by
  unfold burn particle_draw
  simp only [if_true]
  split <;> rfl

theorem ship_fire_blocked (w : World) (i : Nat)
    (h : u32 ((w.ship i).last_fire + (w.ship i).fire_delay) > w.ticks) :
    ship_fire w i = (-1, w) := by
  unfold ship_fire
  simp only []
  rw [if_pos h]

theorem ship_fire_fst (w : World) (i : Nat)
    (h : ¬ u32 ((w.ship i).last_fire + (w.ship i).fire_delay) > w.ticks) :
    (ship_fire w i).1 = (ship_fire_choice w : Int) := by
  unfold ship_fire
  simp only []
  rw [if_neg h]
  rfl

theorem ship_fire_bullets (w : World) (i : Nat)
    (h : ¬ u32 ((w.ship i).last_fire + (w.ship i).fire_delay) > w.ticks) :
    (ship_fire w i).2.bullets =
      w.bullets.set (ship_fire_choice w)
        { x := i32 ((w.ship i).x + (w.ship i).dx.tdiv 100),
          y := i32 ((w.ship i).y + (w.ship i).dy.tdiv 100),
          dx := i32 ((w.ship i).dx * BULLET_SPEED),
          dy := i32 ((w.ship i).dy * BULLET_SPEED),
          color := (w.ship i).color_b,
          birthtick := w.ticks,
          damage := (w.ship i).fire_damage,
          alive := true } := by
  unfold ship_fire
  simp only []
  rw [if_neg h]
  simp only [speaker_play, World.setBullet, World.setShip, World.ship, getD_set_eq]
  by_cases c : i < w.ships.length
  · simp only [c, and_self, if_true]
    rfl
  · simp only [c, and_false, if_false]
    rfl

/-- C5: for every bullet pool of 32 slots and every particle pool of 64 slots,
the slot chosen by `ship_fire` (when the cooldown allows the shot) and the slot
chosen by `burn` is a valid index; it is the lowest slot that is not alive if
there is one, and otherwise a slot whose birth tick is minimal over the pool.
The new entity is alive in that slot, every other slot is unchanged, and the
number of live entities becomes `min (previous count + 1) capacity`. -/
theorem pool_allocation (w : World) (i : Nat) (x y : Int)
    (hb : w.bullets.length = bullets_max) (hp : w.particles.length = particles_max)
    (hfire : ¬ u32 ((w.ship i).last_fire + (w.ship i).fire_delay) > w.ticks) :
    (∃ c : Nat, (ship_fire w i).1 = (c : Int) ∧ c < bullets_max ∧
      ((∃ j, j < bullets_max ∧ (w.bullet j).alive = false) →
        (w.bullet c).alive = false ∧ ∀ j, j < c → (w.bullet j).alive = true) ∧
      ((∀ j, j < bullets_max → (w.bullet j).alive = true) →
        ∀ j, j < bullets_max → (w.bullet c).birthtick ≤ (w.bullet j).birthtick) ∧
      ((ship_fire w i).2.bullet c).alive = true ∧
      (∀ j, j ≠ c → (ship_fire w i).2.bullet j = w.bullet j) ∧
      (ship_fire w i).2.bullets.length = bullets_max ∧
      live_bullets (ship_fire w i).2 = min (live_bullets w + 1) bullets_max) ∧
    (∃ c : Nat, c < particles_max ∧
      ((∃ j, j < particles_max ∧ (w.particle j).alive = false) →
        (w.particle c).alive = false ∧ ∀ j, j < c → (w.particle j).alive = true) ∧
      ((∀ j, j < particles_max → (w.particle j).alive = true) →
        ∀ j, j < particles_max → (w.particle c).birthtick ≤ (w.particle j).birthtick) ∧
      (burn w x y).particle c = { x := x, y := y, birthtick := w.ticks, alive := true } ∧
      (∀ j, j ≠ c → (burn w x y).particle j = w.particle j) ∧
      (burn w x y).particles.length = particles_max ∧
      live_particles (burn w x y) = min (live_particles w + 1) particles_max) := by
  constructor
  · obtain ⟨h1, h2, h3, h4⟩ := pool_alloc (fun b : Bullet => b.alive) (fun b => b.birthtick)
      w.bullets Bullet.zero bullets_max hb (by decide)
    refine ⟨ship_fire_choice w, ship_fire_fst w i hfire, h1, h2, h3, ?_, ?_, ?_, ?_⟩
    · unfold World.bullet
      rw [ship_fire_bullets w i hfire, getD_set_eq, if_pos ⟨rfl, by rw [hb]; exact h1⟩]
    · intro j hj
      unfold World.bullet
      rw [ship_fire_bullets w i hfire, getD_set_eq, if_neg (fun c => hj c.1.symm)]
    · rw [ship_fire_bullets w i hfire, List.length_set, hb]
    · unfold live_bullets
      rw [ship_fire_bullets w i hfire]
      exact h4 _ rfl
  · obtain ⟨h1, h2, h3, h4⟩ := pool_alloc (fun p : Particle => p.alive) (fun p => p.birthtick)
      w.particles Particle.zero particles_max hp (by decide)
    refine ⟨burn_choice w, h1, h2, h3, ?_, ?_, ?_, ?_⟩
    · unfold World.particle
      rw [burn_particles, getD_set_eq, if_pos ⟨rfl, by rw [hp]; exact h1⟩]
    · intro j hj
      unfold World.particle
      rw [burn_particles, getD_set_eq, if_neg (fun c => hj c.1.symm)]
    · rw [burn_particles, List.length_set, hp]
    · unfold live_particles
      rw [burn_particles]
      exact h4 _ rfl

set_option maxRecDepth 100000 in
/-- Witness for C5: in a session whose 32 bullets and 64 particles are all
alive, the player's shot takes slot 13, which holds the oldest bullet, a burn
takes slot 25, which holds the oldest particle, and both pools stay full. -/
theorem pool_allocation_witness :
    live_bullets crowded = 32 ∧ live_particles crowded = 64 ∧
    (ship_fire crowded 0).1 = 13 ∧ (crowded.bullet 13).birthtick = 0 ∧
    live_bullets (ship_fire crowded 0).2 = 32 ∧
    (crowded.particle 25).birthtick = 0 ∧
    (burn crowded 7 9).particle 25 = { x := 7, y := 9, birthtick := 100, alive := true } ∧
    live_particles (burn crowded 7 9) = 64 :=
  ⟨by decide, by decide, by decide, by decide,
   (pool_allocation crowded 0 7 9 (by decide) (by decide) (by decide)).1.choose_spec.2.2.2.2.2.2.2.trans
     (by decide),
   by decide, by decide,
   (pool_allocation crowded 0 7 9 (by decide) (by decide) (by decide)).2.choose_spec.2.2.2.2.2.2.trans
     (by decide)⟩

/-! ## The fire cooldown after a reset -/

theorem clear_ships (env : Env) (w : World) :
    (clear env w).ships = (List.replicate ships_max Ship.zero).set 0 (player_ship env) := by
  unfold clear speaker_play World.setShip
  simp only []
  split <;> rfl

theorem clear_bullets (env : Env) (w : World) :
    (clear env w).bullets = List.replicate bullets_max Bullet.zero := by
  unfold clear speaker_play World.setShip
  simp only []
  split <;> rfl

theorem clear_ticks (env : Env) (w : World) : (clear env w).ticks = 0 := by
  unfold clear speaker_play World.setShip
  simp only []
  split <;> rfl

theorem clear_ship_zero (env : Env) (w : World) : (clear env w).ship 0 = player_ship env := by
  unfold World.ship
  rw [clear_ships]
  rfl

set_option maxRecDepth 100000 in
/-- Counterexample for C7: in a fresh session, at tick 0, the player's fire
request is refused: `ship_fire` returns -1 and no bullet is alive afterwards. -/
theorem fire_at_tick_zero_counterexample :
    (fresh []).ticks = 0 ∧ ((fresh []).ship 0).last_fire = 0 ∧
    ((fresh []).ship 0).fire_delay = 25 ∧ (ship_fire (fresh []) 0).1 = -1 ∧
    live_bullets (ship_fire (fresh []) 0).2 = 0 := by
  refine ⟨by decide, by decide, by decide, by decide, by decide⟩

theorem at_tick_ship (w : World) (t j : Nat) : (at_tick w t).ship j = w.ship j := rfl

theorem at_tick_bullets (w : World) (t : Nat) : (at_tick w t).bullets = w.bullets := rfl

theorem at_tick_ticks (w : World) (t : Nat) : (at_tick w t).ticks = t := rfl

theorem ship_fire_choice_fresh (w : World)
    (h : w.bullets = List.replicate bullets_max Bullet.zero) : ship_fire_choice w = 0 := by
  unfold ship_fire_choice World.bullet
  rw [h]
  rfl

/-- C7 (amended): in a freshly reset session (player ship in slot 0 as `clear`
creates it: `dx = dy = 0`, `fire_delay = 25`, `last_fire = 0`) a fire request
by the player at tick 0 creates no bullet, a fire request at tick 10 creates
no bullet, and a fire request at tick 25 creates a bullet (in slot 0, alive,
born at tick 25). -/
theorem fire_cooldown_after_reset (env : Env) (w : World) :
    ship_fire (clear env w) 0 = (-1, clear env w) ∧
    ship_fire (at_tick (clear env w) 10) 0 = (-1, at_tick (clear env w) 10) ∧
    (ship_fire (at_tick (clear env w) 25) 0).1 = 0 ∧
    ((ship_fire (at_tick (clear env w) 25) 0).2.bullet 0).alive = true ∧
    ((ship_fire (at_tick (clear env w) 25) 0).2.bullet 0).birthtick = 25 ∧
    live_bullets (clear env w) = 0 ∧
    live_bullets (ship_fire (at_tick (clear env w) 25) 0).2 = 1 := by
  have hfire : ¬ u32 (((at_tick (clear env w) 25).ship 0).last_fire +
      ((at_tick (clear env w) 25).ship 0).fire_delay) > (at_tick (clear env w) 25).ticks := by
    rw [at_tick_ship, clear_ship_zero, at_tick_ticks]
    show ¬ u32 (0 + 25) > 25
    decide
  have hchoice : ship_fire_choice (at_tick (clear env w) 25) = 0 :=
    ship_fire_choice_fresh _ (clear_bullets env w)
  have hbul := ship_fire_bullets (at_tick (clear env w) 25) 0 hfire
  rw [hchoice, at_tick_bullets, clear_bullets, at_tick_ticks] at hbul
  refine ⟨?_, ?_, ?_, ?_, ?_, ?_, ?_⟩
  · apply ship_fire_blocked
    rw [clear_ship_zero, clear_ticks]
    show u32 (0 + 25) > 0
    decide
  · apply ship_fire_blocked
    rw [at_tick_ship, clear_ship_zero, at_tick_ticks]
    show u32 (0 + 25) > 10
    decide
  · rw [ship_fire_fst _ 0 hfire, hchoice]
    rfl
  · unfold World.bullet
    rw [hbul]
    rfl
  · unfold World.bullet
    rw [hbul]
    rfl
  · unfold live_bullets
    rw [clear_bullets]
    rfl
  · unfold live_bullets
    rw [hbul]
    rfl

/-! ## Powerup effects -/

theorem ship_setShip (w : World) (i j : Nat) (s : Ship) :
    (w.setShip i s).ship j = if i = j ∧ i < w.ships.length then s else w.ship j := by
  unfold World.ship World.setShip
  exact getD_set_eq _ _ _ _ _

theorem u16_of_lt (n : Nat) (h : n < 65536) : u16 n = n := Nat.mod_eq_of_lt h

theorem power_heal_hp (w : World) :
    ((power_heal w).ship 0).hp =
      if 0 < w.ships.length then
        u16 (min ((w.ship 0).hp + (randn w 25).1 + 25) (w.ship 0).hp_max)
      else (w.ship 0).hp := by
  unfold power_heal
  simp only []
  rw [ship_setShip, (randn_core w 25).ship, (randn_core w 25).1]
  by_cases h : 0 < w.ships.length
  · rw [if_pos ⟨rfl, h⟩, if_pos h]
  · rw [if_neg (fun c => h c.2), if_neg h]

/-- C8: for every player `hp <= hp_max` (with `hp_max` in the range of its
16 bit field) and every random draw, `power_heal` sets the player's `hp` to
`min (old hp + a) hp_max`, where the restored amount `a = randn(25) + 25`
satisfies `25 <= a <= 50` (it is at most 49); so `old hp <= new hp <= hp_max`. -/
theorem power_heal_clamped (w : World) (hle : (w.ship 0).hp ≤ (w.ship 0).hp_max)
    (hmax : (w.ship 0).hp_max < 65536) :
    ((power_heal w).ship 0).hp =
        min ((w.ship 0).hp + ((randn w 25).1 + 25)) (w.ship 0).hp_max ∧
    25 ≤ (randn w 25).1 + 25 ∧ (randn w 25).1 + 25 ≤ 50 ∧ (randn w 25).1 + 25 ≤ 49 ∧
    (w.ship 0).hp ≤ ((power_heal w).ship 0).hp ∧
    ((power_heal w).ship 0).hp ≤ (w.ship 0).hp_max ∧
    ((power_heal w).ship 0).hp_max = (w.ship 0).hp_max := by
  have hr := randn_lt w 25 (by decide)
  have e : ((power_heal w).ship 0).hp =
      min ((w.ship 0).hp + ((randn w 25).1 + 25)) (w.ship 0).hp_max := by
    rw [power_heal_hp]
    by_cases h : 0 < w.ships.length
    · rw [if_pos h, u16_of_lt _ (lt_of_le_of_lt (min_le_right _ _) hmax), Nat.add_assoc]
    · rw [if_neg h, ship_eq_zero_of_le w 0 (by omega)]
      rfl
  have em : ((power_heal w).ship 0).hp_max = (w.ship 0).hp_max := by
    unfold power_heal
    simp only []
    rw [ship_setShip, (randn_core w 25).ship, (randn_core w 25).1]
    split <;> rfl
  refine ⟨e, by omega, by omega, by omega, ?_, ?_, em⟩
  · rw [e]
    exact le_min (by omega) hle
  · rw [e]
    exact min_le_right _ _

set_option maxRecDepth 100000 in
/-- Witness for C8: with `hp = 50`, `hp_max = 100` and a draw that restores 30
the player ends at 80; with `hp = 80` the same amount would overshoot and the
player ends at 100. -/
theorem power_heal_clamped_witness :
    (((fresh [5]).setShip 0 { (fresh [5]).ship 0 with hp := 50 }).ship 0).hp = 50 ∧
    (randn ((fresh [5]).setShip 0 { (fresh [5]).ship 0 with hp := 50 }) 25).1 + 25 = 30 ∧
    ((power_heal ((fresh [5]).setShip 0 { (fresh [5]).ship 0 with hp := 50 })).ship 0).hp = 80 ∧
    ((power_heal ((fresh [5]).setShip 0 { (fresh [5]).ship 0 with hp := 80 })).ship 0).hp = 100 :=
  ⟨by decide, by decide,
   (power_heal_clamped ((fresh [5]).setShip 0 { (fresh [5]).ship 0 with hp := 50 })
     (by decide) (by decide)).1.trans (by decide),
   by decide⟩

/-! ## The powerup pool -/

theorem powerup_drop_scan_cases (w : World) (n i : Nat) :
    (powerup_drop_scan w n i = -1 ∧ ∀ j, i ≤ j → j < i + n → (w.powerup j).alive = true) ∨
    ∃ c : Nat, i ≤ c ∧ c < i + n ∧ powerup_drop_scan w n i = (c : Int) ∧
      (w.powerup c).alive = false ∧ ∀ j, i ≤ j → j < c → (w.powerup j).alive = true := by
  induction n generalizing i with
  | zero =>
    left
    exact ⟨rfl, fun j h1 h2 => absurd h2 (by omega)⟩
  | succ n ih =>
    unfold powerup_drop_scan
    by_cases ha : (w.powerup i).alive = true
    · have e1 : (!(w.powerup i).alive) = false := by rw [ha]; rfl
      rw [e1]
      simp only [Bool.false_eq_true, if_false]
      rcases ih (i + 1) with ⟨e, hall⟩ | ⟨c, h1, h2, e, hd, hall⟩
      · left
        refine ⟨e, fun j j1 j2 => ?_⟩
        by_cases c : j = i
        · rw [c]; exact ha
        · exact hall j (by omega) (by omega)
      · right
        refine ⟨c, by omega, by omega, e, hd, fun j j1 j2 => ?_⟩
        by_cases cj : j = i
        · rw [cj]; exact ha
        · exact hall j (by omega) j2
    · have hf : (w.powerup i).alive = false := by simpa using ha
      have e1 : (!(w.powerup i).alive) = true := by rw [hf]; rfl
      rw [e1]
      simp only [if_true]
      right
      exact ⟨i, le_refl _, by omega, rfl, hf, fun j j1 j2 => absurd j2 (by omega)⟩

theorem powerup_setPowerup (w : World) (i j : Nat) (p : Powerup) :
    (w.setPowerup i p).powerup j =
      if i = j ∧ i < w.powerups.length then p else w.powerup j := by
  unfold World.powerup World.setPowerup
  exact getD_set_eq _ _ _ _ _

theorem powerup_drop_full (w : World) (x y : Int)
    (hall : ∀ j, j < powerups_max → (w.powerup j).alive = true) :
    powerup_drop w x y = (-1, w) := by
  have hs : powerup_drop_scan w powerups_max 0 = -1 := by
    rcases powerup_drop_scan_cases w powerups_max 0 with ⟨e, _⟩ | ⟨c, _, h2, _, hd, _⟩
    · exact e
    · rw [hall c (by omega)] at hd
      exact absurd hd (by decide)
  unfold powerup_drop
  simp only []
  rw [hs]
  rfl

set_option maxRecDepth 100000 in
/-- Counterexample for C10: with all 8 powerup slots alive, `powerup_drop`
returns -1 and stores nothing: the pool is as before, the oldest powerup
(slot 3, birth tick 0) included, and a drop rolled by `powerup_random` is lost. -/
theorem powerup_drop_full_counterexample :
    stocked.powerups.length = 8 ∧ (∀ j, j < 8 → (stocked.powerup j).alive = true) ∧
    (stocked.powerup 3).birthtick = 0 ∧
    (powerup_drop stocked 5000 6000).1 = -1 ∧
    (powerup_drop stocked 5000 6000).2.powerups = stocked.powerups ∧
    (stocked.ship 1).drop_rate = 8 ∧ (randn stocked (stocked.ship 1).drop_rate).1 = 0 ∧
    (powerup_random env13h stocked 1).powerups = stocked.powerups := by
  refine ⟨by decide, by decide, by decide, by decide, by decide, by decide, by decide,
    by decide⟩

/-- C10 (amended): `powerup_drop` returns the first slot whose `alive` flag is
false, stores the new powerup there (position, birth tick, alive) and leaves
every other slot as it was; when all 8 powerup slots are alive it returns -1
and changes nothing, and `powerup_random` then leaves the powerup pool as it
was. -/
theorem powerup_drop_first_free_or_skip (env : Env) (w : World) (x y : Int) (id : Nat)
    (hlen : w.powerups.length = powerups_max) :
    ((∃ j, j < powerups_max ∧ (w.powerup j).alive = false) →
      ∃ c : Nat, c < powerups_max ∧ (powerup_drop w x y).1 = (c : Int) ∧
        (w.powerup c).alive = false ∧ (∀ j, j < c → (w.powerup j).alive = true) ∧
        (powerup_drop w x y).2.powerup c =
          { w.powerup c with x := x, y := y, birthtick := w.ticks, alive := true } ∧
        ∀ j, j ≠ c → (powerup_drop w x y).2.powerup j = w.powerup j) ∧
    ((∀ j, j < powerups_max → (w.powerup j).alive = true) →
      powerup_drop w x y = (-1, w) ∧ (powerup_random env w id).powerups = w.powerups) := by
  constructor
  · rintro ⟨j, hj, hd⟩
    rcases powerup_drop_scan_cases w powerups_max 0 with ⟨_, hall⟩ | ⟨c, _, h2, e, hdc, hall⟩
    · rw [hall j (Nat.zero_le _) (by omega)] at hd
      exact absurd hd (by decide)
    · have hc : c < powerups_max := by omega
      have hdrop : powerup_drop w x y =
          ((c : Int), w.setPowerup c
            { w.powerup c with x := x, y := y, birthtick := w.ticks, alive := true }) := by
        unfold powerup_drop
        simp only []
        rw [e, if_pos (Int.natCast_nonneg c)]
        rfl
      refine ⟨c, hc, ?_, hdc, fun k hk => hall k (Nat.zero_le _) hk, ?_, ?_⟩
      · rw [hdrop]
      · rw [hdrop, powerup_setPowerup, if_pos ⟨rfl, by rw [hlen]; exact hc⟩]
      · intro k hk
        rw [hdrop, powerup_setPowerup, if_neg (fun h => hk h.1.symm)]
  · intro hall
    refine ⟨powerup_drop_full w x y hall, ?_⟩
    unfold powerup_random
    simp only []
    have hall2 : ∀ j, j < powerups_max →
        ((randn w (w.ship id).drop_rate).2.powerup j).alive = true := by
      intro j hj
      have : (randn w (w.ship id).drop_rate).2.powerup j = w.powerup j := by
        unfold World.powerup randn
        split <;> rfl
      rw [this]
      exact hall j hj
    have hrp : (randn w (w.ship id).drop_rate).2.powerups = w.powerups := by
      unfold randn
      split <;> rfl
    split
    · rw [powerup_drop_full _ _ _ hall2]
      simp only []
      rw [if_neg (by decide)]
      exact hrp
    · exact hrp

set_option maxRecDepth 100000 in
/-- Witness for the amended C10: with the pool full the drop is skipped, and
in a fresh session the first drop takes slot 0. -/
theorem powerup_drop_first_free_or_skip_witness :
    stocked.powerups.length = powerups_max ∧
    powerup_drop stocked 5000 6000 = (-1, stocked) ∧
    (powerup_drop (fresh []) 5000 6000).1 = 0 ∧
    ((powerup_drop (fresh []) 5000 6000).2.powerup 0).alive = true :=
  ⟨by decide,
   ((powerup_drop_first_free_or_skip env13h stocked 5000 6000 1 (by decide)).2 (by decide)).1,
   by decide, by decide⟩

/-! ## How the simulation changes the ships -/

theorem ShipsStep.step_refl (w : World) : ShipsStep w w :=
  fun _ => ⟨rfl, rfl, Or.inl (le_refl _)⟩

theorem ShipsStep.step_trans {a b c : World} (h1 : ShipsStep a b) (h2 : ShipsStep b c) :
    ShipsStep a c := by
  intro j
  obtain ⟨p1, p2, p3⟩ := h1 j
  obtain ⟨q1, q2, q3⟩ := h2 j
  refine ⟨q1.trans p1, q2.trans p2, ?_⟩
  rcases q3 with q | q
  · rcases p3 with p | p
    · exact Or.inl (le_trans q p)
    · exact Or.inr ⟨p.1, by rw [q1]; exact le_trans q p.2⟩
  · exact Or.inr q

theorem ShipsStep.of_ships {w w1 : World} (h : w1.ships = w.ships) : ShipsStep w w1 := by
  intro j
  have : w1.ship j = w.ship j := by unfold World.ship; rw [h]
  rw [this]
  exact ⟨rfl, rfl, Or.inl (le_refl _)⟩

theorem ShipsStep.of_core {w w1 : World} (h : SameCore w w1) : ShipsStep w w1 :=
  ShipsStep.of_ships h.1

theorem ShipsStep.setShip (w : World) (i : Nat) (s : Ship)
    (h1 : s.hp_max = (w.ship i).hp_max) (h2 : s.color_a = (w.ship i).color_a)
    (h3 : s.hp ≤ (w.ship i).hp ∨ (i = 0 ∧ s.hp ≤ s.hp_max)) :
    ShipsStep w (w.setShip i s) := by
  intro j
  rw [ship_setShip]
  by_cases c : i = j ∧ i < w.ships.length
  · rw [if_pos c]
    obtain ⟨c1, _⟩ := c
    subst c1
    exact ⟨h1, h2, h3⟩
  · rw [if_neg c]
    exact ⟨rfl, rfl, Or.inl (le_refl _)⟩

/-- A step that ends with a store into ship `i` which keeps `hp_max` and the
body colour and does not raise `hp`. -/
theorem ShipsStep.step_then_set {a w : World} {i : Nat} {s : Ship} (g : ShipsStep a w)
    (h1 : s.hp_max = (w.ship i).hp_max) (h2 : s.color_a = (w.ship i).color_a)
    (h3 : s.hp ≤ (w.ship i).hp) : ShipsStep a (w.setShip i s) :=
  g.step_trans (ShipsStep.setShip w i s h1 h2 (Or.inl h3))

/-- A step that ends with an operation which leaves the ships alone. -/
theorem ShipsStep.step_then_core {a b c : World} (h : SameCore b c) (g : ShipsStep a b) :
    ShipsStep a c :=
  g.step_trans (ShipsStep.of_core h)

theorem ship_fire_step (w : World) (i : Nat) : ShipsStep w (ship_fire w i).2 := by
  unfold ship_fire
  simp only []
  split
  · exact ShipsStep.step_refl w
  · show ShipsStep w (speaker_play (World.setBullet _ _ _) _)
    refine ShipsStep.step_then_core (speaker_play_core _ _) ?_
    refine ShipsStep.step_trans ?_ (ShipsStep.of_ships (w := World.setShip _ _ _) rfl)
    exact ShipsStep.step_then_set (ShipsStep.step_refl w) rfl rfl (le_refl _)

theorem particle_step_core (w : World) (i : Nat) : SameCore w (particle_step w i) := by
  unfold particle_step
  simp only []
  split
  · exact (setParticle_core _ _ _).core_trans (particle_draw_core _ _ _)
  · refine SameCore.core_trans ?_ (setParticle_core _ _ _)
    refine SameCore.core_trans ?_ (randn_core _ _)
    refine SameCore.core_trans ?_ (setParticle_core _ _ _)
    exact randn_core _ _

theorem main_particles_core (n : Nat) (w : World) (i : Nat) :
    SameCore w (main_particles n w i) := by
  induction n generalizing w i with
  | zero => exact SameCore.core_refl w
  | succ n ih =>
    unfold main_particles
    simp only []
    refine SameCore.core_trans ?_ (ih _ _)
    split
    · split
      · refine SameCore.core_trans ?_ (particle_draw_core _ _ _)
        refine SameCore.core_trans ?_ (particle_step_core _ _)
        exact particle_draw_core _ _ _
      · refine SameCore.core_trans ?_ (particle_step_core _ _)
        exact particle_draw_core _ _ _
    · exact particle_draw_core w i true

theorem power_heal_step (w : World) : ShipsStep w (power_heal w) := by
  unfold power_heal
  simp only []
  refine ShipsStep.step_trans (ShipsStep.of_core (randn_core w 25)) (ShipsStep.setShip _ 0 _ rfl rfl ?_)
  right
  refine ⟨rfl, ?_⟩
  show u16 _ ≤ _
  exact le_trans (Nat.mod_le _ _) (min_le_right _ _)

theorem power_teleport_step (env : Env) (w : World) : ShipsStep w (power_teleport env w) := by
  unfold power_teleport
  simp only []
  refine ShipsStep.step_then_set ?_ rfl rfl (le_refl _)
  refine ShipsStep.step_then_core (randn_core _ _) ?_
  refine ShipsStep.step_then_set ?_ rfl rfl (le_refl _)
  exact ShipsStep.of_core (randn_core _ _)

theorem run_power_step (env : Env) (w : World) (p : Power) :
    ShipsStep w (run_power env w p) := by
  cases p with
  | null => exact ShipsStep.step_refl w
  | power_heal => exact power_heal_step w
  | power_fire_delay_down => exact ShipsStep.step_then_set (ShipsStep.step_refl w) rfl rfl (le_refl _)
  | power_fire_damage_up => exact ShipsStep.step_then_set (ShipsStep.step_refl w) rfl rfl (le_refl _)
  | power_teleport => exact power_teleport_step env w
  | power_radius_up => exact ShipsStep.step_then_set (ShipsStep.step_refl w) rfl rfl (le_refl _)
  | power_radius_down => exact ShipsStep.step_then_set (ShipsStep.step_refl w) rfl rfl (le_refl _)

theorem powerup_step_step (env : Env) (w : World) (i : Nat) :
    ShipsStep w (powerup_step env w i) := by
  unfold powerup_step
  simp only []
  split
  · refine ShipsStep.step_then_core (speaker_play_core _ _) ?_
    refine ShipsStep.step_then_core (setPowerup_core _ _ _) ?_
    exact run_power_step env w _
  · exact ShipsStep.step_refl w

theorem main_powerups_step (env : Env) (n : Nat) (w : World) (i : Nat) :
    ShipsStep w (main_powerups env n w i) := by
  induction n generalizing w i with
  | zero => exact ShipsStep.step_refl w
  | succ n ih =>
    unfold main_powerups
    refine ShipsStep.step_trans ?_ (ih _ _)
    split
    · exact powerup_step_step env w i
    · exact ShipsStep.step_refl w

theorem ship_step_step (w : World) (i : Nat) : ShipsStep w (ship_step w i) := by
  unfold ship_step
  simp only []
  split_ifs
  all_goals first
    | exact ShipsStep.step_then_set (ShipsStep.step_refl w) rfl rfl (le_refl _)
    | exact ShipsStep.step_then_core (randn_core _ _)
        (ShipsStep.step_then_set (ShipsStep.step_refl w) rfl rfl (le_refl _))
    | exact ShipsStep.step_then_core (burn_core _ _ _) (ShipsStep.step_then_core (randn_core _ _)
        (ShipsStep.step_then_set (ShipsStep.step_refl w) rfl rfl (le_refl _)))

theorem ai_player_step (env : Env) (inp : Input) (w : World) (i : Nat) :
    ShipsStep w (ai_player env inp w i) := by
  unfold ai_player
  simp only []
  split
  · split
    · refine ShipsStep.step_trans ?_ (ship_fire_step _ _)
      exact ShipsStep.step_then_set (ShipsStep.step_refl w) rfl rfl (le_refl _)
    · exact ShipsStep.step_then_set (ShipsStep.step_refl w) rfl rfl (le_refl _)
  · exact ShipsStep.step_refl w

theorem ai_dummy_step (env : Env) (w : World) (i : Nat) : ShipsStep w (ai_dummy env w i) := by
  unfold ai_dummy
  simp only []
  split
  · refine ShipsStep.step_trans ?_ (ship_fire_step _ _)
    refine ShipsStep.step_then_core (randn_core _ _) ?_
    exact ShipsStep.step_then_set (ShipsStep.step_refl w) rfl rfl (le_refl _)
  · refine ShipsStep.step_then_core (randn_core _ _) ?_
    exact ShipsStep.step_then_set (ShipsStep.step_refl w) rfl rfl (le_refl _)

theorem ai_seeker_step (w : World) (i : Nat) : ShipsStep w (ai_seeker w i) := by
  unfold ai_seeker
  simp only []
  refine ShipsStep.step_trans ?_ (ship_fire_step _ _)
  refine ShipsStep.step_then_set ?_ rfl rfl (le_refl _)
  refine ShipsStep.step_then_core (randn_core _ _) ?_
  refine ShipsStep.step_then_set ?_ rfl rfl (le_refl _)
  exact ShipsStep.of_core (randn_core _ _)

theorem run_ai_step (env : Env) (inp : Input) (w : World) (i : Nat) (a : Ai) :
    ShipsStep w (run_ai env inp w i a) := by
  cases a with
  | null => exact ShipsStep.step_refl w
  | ai_player => exact ai_player_step env inp w i
  | ai_dummy => exact ai_dummy_step env w i
  | ai_seeker => exact ai_seeker_step w i

theorem main_ships_step (env : Env) (inp : Input) (n : Nat) (w : World) (i : Nat) :
    ShipsStep w (main_ships env inp n w i) := by
  induction n generalizing w i with
  | zero => exact ShipsStep.step_refl w
  | succ n ih =>
    unfold main_ships
    simp only []
    refine ShipsStep.step_trans ?_ (ih _ _)
    split
    · exact (ship_step_step w i).step_trans (run_ai_step env inp _ i _)
    · exact ShipsStep.step_refl w

theorem ship_check_bounds_step (env : Env) (w : World) (i : Nat) :
    ShipsStep w (ship_check_bounds env w i) := by
  unfold ship_check_bounds
  simp only []
  split
  · exact ShipsStep.step_then_set (ShipsStep.step_refl w) rfl rfl (Nat.zero_le _)
  · exact ShipsStep.step_refl w

theorem bullet_hit_step (env : Env) (w : World) (i id : Nat) :
    ShipsStep w (bullet_hit env w i id) := by
  have h : ShipsStep w (w.setShip id
      { w.ship id with hp := hp_after_hit (w.ship id).hp (w.bullet i).damage }) := by
    refine ShipsStep.step_then_set (ShipsStep.step_refl w) rfl rfl ?_
    show hp_after_hit _ _ ≤ _
    unfold hp_after_hit
    split
    · exact Nat.sub_le _ _
    · exact Nat.zero_le _
  refine h.step_trans (ShipsStep.of_ships ?_)
  rw [bullet_hit_ships, bullet_damage_ships]
  rfl

theorem bullet_step_step (env : Env) (w : World) (i : Nat) :
    ShipsStep w (bullet_step env w i) := by
  unfold bullet_step
  rcases bullet_step_ships_cases env (bullet_move env w i) i ships_max 0 with
    ⟨e, _⟩ | ⟨id, _, _, _, _, e⟩
  · rw [e]
    exact ShipsStep.of_ships (bullet_move_ships env w i)
  · rw [e]
    exact (ShipsStep.of_ships (bullet_move_ships env w i)).step_trans (bullet_hit_step env _ i id)

theorem main_bullets_step (env : Env) (n : Nat) (w : World) (i : Nat) :
    ShipsStep w (main_bullets env n w i) := by
  induction n generalizing w i with
  | zero => exact ShipsStep.step_refl w
  | succ n ih =>
    unfold main_bullets
    refine ShipsStep.step_trans ?_ (ih _ _)
    split
    · exact bullet_step_step env w i
    · exact ShipsStep.step_refl w

theorem next_tick_ships (w : World) : (next_tick w).ships = w.ships := rfl

theorem main_simulate_step (env : Env) (inp : Input) (w : World) :
    ShipsStep w (main_simulate env inp w) := by
  have h1 := ShipsStep.of_core (main_particles_core particles_max w 0)
  have h2 := main_powerups_step env powerups_max (main_particles particles_max w 0) 0
  have h3 := main_ships_step env inp ships_max
    (main_powerups env powerups_max (main_particles particles_max w 0) 0) 0
  have h4 := ship_check_bounds_step env (main_ships env inp ships_max
    (main_powerups env powerups_max (main_particles particles_max w 0) 0) 0) 0
  have h5 := main_bullets_step env bullets_max (ship_check_bounds env (main_ships env inp ships_max
    (main_powerups env powerups_max (main_particles particles_max w 0) 0) 0) 0) 0
  have h6 := ShipsStep.of_ships (next_tick_ships (main_bullets env bullets_max
    (ship_check_bounds env (main_ships env inp ships_max
      (main_powerups env powerups_max (main_particles particles_max w 0) 0) 0) 0) 0))
  exact ((((h1.step_trans h2).step_trans h3).step_trans h4).step_trans h5).step_trans h6

/-! ## The spawner -/

theorem spawn_scan_cases (w : World) (n i : Nat) :
    (spawn_scan w n i = -1 ∧ ∀ j, i ≤ j → j < i + n → 0 < (w.ship j).hp) ∨
    ∃ c : Nat, i ≤ c ∧ c < i + n ∧ spawn_scan w n i = (c : Int) ∧ (w.ship c).hp = 0 ∧
      ∀ j, i ≤ j → j < c → 0 < (w.ship j).hp := by
  induction n generalizing i with
  | zero =>
    left
    exact ⟨rfl, fun j h1 h2 => absurd h2 (by omega)⟩
  | succ n ih =>
    unfold spawn_scan
    by_cases hz : (w.ship i).hp = 0
    · right
      refine ⟨i, le_refl _, by omega, ?_, hz, fun j j1 j2 => absurd j2 (by omega)⟩
      rw [if_pos hz, if_pos (by decide)]
    · rw [if_neg hz, if_neg (by decide)]
      rcases ih (i + 1) with ⟨e, hall⟩ | ⟨c, h1, h2, e, hd, hall⟩
      · left
        refine ⟨e, fun j j1 j2 => ?_⟩
        by_cases c : j = i
        · rw [c]; exact Nat.pos_of_ne_zero hz
        · exact hall j (by omega) (by omega)
      · right
        refine ⟨c, by omega, by omega, e, hd, fun j j1 j2 => ?_⟩
        by_cases cj : j = i
        · rw [cj]; exact Nat.pos_of_ne_zero hz
        · exact hall j (by omega) j2

theorem setShip_ships (w : World) (i : Nat) (a : Ship) :
    (w.setShip i a).ships = w.ships.set i a := rfl

theorem placed_trans (a b s : Ship)
    (g : b = { a with hp := b.hp, dx := b.dx, dy := b.dy, x := b.x, y := b.y })
    (h : s = { b with hp := s.hp, dx := s.dx, dy := s.dy, x := s.x, y := s.y }) :
    s = { a with hp := s.hp, dx := s.dx, dy := s.dy, x := s.x, y := s.y } := by
  cases a
  cases b
  cases s
  simp only [Ship.mk.injEq] at g h ⊢
  simp only [true_and, and_true] at g h ⊢
  obtain ⟨g1, g2, g3, g4, g5, g6, g7, g8, g9, g10, g11⟩ := g
  obtain ⟨h1, h2, h3, h4, h5, h6, h7, h8, h9, h10, h11⟩ := h
  exact ⟨h1.trans g1, h2.trans g2, h3.trans g3, h4.trans g4, h5.trans g5, h6.trans g6,
    h7.trans g7, h8.trans g8, h9.trans g9, h10.trans g10, h11.trans g11⟩

theorem SpawnStep.spawn_refl (c : Nat) (w : World) : SpawnStep c w w :=
  ⟨rfl, rfl, fun _ _ => rfl, rfl⟩

theorem SpawnStep.spawn_then_core {c : Nat} {a b d : World} (h : SameCore b d) (g : SpawnStep c a b) :
    SpawnStep c a d := by
  obtain ⟨g1, g2, g3, g4⟩ := g
  refine ⟨h.2.2.2.2.1.trans g1, by rw [h.1]; exact g2, fun j hj => ?_, ?_⟩
  · rw [h.ship j]; exact g3 j hj
  · rw [h.ship c]; exact g4

theorem SpawnStep.spawn_then_set {c : Nat} {a w : World} {s : Ship} (g : SpawnStep c a w)
    (h : s = { w.ship c with hp := s.hp, dx := s.dx, dy := s.dy, x := s.x, y := s.y }) :
    SpawnStep c a (w.setShip c s) := by
  obtain ⟨g1, g2, g3, g4⟩ := g
  refine ⟨g1, ?_, fun j hj => ?_, ?_⟩
  · rw [setShip_ships, List.length_set]; exact g2
  · rw [ship_setShip, if_neg (fun e => hj e.1.symm)]; exact g3 j hj
  · rw [ship_setShip]
    by_cases e : c < w.ships.length
    · rw [if_pos ⟨rfl, e⟩]
      exact placed_trans _ _ _ g4 h
    · rw [if_neg (fun x => e x.2)]; exact g4

/-- The slot `spawn` returns and what it does to the ships. -/
theorem spawn_cases (env : Env) (w : World) (hp : Nat) :
    ((spawn env w hp).1 = -1 ∧ SameCore w (spawn env w hp).2 ∧
      ∀ j, 1 ≤ j → j < ships_max → 0 < (w.ship j).hp) ∨
    ∃ c : Nat, 1 ≤ c ∧ c < ships_max ∧ (spawn env w hp).1 = (c : Int) ∧ (w.ship c).hp = 0 ∧
      (∀ j, 1 ≤ j → j < c → 0 < (w.ship j).hp) ∧ SpawnStep c w (spawn env w hp).2 := by
  rcases spawn_scan_cases w (ships_max - 1) 1 with ⟨e, hall⟩ | ⟨c, h1, h2, e, hd, hall⟩
  · left
    unfold spawn
    simp only []
    rw [e, if_neg (by decide)]
    exact ⟨rfl, SameCore.core_refl w, fun j j1 j2 => hall j j1 (by unfold ships_max at *; omega)⟩
  · right
    refine ⟨c, h1, by unfold ships_max at *; omega, ?_, hd, hall, ?_⟩
    · unfold spawn
      simp only []
      rw [e, if_pos (by omega)]
      split <;> rfl
    · unfold spawn
      simp only []
      rw [e, if_pos (by omega)]
      simp only [Int.toNat_ofNat]
      split
      · refine SpawnStep.spawn_then_set ?_ rfl
        refine SpawnStep.spawn_then_core (randn_core _ _) ?_
        refine SpawnStep.spawn_then_set ?_ rfl
        refine SpawnStep.spawn_then_core (randn_core _ _) ?_
        refine SpawnStep.spawn_then_core (randn_core _ _) ?_
        exact SpawnStep.spawn_then_set (SpawnStep.spawn_refl c w) rfl
      · refine SpawnStep.spawn_then_set ?_ rfl
        refine SpawnStep.spawn_then_core (randn_core _ _) ?_
        refine SpawnStep.spawn_then_set ?_ rfl
        refine SpawnStep.spawn_then_core (randn_core _ _) ?_
        refine SpawnStep.spawn_then_core (randn_core _ _) ?_
        exact SpawnStep.spawn_then_set (SpawnStep.spawn_refl c w) rfl

theorem ship_exists_scan_iff (w : World) (color : Nat) (n i : Nat) :
    ship_exists_scan w color n i = true ↔
      ∃ j, i ≤ j ∧ j < i + n ∧ (w.ship j).color_a = color := by
  induction n generalizing i with
  | zero =>
    unfold ship_exists_scan
    constructor
    · intro h; exact absurd h (by decide)
    · rintro ⟨j, h1, h2, _⟩; exact absurd h2 (by omega)
  | succ n ih =>
    unfold ship_exists_scan
    by_cases hc : (w.ship i).color_a = color
    · rw [if_pos hc]
      exact ⟨fun _ => ⟨i, le_refl _, by omega, hc⟩, fun _ => rfl⟩
    · rw [if_neg hc, ih (i + 1)]
      constructor
      · rintro ⟨j, h1, h2, h3⟩
        exact ⟨j, by omega, by omega, h3⟩
      · rintro ⟨j, h1, h2, h3⟩
        have : j ≠ i := fun e => hc (e ▸ h3)
        exact ⟨j, by omega, by omega, h3⟩

theorem ship_exists_iff (w : World) (color : Nat) :
    ship_exists w color = true ↔
      ∃ j, 1 ≤ j ∧ j < ships_max ∧ (w.ship j).color_a = color := by
  unfold ship_exists
  rw [ship_exists_scan_iff]
  constructor
  · rintro ⟨j, h1, h2, h3⟩
    exact ⟨j, h1, by unfold ships_max at *; omega, h3⟩
  · rintro ⟨j, h1, h2, h3⟩
    exact ⟨j, h1, by unfold ships_max at *; omega, h3⟩

/-- What the role choice stores in the slot `id`: an archetype when the role
value is below 110; otherwise the boss when no enemy slot has the boss colour,
and the slot's own record with `hp` set back to 0 when one has. -/
theorem main_role_cases (env : Env) (w : World) (id : Nat) :
    ∃ s : Ship, (main_role env w id).ships = w.ships.set id s ∧
      ((s = archetype env (w.ship id) ((randn w 100).1 + w.ticks / 1000) ∧
          (randn w 100).1 + w.ticks / 1000 < 110) ∨
       (s = boss env (w.ship id) ∧ ¬ (randn w 100).1 + w.ticks / 1000 < 110 ∧
          ¬ ∃ j, 1 ≤ j ∧ j < ships_max ∧ (w.ship j).color_a = env.vga.LIGHT_GREEN) ∨
       (s = { w.ship id with hp := 0 } ∧ ¬ (randn w 100).1 + w.ticks / 1000 < 110 ∧
          ∃ j, 1 ≤ j ∧ j < ships_max ∧ (w.ship j).color_a = env.vga.LIGHT_GREEN)) := by
  have hc := randn_core w 100
  have hs : ∀ j, (randn w 100).2.ship j = w.ship j := fun j => hc.ship j
  have ht : (randn w 100).2.ticks = w.ticks := hc.2.2.2.2.1
  have he : (ship_exists (randn w 100).2 env.vga.LIGHT_GREEN = true) ↔
      ∃ j, 1 ≤ j ∧ j < ships_max ∧ (w.ship j).color_a = env.vga.LIGHT_GREEN := by
    rw [ship_exists_iff]
    constructor
    · rintro ⟨j, h1, h2, h3⟩
      exact ⟨j, h1, h2, by rw [← hs j]; exact h3⟩
    · rintro ⟨j, h1, h2, h3⟩
      exact ⟨j, h1, h2, by rw [hs j]; exact h3⟩
  unfold main_role
  simp only []
  rw [ht, hs id]
  by_cases h1 : (randn w 100).1 + w.ticks / 1000 < 110
  · rw [if_pos h1]
    exact ⟨_, by rw [setShip_ships, hc.1], Or.inl ⟨rfl, h1⟩⟩
  · rw [if_neg h1]
    by_cases h2 : ship_exists (randn w 100).2 env.vga.LIGHT_GREEN = true
    · rw [h2]
      simp only [Bool.not_true, Bool.false_eq_true, if_false]
      exact ⟨_, by rw [setShip_ships, hc.1], Or.inr (Or.inr ⟨rfl, h1, he.1 h2⟩)⟩
    · have h3 : ship_exists (randn w 100).2 env.vga.LIGHT_GREEN = false := by simpa using h2
      rw [h3]
      simp only [Bool.not_false, if_true]
      refine ⟨_, ?_, Or.inr (Or.inl ⟨rfl, h1, fun c => h2 (he.2 c)⟩)⟩
      show ((randn w 100).2.setShip id _).ships = _
      rw [setShip_ships, hc.1]

theorem archetype_hp (env : Env) (s : Ship) (select : Nat) :
    (archetype env s select).hp = (archetype env s select).hp_max := by
  unfold archetype
  split_ifs <;> rfl

theorem archetype_color (env : Env) (s : Ship) (select : Nat)
    (hd : boss_colour_distinct env.vga) :
    (archetype env s select).color_a ≠ env.vga.LIGHT_GREEN := by
  obtain ⟨d1, d2, d3, d4, d5⟩ := hd
  unfold archetype
  split_ifs
  · exact fun e => d1 e.symm
  · exact fun e => d2 e.symm
  · exact fun e => d3 e.symm
  · exact fun e => d4 e.symm
  · exact fun e => d5 e.symm

theorem SpawnStep.color {c : Nat} {w p : World} (h : SpawnStep c w p) (j : Nat) :
    (p.ship j).color_a = (w.ship j).color_a := by
  by_cases e : j = c
  · rw [e, h.2.2.2]
  · rw [h.2.2.1 j e]

/-- What the role choice does to a slot of another ship, and what it leaves
in the slot it fills. -/
theorem main_role_ship (env : Env) (w : World) (id : Nat) :
    (∀ j, j ≠ id → (main_role env w id).ship j = w.ship j) ∧
    ((main_role env w id).ship id = w.ship id ∧ w.ships.length ≤ id ∨
      (((main_role env w id).ship id =
            archetype env (w.ship id) ((randn w 100).1 + w.ticks / 1000) ∧
          (randn w 100).1 + w.ticks / 1000 < 110) ∨
       ((main_role env w id).ship id = boss env (w.ship id) ∧
          ¬ (randn w 100).1 + w.ticks / 1000 < 110 ∧
          ¬ ∃ j, 1 ≤ j ∧ j < ships_max ∧ (w.ship j).color_a = env.vga.LIGHT_GREEN) ∨
       ((main_role env w id).ship id = { w.ship id with hp := 0 } ∧
          ¬ (randn w 100).1 + w.ticks / 1000 < 110 ∧
          ∃ j, 1 ≤ j ∧ j < ships_max ∧ (w.ship j).color_a = env.vga.LIGHT_GREEN))) := by
  obtain ⟨s, hs, hcase⟩ := main_role_cases env w id
  have hj : ∀ j, (main_role env w id).ship j =
      if id = j ∧ id < w.ships.length then s else w.ship j := by
    intro j
    unfold World.ship
    rw [hs, getD_set_eq]
  refine ⟨fun j hne => ?_, ?_⟩
  · rw [hj j, if_neg (fun e => hne e.1.symm)]
  · by_cases hl : id < w.ships.length
    · right
      rw [hj id, if_pos ⟨rfl, hl⟩]
      exact hcase
    · left
      rw [hj id, if_neg (fun e => hl e.2)]
      exact ⟨rfl, by omega⟩

/-- What the spawner does to the ships: nothing, or it fills one free enemy
slot `c` with a ship that has `hp <= hp_max` and that is a live boss only when
no enemy slot had the boss colour before. -/
theorem main_spawn_cases (env : Env) (w : World) :
    (∀ j, (main_spawn env w).ship j = w.ship j) ∨
    ∃ c : Nat, 1 ≤ c ∧ c < ships_max ∧ (w.ship c).hp = 0 ∧
      (∀ j, j ≠ c → (main_spawn env w).ship j = w.ship j) ∧
      ((main_spawn env w).ship c).hp ≤ ((main_spawn env w).ship c).hp_max ∧
      (boss_colour_distinct env.vga → is_boss env ((main_spawn env w).ship c) →
        ¬ ∃ j, 1 ≤ j ∧ j < ships_max ∧ (w.ship j).color_a = env.vga.LIGHT_GREEN) := by
  have hr := randn_core w 50
  unfold main_spawn
  simp only []
  by_cases h0 : (randn w 50).1 = 0
  · rw [if_pos h0]
    rcases spawn_cases env (randn w 50).2 1 with ⟨e, hsame, _⟩ | ⟨c, c1, c2, e, hz, _, hstep⟩
    · left
      rw [e, if_neg (by decide)]
      intro j
      rw [hsame.ship j, hr.ship j]
    · right
      rw [e, if_pos (by omega), Int.toNat_ofNat]
      rw [hr.ship c] at hz
      obtain ⟨hother, hslot⟩ := main_role_ship env (spawn env (randn w 50).2 1).2 c
      have hcol : ∀ j, ((spawn env (randn w 50).2 1).2.ship j).color_a = (w.ship j).color_a :=
        fun j => by rw [hstep.color j, hr.ship j]
      have hnone : (¬ ∃ j, 1 ≤ j ∧ j < ships_max ∧
          ((spawn env (randn w 50).2 1).2.ship j).color_a = env.vga.LIGHT_GREEN) →
          ¬ ∃ j, 1 ≤ j ∧ j < ships_max ∧ (w.ship j).color_a = env.vga.LIGHT_GREEN := by
        rintro hn ⟨j, j1, j2, j3⟩
        exact hn ⟨j, j1, j2, by rw [hcol j]; exact j3⟩
      refine ⟨c, c1, c2, hz, fun j hj => ?_, ?_, ?_⟩
      · rw [hother j hj, hstep.2.2.1 j hj, hr.ship j]
      · rcases hslot with ⟨e1, e2⟩ | ⟨e1, _⟩ | ⟨e1, _⟩ | ⟨e1, _⟩
        · rw [e1, ship_eq_zero_of_le _ c e2]
          exact le_refl _
        · rw [e1, archetype_hp]
        · rw [e1]; rfl
        · rw [e1]; exact Nat.zero_le _
      · intro hd hb
        rcases hslot with ⟨e1, e2⟩ | ⟨e1, _⟩ | ⟨e1, _, e3⟩ | ⟨e1, _⟩
        · rw [e1, ship_eq_zero_of_le _ c e2] at hb
          exact absurd hb.2 (by decide)
        · rw [e1] at hb
          exact absurd hb.1 (archetype_color env _ _ hd)
        · exact hnone e3
        · rw [e1] at hb
          exact absurd hb.2 (Nat.lt_irrefl 0)
  · rw [if_neg h0]
    left
    intro j
    rw [hr.ship j]

/-! ## Invariants of the main loop -/

theorem getD_replicate_self {α : Type} (n j : Nat) (a : α) :
    (List.replicate n a).getD j a = a := by
  induction n generalizing j with
  | zero => rfl
  | succ n ih =>
    cases j with
    | zero => rfl
    | succ k => exact ih k

theorem clear_ship (env : Env) (w : World) (j : Nat) :
    (clear env w).ship j = if j = 0 then player_ship env else Ship.zero := by
  unfold World.ship
  rw [clear_ships, getD_set_eq, getD_replicate_self]
  by_cases h : j = 0
  · subst h
    rw [if_pos ⟨rfl, by decide⟩, if_pos rfl]
  · rw [if_neg (fun e => h e.1.symm), if_neg h]

theorem hp_bounded_clear (env : Env) (w : World) : hp_bounded (clear env w) := by
  intro j
  rw [clear_ship]
  split
  · exact le_refl _
  · exact le_refl _

theorem one_boss_clear (env : Env) (w : World) : one_boss env (clear env w) := by
  intro i j i1 _ _ _ hi _
  rw [clear_ship, if_neg (by omega)] at hi
  exact absurd hi.2 (Nat.lt_irrefl 0)

theorem hp_bounded_of_ship_eq {a b : World} (h : ∀ j, b.ship j = a.ship j)
    (ha : hp_bounded a) : hp_bounded b := by
  intro j
  rw [h j]
  exact ha j

theorem one_boss_of_ship_eq {env : Env} {a b : World} (h : ∀ j, b.ship j = a.ship j)
    (ha : one_boss env a) : one_boss env b := by
  intro i j i1 i2 j1 j2 hi hj
  rw [h i] at hi
  rw [h j] at hj
  exact ha i j i1 i2 j1 j2 hi hj

theorem hp_bounded_step {a b : World} (h : ShipsStep a b) (ha : hp_bounded a) :
    hp_bounded b := by
  intro j
  obtain ⟨h1, _, h3⟩ := h j
  rcases h3 with h3 | h3
  · rw [h1]
    exact le_trans h3 (ha j)
  · exact h3.2

theorem one_boss_step {env : Env} {a b : World} (h : ShipsStep a b) (ha : one_boss env a) :
    one_boss env b := by
  have key : ∀ i, 1 ≤ i → is_boss env (b.ship i) → is_boss env (a.ship i) := by
    intro i i1 hb
    obtain ⟨_, h2, h3⟩ := h i
    rcases h3 with h3 | h3
    · exact ⟨h2 ▸ hb.1, lt_of_lt_of_le hb.2 h3⟩
    · omega
  intro i j i1 i2 j1 j2 hi hj
  exact ha i j i1 i2 j1 j2 (key i i1 hi) (key j j1 hj)

theorem hp_bounded_spawn (env : Env) (w : World) (h : hp_bounded w) :
    hp_bounded (main_spawn env w) := by
  rcases main_spawn_cases env w with e | ⟨c, _, _, _, hother, hslot, _⟩
  · exact hp_bounded_of_ship_eq e h
  · intro j
    by_cases hj : j = c
    · rw [hj]; exact hslot
    · rw [hother j hj]; exact h j

theorem one_boss_spawn (env : Env) (w : World) (hd : boss_colour_distinct env.vga)
    (h : one_boss env w) : one_boss env (main_spawn env w) := by
  rcases main_spawn_cases env w with e | ⟨c, c1, c2, _, hother, _, hboss⟩
  · exact one_boss_of_ship_eq e h
  · intro i j i1 i2 j1 j2 hi hj
    by_cases ic : i = c
    · by_cases jc : j = c
      · rw [ic, jc]
      · rw [ic] at hi
        rw [hother j jc] at hj
        exact absurd ⟨j, j1, j2, hj.1⟩ (hboss hd hi)
    · by_cases jc : j = c
      · rw [jc] at hj
        rw [hother i ic] at hi
        exact absurd ⟨i, i1, i2, hi.1⟩ (hboss hd hj)
      · rw [hother i ic] at hi
        rw [hother j jc] at hj
        exact h i j i1 i2 j1 j2 hi hj

/-- The defeat block either resets the session or leaves the ships alone. -/
theorem main_defeat_cases (env : Env) (inp : Input) (w : World) :
    (∃ w1, (main_defeat env inp w = Defeat.go w1 ∨ main_defeat env inp w = Defeat.quit w1) ∧
      w1.ships = w.ships) ∨
    ∃ w0, main_defeat env inp w = Defeat.restart (clear env w0) := by
  unfold main_defeat
  simp only []
  split_ifs
  · left; exact ⟨_, Or.inr rfl, rfl⟩
  · right; exact ⟨_, rfl⟩
  · left; exact ⟨_, Or.inl rfl, rfl⟩
  · right; exact ⟨_, rfl⟩
  · left; exact ⟨_, Or.inr rfl, rfl⟩
  · right; exact ⟨_, rfl⟩
  · left; exact ⟨_, Or.inl rfl, rfl⟩
  · left; exact ⟨_, Or.inl rfl, rfl⟩

/-- A property of the ships that holds after a reset and is kept by the
spawner and by every simulation step is kept by an iteration of the main
loop, whichever way the iteration ends. -/
theorem main_tick_preserves (env : Env) (P : World → Prop)
    (hships : ∀ a b : World, b.ships = a.ships → P a → P b)
    (hspawn : ∀ a, P a → P (main_spawn env a))
    (hstep : ∀ a b, ShipsStep a b → P a → P b)
    (hclear : ∀ a, P (clear env a))
    (inp : Input) (w : World) (h : P w) : P (main_tick env inp w).world := by
  have h1 : P (speaker_step w inp.sample_ends) := by
    refine hships w _ ?_ h
    unfold speaker_step
    split <;> rfl
  have h2 := hspawn _ h1
  unfold main_tick
  simp only []
  rcases main_defeat_cases env inp (main_spawn env (speaker_step w inp.sample_ends)) with
    ⟨w1, e | e, hs⟩ | ⟨w0, e⟩
  · rw [e]
    exact hstep _ _ (main_simulate_step env inp w1) (hships _ _ hs h2)
  · rw [e]
    exact hships _ _ hs h2
  · rw [e]
    exact hclear w0

theorem main_tick_running (env : Env) (inp : Input) (w : World) (hk : inp.kbhit = false) :
    ∃ w1, main_tick env inp w = Outcome.running w1 := by
  unfold main_tick main_defeat
  simp only [hk]
  split_ifs <;> first | exact ⟨_, rfl⟩ | contradiction

theorem main_run_reachable (env : Env) (inp : Input) (hk : inp.kbhit = false) (n : Nat)
    (w : World) (h : Reachable env w) : Reachable env (main_run env inp n w) := by
  induction n generalizing w with
  | zero => exact h
  | succ n ih =>
    obtain ⟨w1, e⟩ := main_tick_running env inp w hk
    unfold main_run
    rw [e]
    exact ih w1 (Reachable.tick w w1 inp h e)

/-- C1: in every world that main-loop iterations reach from a session reset,
under every sequence of random draws and inputs, every ship slot has
`hp <= hp_max` (and `hp`, an unsigned field, is a natural number); the same
holds in the world any further iteration ends in, whether the loop goes on or
is left. -/
theorem hp_never_exceeds_hp_max (env : Env) (w : World) (h : Reachable env w) :
    (∀ j, (w.ship j).hp ≤ (w.ship j).hp_max) ∧
    ∀ (inp : Input) (j : Nat),
      ((main_tick env inp w).world.ship j).hp ≤ ((main_tick env inp w).world.ship j).hp_max := by
  have keep : ∀ (inp : Input) (a : World), hp_bounded a → hp_bounded (main_tick env inp a).world :=
    fun inp a ha => main_tick_preserves env hp_bounded
      (fun a b e pa => hp_bounded_of_ship_eq (fun j => by unfold World.ship; rw [e]) pa)
      (fun a pa => hp_bounded_spawn env a pa)
      (fun a b s pa => hp_bounded_step s pa)
      (fun a => hp_bounded_clear env a) inp a ha
  have inv : hp_bounded w := by
    induction h with
    | reset w0 => exact hp_bounded_clear env w0
    | tick a b inp _ e ih =>
      have := keep inp a ih
      rw [e] at this
      exact this
  exact ⟨inv, fun inp => keep inp w inv⟩

/-- Witness for C1: the world that three iterations of the main loop reach
from a fresh session, with the spawner creating an enemy in each of them, has
`hp <= hp_max` in every ship slot. -/
theorem hp_never_exceeds_hp_max_witness :
    Reachable env13h (main_run env13h hold_fire 3 (fresh [])) ∧
    ∀ j, ((main_run env13h hold_fire 3 (fresh [])).ship j).hp ≤
      ((main_run env13h hold_fire 3 (fresh [])).ship j).hp_max :=
  ⟨main_run_reachable env13h hold_fire rfl 3 _ (Reachable.reset _),
   (hp_never_exceeds_hp_max env13h _
     (main_run_reachable env13h hold_fire rfl 3 _ (Reachable.reset _))).1⟩

/-- C9: in every world that main-loop iterations reach from a session reset,
at most one enemy slot (1..11) holds a live boss (`color_a = LIGHT_GREEN`,
`hp > 0`).  And whenever the spawner runs in a world where an enemy slot holds
a live boss, spawns into slot `id` and rolls a role value of 110 or more (the
boss), slot `id` ends with `hp = 0`, every other slot is as before, and every
live boss afterwards was a live boss before. -/
theorem at_most_one_boss (env : Env) (w : World) (hd : boss_colour_distinct env.vga) :
    (Reachable env w →
      ∀ i j, 1 ≤ i → i < ships_max → 1 ≤ j → j < ships_max →
        ((w.ship i).color_a = env.vga.LIGHT_GREEN ∧ 0 < (w.ship i).hp) →
        ((w.ship j).color_a = env.vga.LIGHT_GREEN ∧ 0 < (w.ship j).hp) → i = j) ∧
    (∀ id : Nat, (randn w 50).1 = 0 → (spawn env (randn w 50).2 1).1 = (id : Int) →
      110 ≤ (randn (spawn env (randn w 50).2 1).2 100).1 + w.ticks / 1000 →
      (∃ b, 1 ≤ b ∧ b < ships_max ∧
        (w.ship b).color_a = env.vga.LIGHT_GREEN ∧ 0 < (w.ship b).hp) →
      0 < id ∧ ((main_spawn env w).ship id).hp = 0 ∧
      (∀ j, j ≠ id → (main_spawn env w).ship j = w.ship j) ∧
      ∀ j, ((main_spawn env w).ship j).color_a = env.vga.LIGHT_GREEN ∧
          0 < ((main_spawn env w).ship j).hp →
        (w.ship j).color_a = env.vga.LIGHT_GREEN ∧ 0 < (w.ship j).hp) := by
  constructor
  · intro h
    have keep : ∀ (inp : Input) (a : World), one_boss env a →
        one_boss env (main_tick env inp a).world :=
      fun inp a ha => main_tick_preserves env (one_boss env)
        (fun a b e pa => one_boss_of_ship_eq (fun j => by unfold World.ship; rw [e]) pa)
        (fun a pa => one_boss_spawn env a hd pa)
        (fun a b s pa => one_boss_step s pa)
        (fun a => one_boss_clear env a) inp a ha
    have inv : one_boss env w := by
      induction h with
      | reset w0 => exact one_boss_clear env w0
      | tick a b inp _ e ih =>
        have := keep inp a ih
        rw [e] at this
        exact this
    exact inv
  · intro id h0 e hsel ⟨b, b1, b2, bcol, _⟩
    have hr := randn_core w 50
    rcases spawn_cases env (randn w 50).2 1 with ⟨e1, _, _⟩ | ⟨c, c1, _, e1, _, _, hstep⟩
    · rw [e1] at e
      omega
    · have hc : c = id := by
        rw [e1] at e
        exact Int.ofNat.inj e
      subst hc
      have hms : main_spawn env w = main_role env (spawn env (randn w 50).2 1).2 c := by
        unfold main_spawn
        simp only []
        rw [if_pos h0, e1, if_pos (by omega), Int.toNat_ofNat]
      obtain ⟨hother, hslot⟩ := main_role_ship env (spawn env (randn w 50).2 1).2 c
      have ht : (spawn env (randn w 50).2 1).2.ticks = w.ticks :=
        hstep.1.trans hr.2.2.2.2.1
      rw [ht] at hslot
      have hsame : ∀ j, j ≠ c → (main_spawn env w).ship j = w.ship j := by
        intro j hj
        rw [hms, hother j hj, hstep.2.2.1 j hj, hr.ship j]
      have hzero : ((main_spawn env w).ship c).hp = 0 := by
        rw [hms]
        rcases hslot with ⟨e2, e3⟩ | ⟨_, e3⟩ | ⟨_, _, e3⟩ | ⟨e2, _⟩
        · rw [e2, ship_eq_zero_of_le _ c e3]
          rfl
        · omega
        · exact absurd ⟨b, b1, b2, by rw [hstep.color b, hr.ship b]; exact bcol⟩ e3
        · rw [e2]
      refine ⟨c1, hzero, hsame, fun j hj => ?_⟩
      by_cases hjc : j = c
      · rw [hjc, hzero] at hj
        exact absurd hj.2 (Nat.lt_irrefl 0)
      · rw [hsame j hjc] at hj
        exact hj

theorem env13h_distinct : boss_colour_distinct env13h.vga :=
  ⟨by decide, by decide, by decide, by decide, by decide⟩

set_option maxRecDepth 100000 in
/-- Witness for C9: the world reached by three spawning iterations has no
boss at all, and in a session with a live boss in slot 1 a spawn into slot 2
that rolls the boss leaves slot 2 with `hp = 0` and slot 1 the only boss. -/
theorem at_most_one_boss_witness :
    boss_colour_distinct env13h.vga ∧
    (∀ i j, 1 ≤ i → i < ships_max → 1 ≤ j → j < ships_max →
      (((main_run env13h hold_fire 3 (fresh [])).ship i).color_a = env13h.vga.LIGHT_GREEN ∧
        0 < ((main_run env13h hold_fire 3 (fresh [])).ship i).hp) →
      (((main_run env13h hold_fire 3 (fresh [])).ship j).color_a = env13h.vga.LIGHT_GREEN ∧
        0 < ((main_run env13h hold_fire 3 (fresh [])).ship j).hp) → i = j) ∧
    ((bossfight.ship 1).color_a = env13h.vga.LIGHT_GREEN ∧ (bossfight.ship 1).hp = 1000) ∧
    (spawn env13h (randn bossfight 50).2 1).1 = 2 ∧
    ((main_spawn env13h bossfight).ship 2).hp = 0 ∧
    (main_spawn env13h bossfight).ship 1 = bossfight.ship 1 :=
  ⟨env13h_distinct,
   (at_most_one_boss env13h _ env13h_distinct).1
     (main_run_reachable env13h hold_fire rfl 3 _ (Reachable.reset _)),
   by decide, by decide,
   ((at_most_one_boss env13h bossfight env13h_distinct).2 2 (by decide) (by decide) (by decide)
     ⟨1, by decide, by decide, by decide, by decide⟩).2.1,
   ((at_most_one_boss env13h bossfight env13h_distinct).2 2 (by decide) (by decide) (by decide)
     ⟨1, by decide, by decide, by decide, by decide⟩).2.2.1 1 (by decide)⟩

/-! ## Bullets that leave the play-field, and the single target -/

theorem bullet_move_particles (env : Env) (w : World) (i : Nat) :
    (bullet_move env w i).particles = w.particles := rfl

theorem bullet_move_powerups (env : Env) (w : World) (i : Nat) :
    (bullet_move env w i).powerups = w.powerups := rfl

theorem bullet_move_dead (env : Env) (w : World) (i : Nat)
    (hout : i32 ((w.bullet i).x + (w.bullet i).dx) < 0 ∨
      i32 ((w.bullet i).x + (w.bullet i).dx) > ((env.vga.VGA_PWIDTH * SCALE : Nat) : Int) ∨
      i32 ((w.bullet i).y + (w.bullet i).dy) < 0 ∨
      i32 ((w.bullet i).y + (w.bullet i).dy) > ((env.vga.VGA_PHEIGHT * SCALE : Nat) : Int)) :
    ((bullet_move env w i).bullet i).alive = false := by
  have ho : (decide (i32 ((w.bullet i).x + (w.bullet i).dx) < 0) ||
      decide (i32 ((w.bullet i).x + (w.bullet i).dx) >
        ((env.vga.VGA_PWIDTH * SCALE : Nat) : Int)) ||
      decide (i32 ((w.bullet i).y + (w.bullet i).dy) < 0) ||
      decide (i32 ((w.bullet i).y + (w.bullet i).dy) >
        ((env.vga.VGA_PHEIGHT * SCALE : Nat) : Int))) = true := by
    simp only [Bool.or_eq_true, decide_eq_true_eq]
    rcases hout with h | h | h | h
    · exact Or.inl (Or.inl (Or.inl h))
    · exact Or.inl (Or.inl (Or.inr h))
    · exact Or.inl (Or.inr h)
    · exact Or.inr h
  unfold bullet_move
  simp only []
  rw [bullet_setBullet]
  by_cases hl : i < w.bullets.length
  · rw [if_pos ⟨rfl, hl⟩, ho]
    rfl
  · rw [if_neg (fun c => hl c.2), bullet_eq_zero_of_le w i (by omega)]
    rfl

theorem bullet_step_no_hit (env : Env) (w : World) (i : Nat)
    (hno : ∀ id, id < ships_max → bullet_hits (bullet_move env w i) i id = false) :
    bullet_step env w i = bullet_move env w i := by
  unfold bullet_step
  rcases bullet_step_ships_cases env (bullet_move env w i) i ships_max 0 with
    ⟨e, _⟩ | ⟨id, _, hlt, hit, _, _⟩
  · exact e
  · rw [hno id (by omega)] at hit
    exact absurd hit (by decide)

set_option maxRecDepth 100000 in
/-- Counterexample for C11: on the left edge a bullet moves to `x = -500`,
outside the play-field, and is marked dead, but it is inside the box of the
enemy in slot 1, which loses its 10 hit points; the score goes from 0 to 100
and ten particles are lit. -/
theorem bullet_leaving_counterexample :
    i32 ((edge_duel.bullet 0).x + (edge_duel.bullet 0).dx) = -500 ∧
    ((bullet_step env13h edge_duel 0).bullet 0).alive = false ∧
    (edge_duel.ship 1).hp = 10 ∧ ((bullet_step env13h edge_duel 0).ship 1).hp = 0 ∧
    edge_duel.score = 0 ∧ (bullet_step env13h edge_duel 0).score = 100 ∧
    live_particles edge_duel = 0 ∧ live_particles (bullet_step env13h edge_duel 0) = 10 := by
  refine ⟨by decide, by decide, by decide, by decide, by decide, by decide, by decide,
    by decide⟩

/-- C11 (amended): a bullet whose position after the integration of
`bullet_step` lies outside the play-field rectangle is marked dead; and when
no live ship of another tint contains the bullet at that position, nothing
else changes: the ships, the score, the particle pool and the powerup pool are
as before the step.  A ship that does contain the bullet there is hit in the
usual way. -/
theorem bullet_step_leaving (env : Env) (w : World) (i : Nat)
    (hout : i32 ((w.bullet i).x + (w.bullet i).dx) < 0 ∨
      i32 ((w.bullet i).x + (w.bullet i).dx) > ((env.vga.VGA_PWIDTH * SCALE : Nat) : Int) ∨
      i32 ((w.bullet i).y + (w.bullet i).dy) < 0 ∨
      i32 ((w.bullet i).y + (w.bullet i).dy) > ((env.vga.VGA_PHEIGHT * SCALE : Nat) : Int)) :
    ((bullet_step env w i).bullet i).alive = false ∧
    ((∀ id, id < ships_max → bullet_hits (bullet_move env w i) i id = false) →
      (bullet_step env w i).ships = w.ships ∧ (bullet_step env w i).score = w.score ∧
      (bullet_step env w i).particles = w.particles ∧
      (bullet_step env w i).powerups = w.powerups) ∧
    (∀ id, id < ships_max → bullet_hits (bullet_move env w i) i id = true →
      (∀ k, k < id → bullet_hits (bullet_move env w i) i k = false) →
      bullet_step env w i = bullet_hit env (bullet_move env w i) i id) := by
  refine ⟨?_, ?_, fun id hid hit first => bullet_step_eq_hit env w i id hid hit first⟩
  · unfold bullet_step
    rcases bullet_step_ships_cases env (bullet_move env w i) i ships_max 0 with
      ⟨e, _⟩ | ⟨id, _, _, _, _, e⟩
    · rw [e]
      exact bullet_move_dead env w i hout
    · rw [e, bullet_hit_bullet]
      exact bullet_damage_bullet_dead _ _ _
  · intro hno
    rw [bullet_step_no_hit env w i hno]
    exact ⟨rfl, rfl, rfl, rfl⟩

set_option maxRecDepth 100000 in
/-- Witness for the amended C11: the player's own bullet of the fresh session,
sent 200 pixels to the left of the play-field, dies there and changes nothing
else. -/
theorem bullet_step_leaving_witness :
    ((bullet_step env13h
        (fresh_fired.setBullet 0 { fresh_fired.bullet 0 with x := -199000, dx := -1000 })
        0).bullet 0).alive = false ∧
    (bullet_step env13h
        (fresh_fired.setBullet 0 { fresh_fired.bullet 0 with x := -199000, dx := -1000 })
        0).ships = fresh_fired.ships :=
  ⟨(bullet_step_leaving env13h
      (fresh_fired.setBullet 0 { fresh_fired.bullet 0 with x := -199000, dx := -1000 }) 0
      (Or.inl (by decide))).1,
   ((bullet_step_leaving env13h
      (fresh_fired.setBullet 0 { fresh_fired.bullet 0 with x := -199000, dx := -1000 }) 0
      (Or.inl (by decide))).2.1 (by decide)).1⟩

/-- C12: `bullet_step` changes the `hp` of at most one ship: either no ship's
`hp` changes, or there is a ship `id` that is the lowest-index ship among
those that are live (`hp > 0`), have `color_b` different from the bullet's
colour and contain the moved bullet in their box, and every other ship, the
matching ships of higher index included, is left as it was. -/
theorem bullet_step_single_target (env : Env) (w : World) (i : Nat) :
    ((∀ j, (bullet_step env w i).ship j = w.ship j) ∨
      ∃ id, id < ships_max ∧ bullet_hits (bullet_move env w i) i id = true ∧
        (∀ k, k < id → bullet_hits (bullet_move env w i) i k = false) ∧
        ∀ j, j ≠ id → (bullet_step env w i).ship j = w.ship j) ∧
    (∀ j k, ((bullet_step env w i).ship j).hp ≠ (w.ship j).hp →
      ((bullet_step env w i).ship k).hp ≠ (w.ship k).hp → j = k) ∧
    (∀ j, ((bullet_step env w i).ship j).hp ≠ (w.ship j).hp →
      j < ships_max ∧ bullet_hits (bullet_move env w i) i j = true ∧
      ∀ k, k < j → bullet_hits (bullet_move env w i) i k = false) := by
  have key : (∀ j, (bullet_step env w i).ship j = w.ship j) ∨
      ∃ id, id < ships_max ∧ bullet_hits (bullet_move env w i) i id = true ∧
        (∀ k, k < id → bullet_hits (bullet_move env w i) i k = false) ∧
        ∀ j, j ≠ id → (bullet_step env w i).ship j = w.ship j := by
    unfold bullet_step
    rcases bullet_step_ships_cases env (bullet_move env w i) i ships_max 0 with
      ⟨e, _⟩ | ⟨id, _, hlt, hit, first, e⟩
    · left
      intro j
      rw [e, bullet_move_ship]
    · right
      refine ⟨id, by omega, hit, fun k hk => first k (Nat.zero_le _) hk, fun j hj => ?_⟩
      rw [e, bullet_hit_ship, bullet_damage_ship, if_neg (fun c => hj c.1.symm),
        bullet_move_ship]
  refine ⟨key, fun j k hj hk => ?_, fun j hj => ?_⟩
  · rcases key with h | ⟨id, _, _, _, h⟩
    · exact absurd (by rw [h j]) hj
    · have ej : j = id := by
        by_contra c
        exact hj (by rw [h j c])
      have ek : k = id := by
        by_contra c
        exact hk (by rw [h k c])
      rw [ej, ek]
  · rcases key with h | ⟨id, h1, h2, h3, h⟩
    · exact absurd (by rw [h j]) hj
    · have ej : j = id := by
        by_contra c
        exact hj (by rw [h j c])
      rw [ej]
      exact ⟨h1, h2, h3⟩

set_option maxRecDepth 100000 in
/-- Witness for C12: with two enemies at the same place, both live, of another
tint and containing the bullet, the bullet damages the one in slot 1 and
leaves the one in slot 2 with its 10 hit points. -/
theorem bullet_step_single_target_witness :
    bullet_hits (bullet_move env13h crossfire 0) 0 1 = true ∧
    bullet_hits (bullet_move env13h crossfire 0) 0 2 = true ∧
    ((bullet_step env13h crossfire 0).ship 1).hp = 0 ∧
    ((bullet_step env13h crossfire 0).ship 2).hp = 10 ∧
    ∀ k, ((bullet_step env13h crossfire 0).ship k).hp ≠ (crossfire.ship k).hp → 1 = k :=
  ⟨by decide, by decide, by decide, by decide,
   fun k hk => (bullet_step_single_target env13h crossfire 0).2.1 1 k (by decide) hk⟩

/-! ## The fire action -/

theorem i32_of_range (v : Int) (h1 : -2147483648 ≤ v) (h2 : v ≤ 2147483647) : i32 v = v := by
  unfold i32
  omega

theorem ship_fire_ships (w : World) (i : Nat)
    (h : ¬ u32 ((w.ship i).last_fire + (w.ship i).fire_delay) > w.ticks) :
    (ship_fire w i).2.ships = w.ships.set i { w.ship i with last_fire := w.ticks } := by
  unfold ship_fire
  simp only []
  rw [if_neg h]
  rfl

theorem ship_fire_choice_lt (w : World) (hb : w.bullets.length = bullets_max) :
    ship_fire_choice w < bullets_max :=
  (pool_alloc (fun b : Bullet => b.alive) (fun b => b.birthtick) w.bullets Bullet.zero
    bullets_max hb (by decide)).1

/-- C13: for every ship `i` (a slot of the pool) and tick, `ship_fire`
returns -1 exactly when the cooldown gate `last_fire + fire_delay > ticks`
(an `unsigned` sum) holds, and it then leaves the world, the ship and the
bullet pool included, unchanged.  Otherwise it sets `last_fire` to the current
tick and returns a slot that holds a live bullet with position
`(x + dx/100, y + dy/100)`, velocity `(3*dx, 3*dy)` (`int32_t` arithmetic,
division truncating), colour `color_b`, damage `fire_damage` and birth tick
the current tick.  Whenever the sums and products fit their 32 bit types, the
gate and the bullet are exactly the ones of the plain integer formulas. -/
theorem ship_fire_spec (w : World) (i : Nat) (hb : w.bullets.length = bullets_max)
    (hi : i < w.ships.length) :
    ((ship_fire w i).1 = -1 ↔
      u32 ((w.ship i).last_fire + (w.ship i).fire_delay) > w.ticks) ∧
    (u32 ((w.ship i).last_fire + (w.ship i).fire_delay) > w.ticks → ship_fire w i = (-1, w)) ∧
    (¬ u32 ((w.ship i).last_fire + (w.ship i).fire_delay) > w.ticks →
      ∃ c : Nat, c < bullets_max ∧ (ship_fire w i).1 = (c : Int) ∧
        (ship_fire w i).2.ship i = { w.ship i with last_fire := w.ticks } ∧
        (∀ j, j ≠ i → (ship_fire w i).2.ship j = w.ship j) ∧
        (ship_fire w i).2.bullet c =
          { x := i32 ((w.ship i).x + (w.ship i).dx.tdiv 100),
            y := i32 ((w.ship i).y + (w.ship i).dy.tdiv 100),
            dx := i32 ((w.ship i).dx * 3),
            dy := i32 ((w.ship i).dy * 3),
            color := (w.ship i).color_b,
            birthtick := w.ticks,
            damage := (w.ship i).fire_damage,
            alive := true } ∧
        ((-2147483648 ≤ (w.ship i).x + (w.ship i).dx.tdiv 100 ∧
            (w.ship i).x + (w.ship i).dx.tdiv 100 ≤ 2147483647 ∧
            -2147483648 ≤ (w.ship i).y + (w.ship i).dy.tdiv 100 ∧
            (w.ship i).y + (w.ship i).dy.tdiv 100 ≤ 2147483647 ∧
            -2147483648 ≤ (w.ship i).dx * 3 ∧ (w.ship i).dx * 3 ≤ 2147483647 ∧
            -2147483648 ≤ (w.ship i).dy * 3 ∧ (w.ship i).dy * 3 ≤ 2147483647) →
          (ship_fire w i).2.bullet c =
            { x := (w.ship i).x + (w.ship i).dx.tdiv 100,
              y := (w.ship i).y + (w.ship i).dy.tdiv 100,
              dx := 3 * (w.ship i).dx,
              dy := 3 * (w.ship i).dy,
              color := (w.ship i).color_b,
              birthtick := w.ticks,
              damage := (w.ship i).fire_damage,
              alive := true })) ∧
    ((w.ship i).last_fire + (w.ship i).fire_delay < 4294967296 →
      ((ship_fire w i).1 = -1 ↔ (w.ship i).last_fire + (w.ship i).fire_delay > w.ticks)) := by
  have hfired : ¬ u32 ((w.ship i).last_fire + (w.ship i).fire_delay) > w.ticks →
      (ship_fire w i).1 ≠ -1 := by
    intro h e
    rw [ship_fire_fst w i h] at e
    omega
  have hiff : (ship_fire w i).1 = -1 ↔
      u32 ((w.ship i).last_fire + (w.ship i).fire_delay) > w.ticks := by
    constructor
    · intro e
      by_contra c
      exact hfired c e
    · intro h
      rw [ship_fire_blocked w i h]
  refine ⟨hiff, ship_fire_blocked w i, fun h => ?_, fun hfit => ?_⟩
  · have hc := ship_fire_choice_lt w hb
    have hbul : (ship_fire w i).2.bullet (ship_fire_choice w) =
        { x := i32 ((w.ship i).x + (w.ship i).dx.tdiv 100),
          y := i32 ((w.ship i).y + (w.ship i).dy.tdiv 100),
          dx := i32 ((w.ship i).dx * 3),
          dy := i32 ((w.ship i).dy * 3),
          color := (w.ship i).color_b,
          birthtick := w.ticks,
          damage := (w.ship i).fire_damage,
          alive := true } := by
      unfold World.bullet
      rw [ship_fire_bullets w i h, getD_set_eq, if_pos ⟨rfl, by rw [hb]; exact hc⟩]
      rfl
    refine ⟨ship_fire_choice w, hc, ship_fire_fst w i h, ?_, fun j hj => ?_, hbul, ?_⟩
    · unfold World.ship
      rw [ship_fire_ships w i h, getD_set_eq, if_pos ⟨rfl, hi⟩]
      rfl
    · unfold World.ship
      rw [ship_fire_ships w i h, getD_set_eq, if_neg (fun c => hj c.1.symm)]
    · rintro ⟨a1, a2, a3, a4, a5, a6, a7, a8⟩
      rw [hbul, i32_of_range _ a1 a2, i32_of_range _ a3 a4, i32_of_range _ a5 a6,
        i32_of_range _ a7 a8, Int.mul_comm (w.ship i).dx 3, Int.mul_comm (w.ship i).dy 3]
  · rw [hiff]
    unfold u32
    rw [Nat.mod_eq_of_lt hfit]

set_option maxRecDepth 100000 in
/-- Witness for C13: in a fresh session the player is refused at tick 24 and
fires at tick 30: slot 0 then holds a live bullet at the player's position,
at rest, with the player's tint and damage 10, born at tick 30. -/
theorem ship_fire_spec_witness :
    ship_fire (at_tick (fresh []) 24) 0 = (-1, at_tick (fresh []) 24) ∧
    (ship_fire (at_tick (fresh []) 30) 0).1 = 0 ∧
    ((ship_fire (at_tick (fresh []) 30) 0).2.ship 0).last_fire = 30 ∧
    (ship_fire (at_tick (fresh []) 30) 0).2.bullet 0 =
      { x := 160000, y := 100000, dx := 0, dy := 0, color := 9, birthtick := 30,
        damage := 10, alive := true } :=
  ⟨(ship_fire_spec (at_tick (fresh []) 24) 0 (by decide) (by decide)).2.1 (by decide),
   by decide, by decide, by decide⟩

/-! ## The stat effects -/

theorem u8_of_lt (n : Nat) (h : n < 256) : u8 n = n := Nat.mod_eq_of_lt h

theorem power_fire_damage_up_value (w : World) (h : 0 < w.ships.length) :
    ((power_fire_damage_up w).ship 0).fire_damage = u8 ((w.ship 0).fire_damage * 10 / 9) := by
  unfold power_fire_damage_up
  simp only []
  rw [ship_setShip, if_pos ⟨rfl, h⟩]

theorem damage_up_arith : ∀ b, b < 256 →
    (231 ≤ b → u8 (b * 10 / 9) = b * 10 / 9 - 256 ∧ u8 (b * 10 / 9) < b) ∧
    (b ≤ 230 → u8 (b * 10 / 9) = b * 10 / 9 ∧ b ≤ u8 (b * 10 / 9)) := by
  intro b hb
  unfold u8
  constructor
  · intro h
    have h1 : 256 ≤ b * 10 / 9 := by omega
    have h2 : b * 10 / 9 < 284 := by omega
    have e : b * 10 / 9 % 256 = b * 10 / 9 - 256 := by
      rw [Nat.mod_eq_sub_mod h1, Nat.mod_eq_of_lt (by omega)]
    rw [e]
    exact ⟨rfl, by omega⟩
  · intro h
    have h2 : b * 10 / 9 < 256 := by omega
    rw [Nat.mod_eq_of_lt h2]
    exact ⟨rfl, by omega⟩

set_option maxRecDepth 100000 in
/-- C14 fails on the code: `power_fire_damage_up` stores `fire_damage * 10 / 9`
in the 8 bit field without a clamp.  From the reset value 10, thirty-five
damage-up pickups give 253, and the next one gives `281 mod 256 = 25`; and in
every world with a player whose `fire_damage` is in 231..255 the new value is
`fire_damage * 10 / 9 - 256`, smaller than the old one. -/
theorem power_fire_damage_up_wraps :
    ((fresh []).ship 0).fire_damage = 10 ∧
    ((run_powers env13h (fresh [])
      (List.replicate 35 Power.power_fire_damage_up)).ship 0).fire_damage = 253 ∧
    ((run_powers env13h (fresh [])
      (List.replicate 36 Power.power_fire_damage_up)).ship 0).fire_damage = 25 ∧
    (∀ w : World, 0 < w.ships.length → 231 ≤ (w.ship 0).fire_damage →
      (w.ship 0).fire_damage ≤ 255 →
      ((power_fire_damage_up w).ship 0).fire_damage = (w.ship 0).fire_damage * 10 / 9 - 256 ∧
      ((power_fire_damage_up w).ship 0).fire_damage < (w.ship 0).fire_damage) ∧
    (∀ w : World, 0 < w.ships.length → (w.ship 0).fire_damage ≤ 230 →
      ((power_fire_damage_up w).ship 0).fire_damage = (w.ship 0).fire_damage * 10 / 9 ∧
      (w.ship 0).fire_damage ≤ ((power_fire_damage_up w).ship 0).fire_damage) := by
  refine ⟨by decide, by decide, by decide, fun w h h1 h2 => ?_, fun w h h1 => ?_⟩
  · rw [power_fire_damage_up_value w h]
    exact (damage_up_arith _ (by omega)).1 h1
  · rw [power_fire_damage_up_value w h]
    exact (damage_up_arith _ (by omega)).2 h1

theorem setShip_zero_fire_delay (w : World) (s : Ship)
    (h : s.fire_delay = (w.ship 0).fire_delay) :
    ((w.setShip 0 s).ship 0).fire_delay = (w.ship 0).fire_delay := by
  rw [ship_setShip]
  split
  · exact h
  · rfl

theorem power_fire_delay_down_value (w : World) (h : 0 < w.ships.length) :
    ((power_fire_delay_down w).ship 0).fire_delay =
      u8 (max 8 ((w.ship 0).fire_delay * 3 / 4)) := by
  unfold power_fire_delay_down
  simp only []
  rw [ship_setShip, if_pos ⟨rfl, h⟩]

theorem run_power_fire_delay (env : Env) (w : World) (p : Power) :
    ((run_power env w p).ship 0).fire_delay =
      if p = Power.power_fire_delay_down ∧ 0 < w.ships.length then
        u8 (max 8 ((w.ship 0).fire_delay * 3 / 4))
      else (w.ship 0).fire_delay := by
  cases p with
  | null => rfl
  | power_heal =>
    rw [if_neg (fun c => absurd c.1 (by decide))]
    show ((power_heal w).ship 0).fire_delay = _
    unfold power_heal
    simp only []
    refine Eq.trans (setShip_zero_fire_delay _ _ ?_) ?_
    · rfl
    · rw [(randn_core w 25).ship 0]
  | power_fire_delay_down =>
    show ((power_fire_delay_down w).ship 0).fire_delay = _
    by_cases h : 0 < w.ships.length
    · rw [if_pos ⟨rfl, h⟩, power_fire_delay_down_value w h]
    · rw [if_neg (fun c => h c.2)]
      unfold power_fire_delay_down
      simp only []
      rw [ship_setShip, if_neg (fun c => h c.2)]
  | power_fire_damage_up =>
    rw [if_neg (fun c => absurd c.1 (by decide))]
    refine setShip_zero_fire_delay _ _ ?_
    rfl
  | power_teleport =>
    rw [if_neg (fun c => absurd c.1 (by decide))]
    show ((power_teleport env w).ship 0).fire_delay = _
    unfold power_teleport
    simp only []
    refine Eq.trans (setShip_zero_fire_delay _ _ ?_) ?_
    · rfl
    · rw [(randn_core _ _).ship 0]
      refine Eq.trans (setShip_zero_fire_delay _ _ ?_) ?_
      · rfl
      · rw [(randn_core _ _).ship 0]
  | power_radius_up =>
    rw [if_neg (fun c => absurd c.1 (by decide))]
    refine setShip_zero_fire_delay _ _ ?_
    rfl
  | power_radius_down =>
    rw [if_neg (fun c => absurd c.1 (by decide))]
    refine setShip_zero_fire_delay _ _ ?_
    rfl

theorem run_power_fire_delay_range (env : Env) (w : World) (p : Power)
    (h : 8 ≤ (w.ship 0).fire_delay ∧ (w.ship 0).fire_delay ≤ 25) :
    8 ≤ ((run_power env w p).ship 0).fire_delay ∧
    ((run_power env w p).ship 0).fire_delay ≤ 25 := by
  rw [run_power_fire_delay]
  split
  · have hm : max 8 ((w.ship 0).fire_delay * 3 / 4) < 256 := by
      rcases le_total 8 ((w.ship 0).fire_delay * 3 / 4) with c | c
      · rw [max_eq_right c]; omega
      · rw [max_eq_left c]; omega
    rw [u8_of_lt _ hm]
    constructor
    · exact le_max_left _ _
    · exact max_le (by omega) (by omega)
  · exact h

theorem run_powers_fire_delay_range (env : Env) (ps : List Power) (w : World)
    (h : 8 ≤ (w.ship 0).fire_delay ∧ (w.ship 0).fire_delay ≤ 25) :
    8 ≤ ((run_powers env w ps).ship 0).fire_delay ∧
    ((run_powers env w ps).ship 0).fire_delay ≤ 25 := by
  induction ps generalizing w with
  | nil => exact h
  | cons p rest ih =>
    show 8 ≤ ((run_powers env (run_power env w p) rest).ship 0).fire_delay ∧ _
    exact ih _ (run_power_fire_delay_range env w p h)

/-- C15: for every `fire_delay` value of the player's 8 bit field,
`power_fire_delay_down` sets `fire_delay` to `max 8 (3 * fire_delay / 4)`
(truncating division); the result is never below 8, never above the old value
when the old value is at least 8, and 8 is a fixed point.  Hence, from the
value 25 that `clear` stores, the player's `fire_delay` stays in 8..25 under
any sequence of pickups. -/
theorem power_fire_delay_down_spec (env : Env) (w w0 : World) (ps : List Power)
    (hp : 0 < w.ships.length) (hfd : (w.ship 0).fire_delay < 256) :
    ((power_fire_delay_down w).ship 0).fire_delay = max 8 (3 * (w.ship 0).fire_delay / 4) ∧
    8 ≤ ((power_fire_delay_down w).ship 0).fire_delay ∧
    (8 ≤ (w.ship 0).fire_delay →
      ((power_fire_delay_down w).ship 0).fire_delay ≤ (w.ship 0).fire_delay) ∧
    ((w.ship 0).fire_delay = 8 → ((power_fire_delay_down w).ship 0).fire_delay = 8) ∧
    ((clear env w0).ship 0).fire_delay = 25 ∧
    8 ≤ ((run_powers env (clear env w0) ps).ship 0).fire_delay ∧
    ((run_powers env (clear env w0) ps).ship 0).fire_delay ≤ 25 := by
  have hm : max 8 ((w.ship 0).fire_delay * 3 / 4) < 256 := by
    rcases le_total 8 ((w.ship 0).fire_delay * 3 / 4) with c | c
    · rw [max_eq_right c]; omega
    · rw [max_eq_left c]; omega
  have e : ((power_fire_delay_down w).ship 0).fire_delay =
      max 8 (3 * (w.ship 0).fire_delay / 4) := by
    rw [power_fire_delay_down_value w hp, u8_of_lt _ hm, Nat.mul_comm]
  have h25 : ((clear env w0).ship 0).fire_delay = 25 := by
    rw [clear_ship_zero]
    rfl
  have hr := run_powers_fire_delay_range env ps (clear env w0) (by rw [h25]; omega)
  refine ⟨e, ?_, fun h8 => ?_, fun h8 => ?_, h25, hr.1, hr.2⟩
  · rw [e]; exact le_max_left _ _
  · rw [e]; exact max_le h8 (by omega)
  · rw [e, h8]; rfl

set_option maxRecDepth 100000 in
/-- Witness for C15: from the reset value 25 the fire-rate-up pickups give
18, 13, 9 and then 8 for good. -/
theorem power_fire_delay_down_spec_witness :
    ((power_fire_delay_down (fresh [])).ship 0).fire_delay = 18 ∧
    ((run_powers env13h (fresh [])
      (List.replicate 3 Power.power_fire_delay_down)).ship 0).fire_delay = 9 ∧
    ((run_powers env13h (fresh [])
      (List.replicate 9 Power.power_fire_delay_down)).ship 0).fire_delay = 8 :=
  ⟨(power_fire_delay_down_spec env13h (fresh []) (fresh []) [] (by decide) (by decide)).1.trans
     (by decide),
   by decide, by decide⟩

/-! ## The weighted choice of the effect -/

theorem powerup_select_effect (env : Env) (s : Nat) :
    (powerup_select env s).1 =
      if s < 50 then Power.power_heal
      else if s < 75 then Power.power_fire_delay_down
      else if s < 95 then Power.power_fire_damage_up
      else if s < 97 then Power.power_radius_up
      else if s < 99 then Power.power_radius_down
      else Power.power_teleport := by
  unfold powerup_select
  split_ifs <;> rfl

theorem countP_effect (env : Env) (p : Power) :
    (List.range 100).countP (fun s => decide ((powerup_select env s).1 = p)) =
      (List.range 100).countP (fun s => decide (
        (if s < 50 then Power.power_heal
         else if s < 75 then Power.power_fire_delay_down
         else if s < 95 then Power.power_fire_damage_up
         else if s < 97 then Power.power_radius_up
         else if s < 99 then Power.power_radius_down
         else Power.power_teleport) = p)) := by
  congr 1
  funext s
  rw [powerup_select_effect]

theorem randn_powerups (w : World) (n : Nat) : (randn w n).2.powerups = w.powerups := by
  unfold randn
  split <;> rfl

theorem randn_powerup (w : World) (n j : Nat) : (randn w n).2.powerup j = w.powerup j := by
  unfold World.powerup
  rw [randn_powerups]

theorem randn_ticks_eq (w : World) (n : Nat) : (randn w n).2.ticks = w.ticks :=
  (randn_core w n).2.2.2.2.1

theorem powerup_drop_free (w : World) (x y : Int)
    (hfree : ∃ j, j < powerups_max ∧ (w.powerup j).alive = false) :
    ∃ c : Nat, c < powerups_max ∧ (w.powerup c).alive = false ∧
      (∀ j, j < c → (w.powerup j).alive = true) ∧
      powerup_drop w x y =
        ((c : Int), w.setPowerup c
          { w.powerup c with x := x, y := y, birthtick := w.ticks, alive := true }) := by
  obtain ⟨j, hj, hd⟩ := hfree
  rcases powerup_drop_scan_cases w powerups_max 0 with ⟨_, hall⟩ | ⟨c, _, h2, e, hdc, hall⟩
  · rw [hall j (Nat.zero_le _) (by omega)] at hd
    exact absurd hd (by decide)
  · refine ⟨c, by omega, hdc, fun k hk => hall k (Nat.zero_le _) hk, ?_⟩
    unfold powerup_drop
    simp only []
    rw [e, if_pos (Int.natCast_nonneg c)]
    rfl

theorem powerup_drop_free_world (w : World) (x y : Int)
    (hlen : w.powerups.length = powerups_max)
    (hfree : ∃ j, j < powerups_max ∧ (w.powerup j).alive = false) :
    ∃ (c : Nat) (d : World), c < powerups_max ∧ (w.powerup c).alive = false ∧
      (∀ j, j < c → (w.powerup j).alive = true) ∧
      powerup_drop w x y = ((c : Int), d) ∧ d.powerups.length = powerups_max ∧
      d.powerup c = { w.powerup c with x := x, y := y, birthtick := w.ticks, alive := true } := by
  obtain ⟨c, hc, hd, hb, e⟩ := powerup_drop_free w x y hfree
  refine ⟨c, _, hc, hd, hb, e, ?_, ?_⟩
  · show (w.powerups.set c _).length = _
    rw [List.length_set, hlen]
  · rw [powerup_setPowerup, if_pos ⟨rfl, by rw [hlen]; exact hc⟩]

theorem randn_fst_of_rng (a b : World) (n : Nat) (h : a.rng = b.rng) :
    (randn a n).1 = (randn b n).1 := by
  unfold randn
  rw [h]
  generalize b.rng = l
  cases l <;> rfl

theorem randn_stream (w : World) (n r : Nat) (rest : List Nat) (h : w.rng = r :: rest) :
    (randn w n).1 = r % n ∧ (randn w n).2.rng = rest := by
  unfold randn
  rw [h]
  exact ⟨rfl, rfl⟩

/-- What `powerup_random` stores when it drops a powerup: the first free slot
gets the ship's position, the current tick, and the effect and colour that
`powerup_select` gives for the roll, the draw `randn(100)` that follows the
drop roll; the other slots are as before. -/
theorem powerup_random_effect (env : Env) (w : World) (id : Nat)
    (hlen : w.powerups.length = powerups_max)
    (hdrop : (randn w (w.ship id).drop_rate).1 = 0)
    (hfree : ∃ j, j < powerups_max ∧ (w.powerup j).alive = false) :
    ∃ c : Nat, c < powerups_max ∧ (w.powerup c).alive = false ∧
      (∀ j, j < c → (w.powerup j).alive = true) ∧
      (powerup_random env w id).powerup c =
        { x := (w.ship id).x, y := (w.ship id).y, birthtick := w.ticks,
          power := (powerup_select env (randn (randn w (w.ship id).drop_rate).2 100).1).1,
          alive := true,
          color := (powerup_select env (randn (randn w (w.ship id).drop_rate).2 100).1).2 } ∧
      ∀ j, j ≠ c → (powerup_random env w id).powerup j = w.powerup j := by
  have hfree1 : ∃ j, j < powerups_max ∧
      ((randn w (w.ship id).drop_rate).2.powerup j).alive = false := by
    obtain ⟨j, hj, hd⟩ := hfree
    exact ⟨j, hj, by rw [randn_powerup]; exact hd⟩
  have hlen1 : (randn w (w.ship id).drop_rate).2.powerups.length = powerups_max := by
    rw [randn_powerups]; exact hlen
  obtain ⟨c, hc, hdead, hbefore, hdrop1⟩ :=
    powerup_drop_free (randn w (w.ship id).drop_rate).2
      ((randn w (w.ship id).drop_rate).2.ship id).x
      ((randn w (w.ship id).drop_rate).2.ship id).y hfree1
  have hship : (randn w (w.ship id).drop_rate).2.ship id = w.ship id :=
    (randn_core w _).ship id
  have hticks : (randn w (w.ship id).drop_rate).2.ticks = w.ticks := randn_ticks_eq w _
  rw [hship, hticks] at hdrop1
  have hres : powerup_random env w id =
      (randn ((randn w (w.ship id).drop_rate).2.setPowerup c
          { (randn w (w.ship id).drop_rate).2.powerup c with
            x := (w.ship id).x, y := (w.ship id).y, birthtick := w.ticks, alive := true })
        100).2.setPowerup c
        { (randn ((randn w (w.ship id).drop_rate).2.setPowerup c
            { (randn w (w.ship id).drop_rate).2.powerup c with
              x := (w.ship id).x, y := (w.ship id).y, birthtick := w.ticks, alive := true })
            100).2.powerup c with
          power := (powerup_select env (randn ((randn w (w.ship id).drop_rate).2.setPowerup c
            { (randn w (w.ship id).drop_rate).2.powerup c with
              x := (w.ship id).x, y := (w.ship id).y, birthtick := w.ticks, alive := true })
            100).1).1,
          color := (powerup_select env (randn ((randn w (w.ship id).drop_rate).2.setPowerup c
            { (randn w (w.ship id).drop_rate).2.powerup c with
              x := (w.ship id).x, y := (w.ship id).y, birthtick := w.ticks, alive := true })
            100).1).2 } := by
    unfold powerup_random
    simp only []
    rw [if_pos hdrop, hship, hdrop1]
    simp only []
    rw [if_pos (Int.natCast_nonneg c), Int.toNat_ofNat]
  have hroll : (randn ((randn w (w.ship id).drop_rate).2.setPowerup c
      { (randn w (w.ship id).drop_rate).2.powerup c with
        x := (w.ship id).x, y := (w.ship id).y, birthtick := w.ticks, alive := true })
      100).1 = (randn (randn w (w.ship id).drop_rate).2 100).1 :=
    randn_fst_of_rng _ _ 100 rfl
  have hdlen : ((randn w (w.ship id).drop_rate).2.setPowerup c
      { (randn w (w.ship id).drop_rate).2.powerup c with
        x := (w.ship id).x, y := (w.ship id).y, birthtick := w.ticks, alive := true }
      ).powerups.length = powerups_max := by
    show ((randn w (w.ship id).drop_rate).2.powerups.set c _).length = _
    rw [List.length_set, hlen1]
  rw [hroll] at hres
  refine ⟨c, hc, by rw [← randn_powerup w _ c]; exact hdead,
    fun j hj => by rw [← randn_powerup w _ j]; exact hbefore j hj, ?_, fun j hj => ?_⟩
  · rw [hres, powerup_setPowerup, if_pos ⟨rfl, by rw [randn_powerups, hdlen]; exact hc⟩,
      randn_powerup, powerup_setPowerup, if_pos ⟨rfl, by rw [hlen1]; exact hc⟩]
  · rw [hres, powerup_setPowerup, if_neg (fun x => hj x.1.symm), randn_powerup,
      powerup_setPowerup, if_neg (fun x => hj x.1.symm), randn_powerup]

set_option maxRecDepth 100000 in
/-- C16: of the 100 values 0..99 of the roll, exactly 50 give heal, 25 give
fire-rate-up, 20 give damage-up, 2 give radius grow, 2 give radius shrink and
1 gives teleport, so every roll gives exactly one of the six effects (and
never the zero pointer).  And when `powerup_random` drops a powerup (the drop
roll is 0 and a slot is free), the roll is the draw `randn(100)` that follows
the drop roll (the second value of the random stream, reduced modulo 100, so
below 100), and the new powerup, in the first free slot, holds exactly the
effect and the colour of that roll, at the ship's position; the other slots
are as before. -/
theorem powerup_effect_weights (env : Env) (w : World) (id : Nat)
    (hlen : w.powerups.length = powerups_max)
    (hdrop : (randn w (w.ship id).drop_rate).1 = 0)
    (hfree : ∃ j, j < powerups_max ∧ (w.powerup j).alive = false) :
    (List.range 100).countP (fun s => decide ((powerup_select env s).1 = Power.power_heal))
      = 50 ∧
    (List.range 100).countP
      (fun s => decide ((powerup_select env s).1 = Power.power_fire_delay_down)) = 25 ∧
    (List.range 100).countP
      (fun s => decide ((powerup_select env s).1 = Power.power_fire_damage_up)) = 20 ∧
    (List.range 100).countP
      (fun s => decide ((powerup_select env s).1 = Power.power_radius_up)) = 2 ∧
    (List.range 100).countP
      (fun s => decide ((powerup_select env s).1 = Power.power_radius_down)) = 2 ∧
    (List.range 100).countP
      (fun s => decide ((powerup_select env s).1 = Power.power_teleport)) = 1 ∧
    (∀ s, (powerup_select env s).1 ≠ Power.null) ∧
    (∀ s, ((powerup_select env s).1 = Power.power_heal ↔ s < 50) ∧
      ((powerup_select env s).1 = Power.power_fire_delay_down ↔ 50 ≤ s ∧ s < 75) ∧
      ((powerup_select env s).1 = Power.power_fire_damage_up ↔ 75 ≤ s ∧ s < 95) ∧
      ((powerup_select env s).1 = Power.power_radius_up ↔ 95 ≤ s ∧ s < 97) ∧
      ((powerup_select env s).1 = Power.power_radius_down ↔ 97 ≤ s ∧ s < 99) ∧
      ((powerup_select env s).1 = Power.power_teleport ↔ 99 ≤ s)) ∧
    (randn (randn w (w.ship id).drop_rate).2 100).1 < 100 ∧
    (∀ a b rest, w.rng = a :: b :: rest →
      (randn (randn w (w.ship id).drop_rate).2 100).1 = b % 100) ∧
    ∃ c : Nat, c < powerups_max ∧ (w.powerup c).alive = false ∧
      (∀ j, j < c → (w.powerup j).alive = true) ∧
      (powerup_random env w id).powerup c =
        { x := (w.ship id).x, y := (w.ship id).y, birthtick := w.ticks,
          power := (powerup_select env (randn (randn w (w.ship id).drop_rate).2 100).1).1,
          alive := true,
          color := (powerup_select env (randn (randn w (w.ship id).drop_rate).2 100).1).2 } ∧
      ∀ j, j ≠ c → (powerup_random env w id).powerup j = w.powerup j := by
  refine ⟨?_, ?_, ?_, ?_, ?_, ?_, fun s => ?_, fun s => ?_, randn_lt _ 100 (by decide),
    fun a b rest hs => ?_, powerup_random_effect env w id hlen hdrop hfree⟩
  · rw [countP_effect]; decide
  · rw [countP_effect]; decide
  · rw [countP_effect]; decide
  · rw [countP_effect]; decide
  · rw [countP_effect]; decide
  · rw [countP_effect]; decide
  · rw [powerup_select_effect]
    split_ifs <;> decide
  · rw [powerup_select_effect]
    split_ifs <;> simp <;> omega
  · exact (randn_stream _ 100 b rest (randn_stream w _ a (b :: rest) hs).2).1

set_option maxRecDepth 100000 in
/-- Witness for C16: the enemy of slot 1 drops a powerup into slot 0, and the
roll 97 makes it a radius shrink, drawn in white; with the roll 3 the same
drop is a heal, drawn in light green, and with any raw draw `s` it is the
effect that `powerup_select` gives for `s mod 100`. -/
theorem powerup_effect_weights_witness :
    (randn loot (loot.ship 1).drop_rate).1 = 0 ∧
    ((powerup_random env13h loot 1).powerup 0).alive = true ∧
    ((powerup_random env13h loot 1).powerup 0).power = Power.power_radius_down ∧
    ((powerup_random env13h loot 1).powerup 0).color = env13h.vga.WHITE ∧
    (List.range 100).countP
      (fun s => decide ((powerup_select env13h s).1 = Power.power_radius_down)) = 2 ∧
    ((powerup_random env13h (loot_roll 3) 1).powerup 0).power = Power.power_heal ∧
    ((powerup_random env13h (loot_roll 3) 1).powerup 0).color = env13h.vga.LIGHT_GREEN ∧
    ∃ c : Nat, c < powerups_max ∧ ((loot_roll 3).powerup c).alive = false ∧
      (∀ j, j < c → ((loot_roll 3).powerup j).alive = true) ∧
      (powerup_random env13h (loot_roll 3) 1).powerup c =
        { x := ((loot_roll 3).ship 1).x, y := ((loot_roll 3).ship 1).y,
          birthtick := (loot_roll 3).ticks,
          power := (powerup_select env13h
            (randn (randn (loot_roll 3) ((loot_roll 3).ship 1).drop_rate).2 100).1).1,
          alive := true,
          color := (powerup_select env13h
            (randn (randn (loot_roll 3) ((loot_roll 3).ship 1).drop_rate).2 100).1).2 } ∧
      (∀ j, j ≠ c →
        (powerup_random env13h (loot_roll 3) 1).powerup j = (loot_roll 3).powerup j) ∧
      ∀ s : Nat, ((powerup_random env13h (loot_roll s) 1).powerup 0).power =
        (powerup_select env13h (s % 100)).1 :=
  ⟨by decide, by decide, by decide, by decide,
   (powerup_effect_weights env13h loot 1 (by decide) (by decide)
     ⟨0, by decide, by decide⟩).2.2.2.2.1,
   by decide, by decide,
   (powerup_effect_weights env13h (loot_roll 3) 1 (by decide) (by decide)
     ⟨0, by decide, by decide⟩).2.2.2.2.2.2.2.2.2.2.imp
     (fun c hc => ⟨hc.1, hc.2.1, hc.2.2.1, hc.2.2.2.1, hc.2.2.2.2, fun s => by
       obtain ⟨_, _, _, _, _, _, _, _, _, hroll, k, _, _, hk, hslot, _⟩ :=
         powerup_effect_weights env13h (loot_roll s) 1 rfl rfl ⟨0, by decide, rfl⟩
       have hk0 : k = 0 := by
         by_contra hne
         have hdead : ((loot_roll s).powerup 0).alive = false := rfl
         have hcontra := hk 0 (Nat.pos_of_ne_zero hne)
         rw [hdead] at hcontra
         exact Bool.false_ne_true hcontra
       rw [hk0] at hslot
       rw [hslot, hroll 0 s [] rfl]⟩)⟩

/-! ## Leaving the main loop -/

theorem randn_ending (w : World) (n : Nat) :
    (randn w n).2.ending_played = w.ending_played :=
  (randn_core w n).2.2.2.2.2

theorem spawn_ending (env : Env) (w : World) (hp : Nat) :
    (spawn env w hp).2.ending_played = w.ending_played := by
  unfold spawn
  simp only []
  split_ifs <;> simp only [World.setShip, randn_ending]

theorem main_role_ending (env : Env) (w : World) (id : Nat) :
    (main_role env w id).ending_played = w.ending_played := by
  unfold main_role
  simp only []
  split_ifs <;> simp only [World.setShip, speaker_play, randn_ending]

theorem main_spawn_ending (env : Env) (w : World) :
    (main_spawn env w).ending_played = w.ending_played := by
  unfold main_spawn
  simp only []
  split_ifs
  · rw [main_role_ending, spawn_ending, randn_ending]
  · rw [spawn_ending, randn_ending]
  · rw [randn_ending]

theorem main_spawn_ship_zero (env : Env) (w : World) :
    (main_spawn env w).ship 0 = w.ship 0 := by
  rcases main_spawn_cases env w with e | ⟨c, c1, _, _, hother, _, _⟩
  · exact e 0
  · exact hother 0 (by omega)

theorem speaker_step_ship (w : World) (b : Bool) (j : Nat) :
    (speaker_step w b).ship j = w.ship j := by
  unfold speaker_step
  split <;> rfl

theorem speaker_step_ending (w : World) (b : Bool) :
    (speaker_step w b).ending_played = w.ending_played := by
  unfold speaker_step
  split <;> rfl

theorem main_tick_is_exit (env : Env) (inp : Input) (w : World) :
    (main_tick env inp w).is_exit =
      (main_defeat env inp (main_spawn env (speaker_step w inp.sample_ends))).is_quit := by
  unfold main_tick
  simp only []
  split <;> rename_i e <;> rw [e] <;> rfl

theorem main_defeat_is_quit (env : Env) (inp : Input) (w : World) :
    (main_defeat env inp w).is_quit = true ↔
      (w.ship 0).hp = 0 ∧ inp.kbhit = true ∧
      ¬ (w.ending_played = true ∧ w.speaker_sample = Sample.null ∧ inp.button0 = true) := by
  unfold main_defeat
  simp only []
  by_cases h0 : (w.ship 0).hp = 0
  · rw [if_pos h0]
    by_cases he : w.ending_played = true
    · have hne : ¬ (!w.ending_played) = true := by rw [he]; decide
      rw [if_neg hne]
      by_cases hr : w.speaker_sample = Sample.null ∧ inp.button0 = true
      · rw [if_pos hr]
        constructor
        · intro c; exact absurd c Bool.false_ne_true
        · rintro ⟨_, _, c⟩; exact absurd ⟨he, hr⟩ c
      · rw [if_neg hr]
        by_cases hk : inp.kbhit = true
        · rw [if_pos hk]
          exact ⟨fun _ => ⟨h0, hk, fun c => hr c.2⟩, fun _ => rfl⟩
        · rw [if_neg hk]
          constructor
          · intro c
            split at c <;> exact absurd c Bool.false_ne_true
          · rintro ⟨_, c, _⟩; exact absurd c hk
    · have hpe : (!w.ending_played) = true := by
        have hf : w.ending_played = false := by simpa using he
        rw [hf]; rfl
      rw [if_pos hpe]
      by_cases hk : inp.kbhit = true
      · rw [if_pos hk]
        exact ⟨fun _ => ⟨h0, hk, fun c => he c.1⟩, fun _ => rfl⟩
      · rw [if_neg hk]
        constructor
        · intro c
          split at c <;> exact absurd c Bool.false_ne_true
        · rintro ⟨_, c, _⟩; exact absurd c hk
  · rw [if_neg h0]
    constructor
    · intro c; exact absurd c Bool.false_ne_true
    · rintro ⟨c, _⟩; exact absurd c h0

set_option maxRecDepth 100000 in
/-- Counterexample for C17: with the player at 0 hit points a key press leaves
the loop in the very iteration that would start the end cue (the cue has not
been started), and also while the end cue is playing (the channel is busy). -/
theorem exit_before_end_cue_counterexample :
    (just_defeated.ship 0).hp = 0 ∧ just_defeated.ending_played = false ∧
    (main_tick env13h press_key just_defeated).is_exit = true ∧
    end_cue_playing.ending_played = true ∧
    (main_spawn env13h (speaker_step end_cue_playing press_key.sample_ends)).speaker_sample
      = Sample.fx_end_music ∧
    (main_tick env13h press_key end_cue_playing).is_exit = true := by
  refine ⟨by decide, by decide, by decide, by decide, by decide, by decide⟩

/-- C17 (amended): an iteration of the main loop leaves the loop exactly when
the player's `hp` is 0, a key press is observed, and the iteration does not
restart the session first (which it does when the end cue has been started,
the channel is idle and the fire button is held).  Whether the end cue has
been started or has finished does not otherwise matter: with the player at 0
hit points, a key pressed and the fire button not held, the loop is left. -/
theorem main_tick_exit_iff (env : Env) (inp : Input) (w : World) :
    ((main_tick env inp w).is_exit = true ↔
      (w.ship 0).hp = 0 ∧ inp.kbhit = true ∧
      ¬ (w.ending_played = true ∧
          (main_spawn env (speaker_step w inp.sample_ends)).speaker_sample = Sample.null ∧
          inp.button0 = true)) ∧
    ((w.ship 0).hp = 0 → inp.kbhit = true → inp.button0 = false →
      (main_tick env inp w).is_exit = true) := by
  have h : (main_tick env inp w).is_exit = true ↔
      (w.ship 0).hp = 0 ∧ inp.kbhit = true ∧
      ¬ (w.ending_played = true ∧
          (main_spawn env (speaker_step w inp.sample_ends)).speaker_sample = Sample.null ∧
          inp.button0 = true) := by
    rw [main_tick_is_exit, main_defeat_is_quit, main_spawn_ship_zero, speaker_step_ship,
      main_spawn_ending, speaker_step_ending]
  refine ⟨h, fun h0 hk hb => h.2 ⟨h0, hk, fun c => ?_⟩⟩
  rw [hb] at c
  exact absurd c.2.2 (by decide)

set_option maxRecDepth 100000 in
/-- Witness for the amended C17: a key press while the end cue is playing
leaves the loop. -/
theorem main_tick_exit_iff_witness :
    (end_cue_playing.ship 0).hp = 0 ∧ press_key.kbhit = true ∧
    (main_tick env13h press_key end_cue_playing).is_exit = true :=
  ⟨by decide, by decide,
   (main_tick_exit_iff env13h press_key end_cue_playing).2 (by decide) (by decide)
     (by decide)⟩

/-! ## The allocation of an enemy slot -/

theorem randn_particles (w : World) (n : Nat) : (randn w n).2.particles = w.particles := by
  unfold randn
  split <;> rfl

theorem spawned_then_core {c hp : Nat} {b d : World} (h : SameCore b d) (g : Spawned c hp b) :
    Spawned c hp d := by
  unfold Spawned
  rw [h.ship c]
  exact g

theorem spawned_then_set {c hp : Nat} {p : World} {s : Ship} (g : Spawned c hp p)
    (h1 : s.hp = (p.ship c).hp) (h2 : s.dx = (p.ship c).dx) (h3 : s.dy = (p.ship c).dy) :
    Spawned c hp (p.setShip c s) := by
  unfold Spawned
  rw [ship_setShip]
  split
  · rw [h1, h2, h3]; exact g
  · exact g

theorem spawn_failed (env : Env) (w : World) (hp : Nat)
    (h : spawn_scan w (ships_max - 1) 1 = -1) : spawn env w hp = (-1, w) := by
  unfold spawn
  simp only []
  rw [h, if_neg (by decide)]

theorem spawn_slot (env : Env) (w : World) (hp c : Nat) (hc : c < w.ships.length)
    (h : spawn_scan w (ships_max - 1) 1 = (c : Int)) : Spawned c hp (spawn env w hp).2 := by
  have base : Spawned c hp (w.setShip c { w.ship c with hp := u16 hp, dx := 0, dy := 0 }) := by
    unfold Spawned
    rw [ship_setShip, if_pos ⟨rfl, hc⟩]
    exact ⟨rfl, rfl, rfl⟩
  unfold spawn
  simp only []
  rw [h, if_pos (by omega)]
  simp only [Int.toNat_ofNat]
  split
  · refine spawned_then_set ?_ rfl rfl rfl
    refine spawned_then_core (randn_core _ _) ?_
    refine spawned_then_set ?_ rfl rfl rfl
    refine spawned_then_core (randn_core _ _) ?_
    refine spawned_then_core (randn_core _ _) ?_
    exact base
  · refine spawned_then_set ?_ rfl rfl rfl
    refine spawned_then_core (randn_core _ _) ?_
    refine spawned_then_set ?_ rfl rfl rfl
    refine spawned_then_core (randn_core _ _) ?_
    refine spawned_then_core (randn_core _ _) ?_
    exact base

theorem spawn_pools (env : Env) (w : World) (hp : Nat) :
    (spawn env w hp).2.bullets = w.bullets ∧ (spawn env w hp).2.particles = w.particles ∧
    (spawn env w hp).2.powerups = w.powerups ∧ (spawn env w hp).2.score = w.score := by
  unfold spawn
  simp only []
  split_ifs <;>
    simp only [World.setShip, randn_particles, randn_powerups, (randn_core _ _).2.1,
      (randn_core _ _).2.2.1, and_self]

/-- C18: for every ship pool of 12 slots, `spawn` returns -1 exactly when
every slot 1..11 has `hp > 0`, and it then changes nothing; otherwise it
returns the lowest index `c` in 1..11 with `hp = 0` and writes only to that
slot, and there only `hp` (the argument), the velocity (zero) and the
position.  It never returns slot 0 and never modifies a ship whose `hp` is
above 0; the other pools and the score are as before. -/
theorem spawn_spec (env : Env) (w : World) (hp : Nat) (hlen : w.ships.length = ships_max) :
    ((spawn env w hp).1 = -1 ↔ ∀ j, 1 ≤ j → j < ships_max → 0 < (w.ship j).hp) ∧
    ((spawn env w hp).1 = -1 → spawn env w hp = (-1, w)) ∧
    ((spawn env w hp).1 ≠ -1 →
      ∃ c : Nat, (spawn env w hp).1 = (c : Int) ∧ 1 ≤ c ∧ c < ships_max ∧
        (w.ship c).hp = 0 ∧ (∀ j, 1 ≤ j → j < c → 0 < (w.ship j).hp) ∧
        (∀ j, j ≠ c → (spawn env w hp).2.ship j = w.ship j) ∧
        (spawn env w hp).2.ship c =
          { w.ship c with hp := u16 hp, dx := 0, dy := 0,
                          x := ((spawn env w hp).2.ship c).x,
                          y := ((spawn env w hp).2.ship c).y }) ∧
    (spawn env w hp).1 ≠ 0 ∧
    (∀ j, 0 < (w.ship j).hp → (spawn env w hp).2.ship j = w.ship j) ∧
    (spawn env w hp).2.ship 0 = w.ship 0 ∧
    (spawn env w hp).2.bullets = w.bullets ∧ (spawn env w hp).2.particles = w.particles ∧
    (spawn env w hp).2.powerups = w.powerups ∧ (spawn env w hp).2.score = w.score := by
  have hp4 := spawn_pools env w hp
  rcases spawn_scan_cases w (ships_max - 1) 1 with ⟨e, hall⟩ | ⟨c, c1, c2, e, hz, hall⟩
  · have hs := spawn_failed env w hp e
    have hfull : ∀ j, 1 ≤ j → j < ships_max → 0 < (w.ship j).hp :=
      fun j j1 j2 => hall j j1 (by unfold ships_max at *; omega)
    refine ⟨⟨fun _ => hfull, fun _ => by rw [hs]⟩, fun _ => hs,
      fun c => absurd (by rw [hs]) c, by rw [hs]; exact (by decide : (-1 : Int) ≠ 0),
      fun j _ => by rw [hs],
      by rw [hs], hp4.1, hp4.2.1, hp4.2.2.1, hp4.2.2.2⟩
  · have hc : c < ships_max := by unfold ships_max at *; omega
    rcases spawn_cases env w hp with ⟨e1, _, hfull⟩ | ⟨c', c1', _, e1, _, _, hstep⟩
    · exact absurd (hfull c c1 hc) (by rw [hz]; exact Nat.lt_irrefl 0)
    · have hfst : (spawn env w hp).1 = (c : Int) := by
        unfold spawn
        simp only []
        rw [e, if_pos (by omega)]
        split <;> rfl
      have hcc : c' = c := by
        rw [e1] at hfst
        exact Int.ofNat.inj hfst
      subst hcc
      obtain ⟨q1, q2, q3⟩ := spawn_slot env w hp c' (by rw [hlen]; exact hc) e
      have hrec : (spawn env w hp).2.ship c' =
          { w.ship c' with hp := u16 hp, dx := 0, dy := 0,
                           x := ((spawn env w hp).2.ship c').x,
                           y := ((spawn env w hp).2.ship c').y } := by
        have h4 := hstep.2.2.2
        rw [q1, q2, q3] at h4
        exact h4
      have hother : ∀ j, j ≠ c' → (spawn env w hp).2.ship j = w.ship j := hstep.2.2.1
      refine ⟨⟨fun h => ?_, fun h => ?_⟩, fun h => ?_, fun _ => ?_, ?_, fun j hj => ?_,
        hother 0 (by omega), hp4.1, hp4.2.1, hp4.2.2.1, hp4.2.2.2⟩
      · rw [hfst] at h
        omega
      · exact absurd (h c' c1 hc) (by rw [hz]; exact Nat.lt_irrefl 0)
      · rw [hfst] at h
        omega
      · exact ⟨c', hfst, c1, hc, hz, hall, hother, hrec⟩
      · rw [hfst]
        omega
      · refine hother j (fun c => ?_)
        rw [c, hz] at hj
        exact absurd hj (Nat.lt_irrefl 0)

set_option maxRecDepth 100000 in
/-- Witness for C18: with the boss in slot 1, `spawn(1)` returns slot 2, puts
1 hit point and a zero velocity there and leaves the boss alone; with all
eleven enemy slots taken it returns -1. -/
theorem spawn_spec_witness :
    (spawn env13h bossfight 1).1 = 2 ∧
    ((spawn env13h bossfight 1).2.ship 2).hp = 1 ∧
    (spawn env13h bossfight 1).2.ship 1 = bossfight.ship 1 ∧
    (spawn env13h
      { bossfight with ships := List.replicate 12 (bossfight.ship 1) } 1).1 = -1 :=
  ⟨by decide, by decide,
   (spawn_spec env13h bossfight 1 (by decide)).2.2.2.2.1 1 (by decide),
   by decide⟩

/-! ## Picking up a powerup -/

theorem run_power_powerups (env : Env) (w : World) (p : Power) :
    (run_power env w p).powerups = w.powerups := by
  cases p with
  | null => rfl
  | power_heal =>
    show (power_heal w).powerups = _
    unfold power_heal
    simp only [World.setShip, randn_powerups]
  | power_fire_delay_down => rfl
  | power_fire_damage_up => rfl
  | power_teleport =>
    show (power_teleport env w).powerups = _
    unfold power_teleport
    simp only [World.setShip, randn_powerups]
  | power_radius_up => rfl
  | power_radius_down => rfl

theorem powerup_eq_zero_of_le (w : World) (j : Nat) (h : w.powerups.length ≤ j) :
    w.powerup j = Powerup.zero := by
  unfold World.powerup
  rw [List.getD_eq_getElem?_getD, List.getElem?_eq_none h]
  rfl

/-- C19: `powerup_step` applies the powerup's effect to the player and sets
the powerup's `alive` flag to false exactly when the player's `hp` is above 0
and the powerup's pixel position (`x / 1000`, `y / 1000`, truncating) is
within 4 pixels of the player's pixel position on both axes; otherwise the
world, the powerup and the player ship included, is left unchanged, whatever
the age of the powerup. -/
theorem powerup_step_spec (env : Env) (w : World) (i : Nat) :
    ((0 < (w.ship 0).hp ∧
        |(w.powerup i).x.tdiv 1000 - (w.ship 0).x.tdiv 1000| ≤ 4 ∧
        |(w.powerup i).y.tdiv 1000 - (w.ship 0).y.tdiv 1000| ≤ 4) →
      powerup_step env w i =
        speaker_play ((run_power env w (w.powerup i).power).setPowerup i
          { (run_power env w (w.powerup i).power).powerup i with alive := false })
          Sample.fx_powerup ∧
      (powerup_step env w i).ships = (run_power env w (w.powerup i).power).ships ∧
      ((powerup_step env w i).powerup i).alive = false ∧
      ∀ j, j ≠ i → (powerup_step env w i).powerup j = w.powerup j) ∧
    (¬ (0 < (w.ship 0).hp ∧
        |(w.powerup i).x.tdiv 1000 - (w.ship 0).x.tdiv 1000| ≤ 4 ∧
        |(w.powerup i).y.tdiv 1000 - (w.ship 0).y.tdiv 1000| ≤ 4) →
      powerup_step env w i = w) := by
  have hcond : ((w.ship 0).hp > 0 ∧
      (w.powerup i).x.tdiv (SCALE : Int) ≥ (w.ship 0).x.tdiv (SCALE : Int) - 4 ∧
      (w.powerup i).y.tdiv (SCALE : Int) ≥ (w.ship 0).y.tdiv (SCALE : Int) - 4 ∧
      (w.powerup i).x.tdiv (SCALE : Int) ≤ (w.ship 0).x.tdiv (SCALE : Int) + 4 ∧
      (w.powerup i).y.tdiv (SCALE : Int) ≤ (w.ship 0).y.tdiv (SCALE : Int) + 4) ↔
      (0 < (w.ship 0).hp ∧
        |(w.powerup i).x.tdiv 1000 - (w.ship 0).x.tdiv 1000| ≤ 4 ∧
        |(w.powerup i).y.tdiv 1000 - (w.ship 0).y.tdiv 1000| ≤ 4) := by
    have hs : ((SCALE : Nat) : Int) = 1000 := rfl
    rw [hs, abs_le, abs_le]
    constructor
    · rintro ⟨h0, h1, h2, h3, h4⟩
      exact ⟨h0, ⟨by omega, by omega⟩, ⟨by omega, by omega⟩⟩
    · rintro ⟨h0, ⟨h1, h2⟩, ⟨h3, h4⟩⟩
      exact ⟨h0, by omega, by omega, by omega, by omega⟩
  constructor
  · intro hnear
    have e : powerup_step env w i =
        speaker_play ((run_power env w (w.powerup i).power).setPowerup i
          { (run_power env w (w.powerup i).power).powerup i with alive := false })
          Sample.fx_powerup := by
      unfold powerup_step
      simp only []
      rw [if_pos (hcond.2 hnear)]
    refine ⟨e, by rw [e]; rfl, ?_, fun j hj => ?_⟩
    · rw [e]
      show (((run_power env w (w.powerup i).power).setPowerup i _).powerup i).alive = false
      rw [powerup_setPowerup]
      split
      · rfl
      · rename_i hn
        have hle : (run_power env w (w.powerup i).power).powerups.length ≤ i := by
          by_contra c
          exact hn ⟨rfl, by omega⟩
        rw [powerup_eq_zero_of_le _ i hle]
        rfl
    · rw [e]
      show ((run_power env w (w.powerup i).power).setPowerup i _).powerup j = _
      rw [powerup_setPowerup, if_neg (fun c => hj c.1.symm)]
      unfold World.powerup
      rw [run_power_powerups]
  · intro hfar
    unfold powerup_step
    simp only []
    rw [if_neg (fun c => hfar (hcond.1 c))]

set_option maxRecDepth 100000 in
/-- Witness for C19: the powerup three and four pixels away is picked up (the
player is healed from 50 to 80 and the powerup is gone); the powerup five
pixels away stays, although it is 5000 ticks old. -/
theorem powerup_step_spec_witness :
    ((powerup_step env13h pickup 0).ship 0).hp = 80 ∧
    ((powerup_step env13h pickup 0).powerup 0).alive = false ∧
    (pickup.powerup 1).alive = true ∧ pickup.ticks - (pickup.powerup 1).birthtick = 5000 ∧
    ((powerup_step env13h pickup 1).ship 0).hp = 50 ∧
    ((powerup_step env13h pickup 1).powerup 1).alive = true :=
  ⟨by decide,
   ((powerup_step_spec env13h pickup 0).1 ⟨by decide, by decide, by decide⟩).2.2.1,
   by decide, by decide,
   by rw [(powerup_step_spec env13h pickup 1).2 (by decide)]; decide,
   by decide⟩

/-! ## Velocity damping -/

theorem damp_arith (v : Int) :
    (v = 0 → (v * 99).tdiv 100 = 0) ∧
    (0 < v → 0 ≤ (v * 99).tdiv 100 ∧ (v * 99).tdiv 100 < v) ∧
    (v < 0 → v < (v * 99).tdiv 100 ∧ (v * 99).tdiv 100 ≤ 0) := by
  refine ⟨fun h => by rw [h]; rfl, fun h => ?_, fun h => ?_⟩
  · rw [Int.tdiv_eq_ediv (by omega) (by decide)]
    omega
  · have e : v * 99 = -((-v) * 99) := by ring
    rw [e, Int.neg_tdiv, Int.tdiv_eq_ediv (by omega) (by decide)]
    omega

theorem damp_abs (v : Int) (h : v ≠ 0) : |(v * 99).tdiv 100| < |v| := by
  obtain ⟨_, h2, h3⟩ := damp_arith v
  rcases lt_or_gt_of_ne h with c | c
  · obtain ⟨a, b⟩ := h3 c
    rw [abs_of_nonpos b, abs_of_neg c]
    omega
  · obtain ⟨a, b⟩ := h2 c
    rw [abs_of_nonneg a, abs_of_pos c]
    exact b

theorem ship_step_core (w : World) (i : Nat) :
    SameCore (w.setShip i
      { w.ship i with x := i32 ((w.ship i).x + (w.ship i).dx),
                      y := i32 ((w.ship i).y + (w.ship i).dy),
                      dx := (i32 ((w.ship i).dx * 99)).tdiv 100,
                      dy := (i32 ((w.ship i).dy * 99)).tdiv 100 }) (ship_step w i) := by
  unfold ship_step
  simp only []
  split_ifs
  all_goals first
    | exact SameCore.core_refl _
    | exact randn_core _ _
    | exact (randn_core _ _).core_trans (burn_core _ _ _)

theorem ship_step_velocity (w : World) (i : Nat) :
    ((ship_step w i).ship i).dx = (i32 ((w.ship i).dx * 99)).tdiv 100 ∧
    ((ship_step w i).ship i).dy = (i32 ((w.ship i).dy * 99)).tdiv 100 := by
  rw [(ship_step_core w i).ship i, ship_setShip]
  by_cases h : i < w.ships.length
  · rw [if_pos ⟨rfl, h⟩]
    exact ⟨rfl, rfl⟩
  · rw [if_neg (fun c => h c.2), ship_eq_zero_of_le w i (by omega)]
    exact ⟨rfl, rfl⟩

theorem damp_bounds (v : Int) (n : Nat) (h : -((n : Int) + 1) ≤ v ∧ v ≤ (n : Int) + 1) :
    -(n : Int) ≤ (v * 99).tdiv 100 ∧ (v * 99).tdiv 100 ≤ (n : Int) ∧
    (-2147483648 ≤ v * 99 ∧ v * 99 ≤ 2147483647 →
      -2147483648 ≤ (v * 99).tdiv 100 * 99 ∧ (v * 99).tdiv 100 * 99 ≤ 2147483647) := by
  obtain ⟨h1, h2, h3⟩ := damp_arith v
  rcases lt_trichotomy v 0 with c | c | c
  · obtain ⟨a, b⟩ := h3 c
    exact ⟨by omega, by omega, fun _ => ⟨by omega, by omega⟩⟩
  · rw [h1 c]
    exact ⟨by omega, by omega, fun _ => ⟨by omega, by omega⟩⟩
  · obtain ⟨a, b⟩ := h2 c
    exact ⟨by omega, by omega, fun _ => ⟨by omega, by omega⟩⟩

theorem ship_steps_rest (n : Nat) (w : World) (i : Nat)
    (hx : -2147483648 ≤ (w.ship i).dx * 99 ∧ (w.ship i).dx * 99 ≤ 2147483647)
    (hy : -2147483648 ≤ (w.ship i).dy * 99 ∧ (w.ship i).dy * 99 ≤ 2147483647)
    (hnx : -(n : Int) ≤ (w.ship i).dx ∧ (w.ship i).dx ≤ (n : Int))
    (hny : -(n : Int) ≤ (w.ship i).dy ∧ (w.ship i).dy ≤ (n : Int)) :
    ((ship_steps n w i).ship i).dx = 0 ∧ ((ship_steps n w i).ship i).dy = 0 := by
  induction n generalizing w with
  | zero =>
    unfold ship_steps
    simp only [Nat.cast_zero, neg_zero] at hnx hny
    exact ⟨by omega, by omega⟩
  | succ n ih =>
    unfold ship_steps
    obtain ⟨ex, ey⟩ := ship_step_velocity w i
    rw [i32_of_range _ hx.1 hx.2] at ex
    rw [i32_of_range _ hy.1 hy.2] at ey
    have bx := damp_bounds (w.ship i).dx n (by push_cast at hnx; omega)
    have by' := damp_bounds (w.ship i).dy n (by push_cast at hny; omega)
    refine ih (ship_step w i) ?_ ?_ ?_ ?_
    · rw [ex]; exact bx.2.2 hx
    · rw [ey]; exact by'.2.2 hy
    · rw [ex]; exact ⟨bx.1, bx.2.1⟩
    · rw [ey]; exact ⟨by'.1, by'.2.1⟩

/-- C20: for every ship whose velocity components `v` have `v * 99` in the
`int32_t` range, the damping of `ship_step` maps `v` to `v * 99 / 100` with
the division truncating toward zero; the result is 0 for `v = 0`, has the sign
of `v` or is 0, and has a strictly smaller magnitude than `v` whenever
`v ≠ 0`.  So when `ship_step` is run again and again with no acceleration in
between, the velocity is exactly 0 after finitely many ticks. -/
theorem ship_step_damping (w : World) (i : Nat)
    (hx : -2147483648 ≤ (w.ship i).dx * 99 ∧ (w.ship i).dx * 99 ≤ 2147483647)
    (hy : -2147483648 ≤ (w.ship i).dy * 99 ∧ (w.ship i).dy * 99 ≤ 2147483647) :
    ((ship_step w i).ship i).dx = ((w.ship i).dx * 99).tdiv 100 ∧
    ((ship_step w i).ship i).dy = ((w.ship i).dy * 99).tdiv 100 ∧
    ((w.ship i).dx = 0 → ((ship_step w i).ship i).dx = 0) ∧
    (0 < (w.ship i).dx → 0 ≤ ((ship_step w i).ship i).dx) ∧
    ((w.ship i).dx < 0 → ((ship_step w i).ship i).dx ≤ 0) ∧
    ((w.ship i).dx ≠ 0 → |((ship_step w i).ship i).dx| < |(w.ship i).dx|) ∧
    ((w.ship i).dy = 0 → ((ship_step w i).ship i).dy = 0) ∧
    (0 < (w.ship i).dy → 0 ≤ ((ship_step w i).ship i).dy) ∧
    ((w.ship i).dy < 0 → ((ship_step w i).ship i).dy ≤ 0) ∧
    ((w.ship i).dy ≠ 0 → |((ship_step w i).ship i).dy| < |(w.ship i).dy|) ∧
    ∃ n, ∀ m, n ≤ m →
      ((ship_steps m w i).ship i).dx = 0 ∧ ((ship_steps m w i).ship i).dy = 0 := by
  obtain ⟨ex, ey⟩ := ship_step_velocity w i
  rw [i32_of_range _ hx.1 hx.2] at ex
  rw [i32_of_range _ hy.1 hy.2] at ey
  obtain ⟨x1, x2, x3⟩ := damp_arith (w.ship i).dx
  obtain ⟨y1, y2, y3⟩ := damp_arith (w.ship i).dy
  refine ⟨ex, ey, ?_, ?_, ?_, ?_, ?_, ?_, ?_, ?_, ?_⟩
  · rw [ex]; exact x1
  · rw [ex]; exact fun h => (x2 h).1
  · rw [ex]; exact fun h => (x3 h).2
  · rw [ex]; exact damp_abs _
  · rw [ey]; exact y1
  · rw [ey]; exact fun h => (y2 h).1
  · rw [ey]; exact fun h => (y3 h).2
  · rw [ey]; exact damp_abs _
  · refine ⟨(w.ship i).dx.natAbs + (w.ship i).dy.natAbs, fun m hm => ?_⟩
    exact ship_steps_rest m w i hx hy (by omega) (by omega)

set_option maxRecDepth 100000 in
/-- Witness for C20: a ship with velocity (150, -3) has velocity (148, -2)
after one `ship_step`, and is at rest after finitely many of them. -/
theorem ship_step_damping_witness :
    ((ship_step ((fresh []).setShip 0 { (fresh []).ship 0 with dx := 150, dy := -3 }) 0).ship
      0).dx = 148 ∧
    ((ship_step ((fresh []).setShip 0 { (fresh []).ship 0 with dx := 150, dy := -3 }) 0).ship
      0).dy = -2 ∧
    ∃ n, ∀ m, n ≤ m →
      ((ship_steps m ((fresh []).setShip 0 { (fresh []).ship 0 with dx := 150, dy := -3 })
        0).ship 0).dx = 0 ∧
      ((ship_steps m ((fresh []).setShip 0 { (fresh []).ship 0 with dx := 150, dy := -3 })
        0).ship 0).dy = 0 :=
  ⟨(ship_step_damping _ 0 (by decide) (by decide)).1.trans (by decide),
   (ship_step_damping _ 0 (by decide) (by decide)).2.1.trans (by decide),
   (ship_step_damping ((fresh []).setShip 0 { (fresh []).ship 0 with dx := 150, dy := -3 }) 0
     (by decide) (by decide)).2.2.2.2.2.2.2.2.2.2⟩

/-! ## The boss and the tick counter -/

theorem randn_speaker (w : World) (n : Nat) :
    (randn w n).2.speaker_sample = w.speaker_sample := by
  unfold randn; split <;> rfl

theorem spawn_speaker (env : Env) (w : World) (hp : Nat) :
    (spawn env w hp).2.speaker_sample = w.speaker_sample := by
  unfold spawn
  simp only []
  split_ifs <;> simp only [World.setShip, randn_speaker]

theorem spawn_ticks (env : Env) (w : World) (hp : Nat) :
    (spawn env w hp).2.ticks = w.ticks := by
  unfold spawn
  simp only []
  split_ifs <;> simp only [World.setShip, randn_ticks_eq]

theorem speaker_step_ticks (w : World) (b : Bool) : (speaker_step w b).ticks = w.ticks := by
  unfold speaker_step
  split <;> rfl

theorem archetype_le (env : Env) (s : Ship) (select : Nat) :
    (archetype env s select).hp ≤ 100 ∧ (archetype env s select).hp_max ≤ 100 := by
  unfold archetype
  split_ifs
  · exact ⟨(by decide : (10 : Nat) ≤ 100), (by decide : (10 : Nat) ≤ 100)⟩
  · exact ⟨(by decide : (20 : Nat) ≤ 100), (by decide : (20 : Nat) ≤ 100)⟩
  · exact ⟨(by decide : (1 : Nat) ≤ 100), (by decide : (1 : Nat) ≤ 100)⟩
  · exact ⟨(by decide : (50 : Nat) ≤ 100), (by decide : (50 : Nat) ≤ 100)⟩
  · exact ⟨(by decide : (100 : Nat) ≤ 100), (by decide : (100 : Nat) ≤ 100)⟩

/-- With the tick counter below 11000 the role value is below 110 and the role
choice stores an archetype. -/
theorem main_role_early (env : Env) (w : World) (id : Nat) (h : w.ticks < 11000) :
    (randn w 100).1 ≤ 99 ∧ (randn w 100).1 + w.ticks / 1000 < 110 ∧
    main_role env w id =
      (randn w 100).2.setShip id
        (archetype env (w.ship id) ((randn w 100).1 + w.ticks / 1000)) := by
  have hr := randn_lt w 100 (by decide)
  have hsel : (randn w 100).1 + w.ticks / 1000 < 110 := by omega
  refine ⟨by omega, hsel, ?_⟩
  unfold main_role
  simp only []
  rw [randn_ticks_eq, if_pos hsel, (randn_core w 100).ship id]

theorem main_role_early_speaker (env : Env) (w : World) (id : Nat) (h : w.ticks < 11000) :
    (main_role env w id).speaker_sample = w.speaker_sample := by
  rw [(main_role_early env w id h).2.2]
  exact randn_speaker w 100

/-- With the tick counter below 11000 the spawner leaves the ships alone or
fills one free enemy slot with an archetype. -/
theorem main_spawn_early (env : Env) (w : World) (h : w.ticks < 11000) :
    (main_spawn env w).speaker_sample = w.speaker_sample ∧
    ((∀ j, (main_spawn env w).ship j = w.ship j) ∨
      ∃ c : Nat, 1 ≤ c ∧ c < ships_max ∧ (w.ship c).hp = 0 ∧
        (∀ j, j ≠ c → (main_spawn env w).ship j = w.ship j) ∧
        ∃ (s : Ship) (select : Nat), select < 110 ∧
          (main_spawn env w).ship c = archetype env s select) := by
  have hr := randn_core w 50
  have ht : (spawn env (randn w 50).2 1).2.ticks < 11000 := by
    rw [spawn_ticks, randn_ticks_eq]; exact h
  constructor
  · unfold main_spawn
    simp only []
    split_ifs
    · rw [main_role_early_speaker _ _ _ ht, spawn_speaker, randn_speaker]
    · rw [spawn_speaker, randn_speaker]
    · rw [randn_speaker]
  · unfold main_spawn
    simp only []
    by_cases h0 : (randn w 50).1 = 0
    · rw [if_pos h0]
      rcases spawn_cases env (randn w 50).2 1 with ⟨e, hsame, _⟩ | ⟨c, c1, c2, e, hz, _, hstep⟩
      · left
        rw [e, if_neg (by decide)]
        intro j
        rw [hsame.ship j, hr.ship j]
      · rw [e, if_pos (by omega), Int.toNat_ofNat]
        rw [hr.ship c] at hz
        obtain ⟨_, hsel, hrole⟩ := main_role_early env (spawn env (randn w 50).2 1).2 c ht
        have hother : ∀ j, j ≠ c →
            (main_role env (spawn env (randn w 50).2 1).2 c).ship j = w.ship j := by
          intro j hj
          rw [hrole, ship_setShip, if_neg (fun x => hj x.1.symm), (randn_core _ 100).ship j,
            hstep.2.2.1 j hj, hr.ship j]
        by_cases hl : c < w.ships.length
        · right
          have hlen : c < (randn (spawn env (randn w 50).2 1).2 100).2.ships.length := by
            rw [(randn_core _ 100).1, hstep.2.1, hr.1]
            exact hl
          refine ⟨c, c1, c2, hz, hother, (spawn env (randn w 50).2 1).2.ship c,
            (randn (spawn env (randn w 50).2 1).2 100).1 +
              (spawn env (randn w 50).2 1).2.ticks / 1000, hsel, ?_⟩
          rw [hrole, ship_setShip, if_pos ⟨rfl, hlen⟩]
        · left
          intro j
          by_cases hj : j = c
          · rw [hj, hrole, ship_setShip, if_neg ?_, (randn_core _ 100).ship c]
            · rw [ship_eq_zero_of_le _ c (by rw [hstep.2.1, hr.1]; omega),
                ship_eq_zero_of_le w c (by omega)]
            · intro x
              rw [(randn_core _ 100).1, hstep.2.1, hr.1] at x
              exact hl x.2
          · exact hother j hj
    · rw [if_neg h0]
      left
      intro j
      rw [hr.ship j]

/-- What an iteration of the main loop that starts with the tick counter
below 11000 leaves in an enemy slot: the ship that was there (same colour and
`hp_max`, `hp` not higher), or a ship with `hp` and `hp_max` of at most 100. -/
theorem main_tick_early (env : Env) (inp : Input) (w : World) (h : w.ticks < 11000)
    (j : Nat) (hj : 1 ≤ j) :
    (((main_tick env inp w).world.ship j).color_a = (w.ship j).color_a ∧
      ((main_tick env inp w).world.ship j).hp_max = (w.ship j).hp_max ∧
      ((main_tick env inp w).world.ship j).hp ≤ (w.ship j).hp) ∨
    (((main_tick env inp w).world.ship j).hp ≤ 100 ∧
      ((main_tick env inp w).world.ship j).hp_max ≤ 100) := by
  have ht : (speaker_step w inp.sample_ends).ticks < 11000 := by
    rw [speaker_step_ticks]; exact h
  -- the slot after the spawner
  have hsp : (main_spawn env (speaker_step w inp.sample_ends)).ship j = w.ship j ∨
      (((main_spawn env (speaker_step w inp.sample_ends)).ship j).hp ≤ 100 ∧
        ((main_spawn env (speaker_step w inp.sample_ends)).ship j).hp_max ≤ 100) := by
    rcases (main_spawn_early env _ ht).2 with e | ⟨c, _, _, _, hother, s, select, _, hc⟩
    · left
      rw [e j, speaker_step_ship]
    · by_cases hjc : j = c
      · right
        rw [hjc, hc]
        exact archetype_le env s select
      · left
        rw [hother j hjc, speaker_step_ship]
  -- the slot after the rest of the iteration
  have hrest : (((main_tick env inp w).world.ship j).color_a =
        ((main_spawn env (speaker_step w inp.sample_ends)).ship j).color_a ∧
      ((main_tick env inp w).world.ship j).hp_max =
        ((main_spawn env (speaker_step w inp.sample_ends)).ship j).hp_max ∧
      ((main_tick env inp w).world.ship j).hp ≤
        ((main_spawn env (speaker_step w inp.sample_ends)).ship j).hp) ∨
      (main_tick env inp w).world.ship j = Ship.zero := by
    unfold main_tick
    simp only []
    rcases main_defeat_cases env inp (main_spawn env (speaker_step w inp.sample_ends)) with
      ⟨w1, e | e, hs⟩ | ⟨w0, e⟩
    · left
      rw [e]
      have hw1 : w1.ship j = (main_spawn env (speaker_step w inp.sample_ends)).ship j := by
        unfold World.ship; rw [hs]
      obtain ⟨s1, s2, s3⟩ := main_simulate_step env inp w1 j
      rw [← hw1]
      refine ⟨s2, s1, ?_⟩
      rcases s3 with s3 | s3
      · exact s3
      · omega
    · left
      rw [e]
      have hw1 : w1.ship j = (main_spawn env (speaker_step w inp.sample_ends)).ship j := by
        unfold World.ship; rw [hs]
      show (w1.ship j).color_a = _ ∧ (w1.ship j).hp_max = _ ∧ (w1.ship j).hp ≤ _
      rw [hw1]
      exact ⟨rfl, rfl, le_refl _⟩
    · right
      rw [e]
      show (clear env w0).ship j = _
      rw [clear_ship, if_neg (by omega)]
  have hz : Ship.zero.hp = 0 ∧ Ship.zero.hp_max = 0 := ⟨rfl, rfl⟩
  rcases hrest with ⟨r1, r2, r3⟩ | r
  · rcases hsp with e | ⟨e1, e2⟩
    · left
      rw [e] at r1 r2 r3
      exact ⟨r1, r2, r3⟩
    · right
      omega
  · right
    rw [r, hz.1, hz.2]
    omega

theorem reachable_before_small (env : Env) (w : World) (h : ReachableBefore env 11000 w)
    (j : Nat) (hj : 1 ≤ j) : (w.ship j).hp ≤ 100 ∧ (w.ship j).hp_max ≤ 100 := by
  induction h with
  | reset w0 =>
    rw [clear_ship, if_neg (by omega)]
    exact ⟨Nat.zero_le _, Nat.zero_le _⟩
  | tick a b inp _ ht e ih =>
    have hb : (main_tick env inp a).world = b := by rw [e]; rfl
    rcases main_tick_early env inp a ht j hj with ⟨_, r2, r3⟩ | r
    · rw [hb] at r2 r3
      omega
    · rw [hb] at r
      exact r

/-- C21: in an iteration of the main loop that starts with the tick counter
below 11000, no boss is created.  The role value is `randn(100) + ticks / 1000`
with `randn(100) <= 99`, so it is below 110 and the role choice stores one of
the five archetypes (`hp` at most 100), never the boss.  Hence the spawner does
not start the boss cue, every ship slot after the spawner is as before or
holds an archetype, and a ship with `hp = 1000` after the spawner is a ship
that was there before.  At the end of the iteration, an enemy slot that holds
a ship of the boss colour with `hp = 1000` held that colour before, with at
least these hit points.  And in a session whose iterations all started with
the tick counter below 11000, every enemy slot has `hp` and `hp_max` of at
most 100, before and after the iteration: there is no boss. -/
theorem no_boss_before_tick_11000 (env : Env) (inp : Input) (w : World)
    (h : w.ticks < 11000) :
    (∀ id, (randn w 100).1 ≤ 99 ∧ (randn w 100).1 + w.ticks / 1000 < 110 ∧
      main_role env w id =
        (randn w 100).2.setShip id
          (archetype env (w.ship id) ((randn w 100).1 + w.ticks / 1000))) ∧
    (main_spawn env w).speaker_sample = w.speaker_sample ∧
    (∀ j, (main_spawn env w).ship j = w.ship j ∨
      ∃ (s : Ship) (select : Nat), select < 110 ∧
        (main_spawn env w).ship j = archetype env s select) ∧
    (∀ j, ((main_spawn env w).ship j).hp = 1000 → (main_spawn env w).ship j = w.ship j) ∧
    (∀ j, 1 ≤ j →
      ((main_tick env inp w).world.ship j).color_a = env.vga.LIGHT_GREEN ∧
        ((main_tick env inp w).world.ship j).hp = 1000 →
      (w.ship j).color_a = env.vga.LIGHT_GREEN ∧ 1000 ≤ (w.ship j).hp ∧
        (w.ship j).hp_max = ((main_tick env inp w).world.ship j).hp_max) ∧
    (ReachableBefore env 11000 w → ∀ j, 1 ≤ j →
      (w.ship j).hp ≤ 100 ∧ (w.ship j).hp_max ≤ 100 ∧
      ((main_tick env inp w).world.ship j).hp ≤ 100 ∧
      ((main_tick env inp w).world.ship j).hp_max ≤ 100) := by
  obtain ⟨hsound, hships⟩ := main_spawn_early env w h
  have hslot : ∀ j, (main_spawn env w).ship j = w.ship j ∨
      ∃ (s : Ship) (select : Nat), select < 110 ∧
        (main_spawn env w).ship j = archetype env s select := by
    intro j
    rcases hships with e | ⟨c, _, _, _, hother, s, select, hsel, hc⟩
    · exact Or.inl (e j)
    · by_cases hjc : j = c
      · right
        rw [hjc]
        exact ⟨s, select, hsel, hc⟩
      · exact Or.inl (hother j hjc)
  refine ⟨fun id => main_role_early env w id h, hsound, hslot, fun j hj => ?_,
    fun j j1 hb => ?_, fun hr j j1 => ?_⟩
  · rcases hslot j with e | ⟨s, select, _, e⟩
    · exact e
    · rw [e] at hj
      have := (archetype_le env s select).1
      omega
  · rcases main_tick_early env inp w h j j1 with ⟨r1, r2, r3⟩ | ⟨r1, _⟩
    · exact ⟨r1 ▸ hb.1, hb.2 ▸ r3, r2.symm⟩
    · omega
  · obtain ⟨s1, s2⟩ := reachable_before_small env w hr j j1
    refine ⟨s1, s2, ?_⟩
    rcases main_tick_early env inp w h j j1 with ⟨_, r2, r3⟩ | r
    · omega
    · exact r

set_option maxRecDepth 100000 in
/-- Witness for C21: at tick 10999 a spawn that rolls 99, the highest draw,
has the role value 109 and stores the fifth archetype (100 hit points) without
starting a cue; the same draws at tick 11000 give the role value 110 and store
the boss with 1000 hit points.  A fresh session has no enemy above 100 hit
points after its first iteration. -/
theorem no_boss_before_tick_11000_witness :
    (late_spawn 10999).ticks < 11000 ∧
    (main_spawn env13h (late_spawn 10999)).speaker_sample =
      (late_spawn 10999).speaker_sample ∧
    ((main_spawn env13h (late_spawn 10999)).ship 1).color_a = env13h.vga.LIGHT_MAGENTA ∧
    ((main_spawn env13h (late_spawn 10999)).ship 1).hp = 100 ∧
    ((main_spawn env13h (late_spawn 11000)).ship 1).color_a = env13h.vga.LIGHT_GREEN ∧
    ((main_spawn env13h (late_spawn 11000)).ship 1).hp = 1000 ∧
    (main_spawn env13h (late_spawn 11000)).speaker_sample = Sample.fx_boss ∧
    ReachableBefore env13h 11000 (fresh []) ∧
    ∀ j, 1 ≤ j → ((main_tick env13h hold_fire (fresh [])).world.ship j).hp ≤ 100 :=
  ⟨by decide,
   (no_boss_before_tick_11000 env13h hold_fire (late_spawn 10999) (by decide)).2.1,
   by decide, by decide, by decide, by decide, by decide,
   ReachableBefore.reset _,
   fun j hj => ((no_boss_before_tick_11000 env13h hold_fire (fresh []) (by decide)).2.2.2.2.2
     (ReachableBefore.reset _) j hj).2.2.1⟩

end DosDefender
